import Mathlib

/-! # Smooth scroll engine (`src/js/custom-scroll.js`)

A shallow embedding of the module state, the event handlers and the
animation-frame loop of the custom smooth-scrolling script.

JavaScript numbers are modelled as exact rationals (`ℚ`); `0.16` is `4/25` and
`0.3` is `3/10`.  Sums and products are therefore not rounded and never
overflow, and a quotient by `0` is `0` where JavaScript yields `Infinity` or
`NaN`: statements about a quotient carry the hypothesis that its divisor is
not `0`, and statements about a distance that grows without bound hold for
exact arithmetic only.  The module-level variables, the DOM readings the
handlers consult, the DOM writes they perform and the queue of callbacks handed
to `requestAnimationFrame` are fields of one explicit `State`.

What the browser does is the environment's part and is a separate event:
the call `window.scrollTo(0, y)` is recorded as a request, and the `scroll`
event with which a browser answers it is `nativeScroll`; `scrollToInBrowser`
composes the two.
-/

namespace CustomScroll

/-- Source line 8: `const EASE = 0.16`. -/
def EASE : ℚ := 4 / 25

/-- Source line 9: `const STOP_THRESHOLD = 0.3`. -/
def STOP_THRESHOLD : ℚ := 3 / 10

/-- The two functions the script passes to `requestAnimationFrame`:
`smoothScrollStep` (lines 71, 88) and the closure `step` created by
`customScroll.scrollTo`, which captures its `ease` (lines 167, 170). -/
inductive Callback where
  | smoothScrollStep : Callback
  | step (ease : ℚ) : Callback
  deriving DecidableEq, Repr

/-- Observable writes, in the order they are performed. -/
inductive Effect where
  | bodyHeight (px : ℚ) : Effect
  | transform (translateY : ℚ) : Effect
  | thumbHeight (px : ℚ) : Effect
  | thumbTop (px : ℚ) : Effect
  | customscroll (scroll : ℚ) : Effect
  | nativeScrollTo (y : ℚ) : Effect
  | userSelect (value : String) : Effect
  deriving DecidableEq, Repr

/-- Module variables (lines 43-45, 95-97), the DOM readings used by the
handlers, the last value written to each styled property, the ordered trace of
writes, and the pending animation-frame callbacks. -/
structure State where
  targetScroll : ℚ
  currentScroll : ℚ
  isScrolling : Bool
  isDragging : Bool
  dragStartY : ℚ
  dragStartScroll : ℚ
  /-- Reading `scrollContainer.scrollHeight`. -/
  scrollHeight : ℚ
  /-- Reading `window.innerHeight`. -/
  innerHeight : ℚ
  /-- Reading `window.scrollY`. -/
  scrollY : ℚ
  /-- Reading `scrollbarTrack.offsetHeight`. -/
  trackOffsetHeight : ℚ
  /-- Reading `scrollbarThumb.offsetHeight`. -/
  thumbOffsetHeight : ℚ
  /-- Written `body.style.height`, in px. -/
  bodyHeight : Option ℚ
  /-- Written `scrollContainer.style.transform`, the `translateY` amount in px. -/
  transform : Option ℚ
  /-- Written `scrollbarThumb.style.height`, in px. -/
  thumbHeight : Option ℚ
  /-- Written `scrollbarThumb.style.top`, in px. -/
  thumbTop : Option ℚ
  /-- Written `document.body.style.userSelect`. -/
  userSelect : String
  effects : List Effect
  rafQueue : List Callback
  deriving DecidableEq, Repr

/-- The JavaScript idiom `x || 1` on a number: `0` is falsy. -/
def orOne (x : ℚ) : ℚ := if x = 0 then 1 else x

/-- Lines 38-40. -/
def setBodyHeight (s : State) : State :=
  { s with bodyHeight := some s.scrollHeight,
           effects := s.effects ++ [Effect.bodyHeight s.scrollHeight] }

/-- Lines 59-65.  The quotient `window.innerHeight / scrollContainer.scrollHeight`
is not finite in JavaScript when the content height is `0` (the script then
writes `Infinity` and `NaN`); here it is `0`, so what is said of the values
written is said for a content height that is not `0`. -/
def updateScrollbar (s : State) : State :=
  let scrollHeight := s.scrollHeight - s.innerHeight
  let progress := max 0 (min 1 (s.currentScroll / orOne scrollHeight))
  let thumbHeight := max 50 (s.trackOffsetHeight * (s.innerHeight / s.scrollHeight))
  let thumbTop := progress * (s.trackOffsetHeight - thumbHeight)
  { s with thumbHeight := some thumbHeight,
           thumbTop := some thumbTop,
           effects := s.effects ++ [Effect.thumbHeight thumbHeight, Effect.thumbTop thumbTop] }

/-- Lines 68-74. -/
def onScroll (s : State) : State :=
  let s1 := { s with targetScroll := max 0 (min (s.scrollHeight - s.innerHeight) s.scrollY) }
  if s1.isScrolling = false then
    { s1 with rafQueue := s1.rafQueue ++ [Callback.smoothScrollStep], isScrolling := true }
  else s1

/-- Lines 76-92. -/
def smoothScrollStep (s : State) : State :=
  let diff := s.targetScroll - s.currentScroll
  let s1 := { s with currentScroll := s.currentScroll + diff * EASE }
  let s2 := if |diff| < STOP_THRESHOLD then { s1 with currentScroll := s1.targetScroll } else s1
  let s3 := { s2 with transform := some (-s2.currentScroll),
                      effects := s2.effects ++ [Effect.transform (-s2.currentScroll)] }
  let s4 := updateScrollbar s3
  let s5 := { s4 with effects := s4.effects ++ [Effect.customscroll s4.currentScroll] }
  if |s5.targetScroll - s5.currentScroll| > STOP_THRESHOLD then
    { s5 with rafQueue := s5.rafQueue ++ [Callback.smoothScrollStep] }
  else
    { s5 with isScrolling := false }

/-- Lines 98-103: `mousedown` on the thumb. -/
def onMouseDown (clientY : ℚ) (s : State) : State :=
  { s with isDragging := true,
           dragStartY := clientY,
           dragStartScroll := s.currentScroll,
           userSelect := "none",
           effects := s.effects ++ [Effect.userSelect "none"] }

/-- Lines 104-111: `mousemove` on the window. -/
def onMouseMove (clientY : ℚ) (s : State) : State :=
  if s.isDragging = false then s
  else
    let delta := clientY - s.dragStartY
    let scrollHeight := s.scrollHeight - s.innerHeight
    let trackHeight := s.trackOffsetHeight - s.thumbOffsetHeight
    let scrollDelta := (delta / orOne trackHeight) * scrollHeight
    { s with effects := s.effects ++
        [Effect.nativeScrollTo (max 0 (min scrollHeight (s.dragStartScroll + scrollDelta)))] }

/-- Lines 112-115: `mouseup` on the window. -/
def onMouseUp (s : State) : State :=
  { s with isDragging := false,
           userSelect := "",
           effects := s.effects ++ [Effect.userSelect ""] }

/-- Lines 118-121 and 125-128: the `resize` listener and the `ResizeObserver`
callback have the same body. -/
def onResize (s : State) : State :=
  updateScrollbar (setBodyHeight s)

/-- Lines 140-144: the `load` listener. -/
def onLoad (s : State) : State :=
  onScroll (updateScrollbar (setBodyHeight s))

/-- Line 148: `customScroll.getScroll`. -/
def getScroll (s : State) : ℚ := s.currentScroll

/-- The options object of `customScroll.scrollTo`; an absent key is `none`. -/
structure Opts where
  duration : Option ℚ
  ease : Option ℚ
  deriving DecidableEq, Repr

/-- Lines 156-169: the closure `step` of `customScroll.scrollTo`.  The new
`currentScroll` is an exact rational: with an ease above `2` the distance grows
without bound here, where the doubles of the script end in `Infinity` and
`NaN`, and with an ease as small as `1e-17` it shrinks here, where a double
does not change. -/
def step (ease : ℚ) (s : State) : State :=
  let diff := s.targetScroll - s.currentScroll
  let s1 := { s with currentScroll := s.currentScroll + diff * ease }
  let s2 := if |diff| < STOP_THRESHOLD then { s1 with currentScroll := s1.targetScroll } else s1
  let s3 := { s2 with transform := some (-s2.currentScroll),
                      effects := s2.effects ++ [Effect.transform (-s2.currentScroll)] }
  let s4 := updateScrollbar s3
  let s5 := { s4 with effects := s4.effects ++ [Effect.customscroll s4.currentScroll] }
  if |s5.targetScroll - s5.currentScroll| > STOP_THRESHOLD then
    { s5 with rafQueue := s5.rafQueue ++ [Callback.step ease] }
  else
    s5

/-- Lines 149-171: `customScroll.scrollTo`.  `duration` is destructured with
default `600` and never read.  The call `window.scrollTo(0, targetScroll)` of
line 154 is recorded as a request: the `scroll` event a browser fires when that
request moves the page is not part of this function (`nativeScroll`,
`scrollToInBrowser`). -/
def scrollTo (y : ℚ) (opts : Opts) (s : State) : State :=
  let _duration := opts.duration.getD 600
  let ease := opts.ease.getD EASE
  let s1 := { s with targetScroll := max 0 (min (s.scrollHeight - s.innerHeight) y) }
  let s2 := { s1 with effects := s1.effects ++ [Effect.nativeScrollTo s1.targetScroll] }
  { s2 with rafQueue := s2.rafQueue ++ [Callback.step ease] }

/-- Calling `scrollTo(y)` with the options argument omitted (`opts = {}`). -/
def noOpts : Opts := { duration := none, ease := none }

/-- Invoking a callback taken from the animation-frame queue. -/
def runCallback : Callback → State → State
  | Callback.smoothScrollStep, s => smoothScrollStep s
  | Callback.step ease, s => step ease s

/-- The browser runs the oldest pending animation-frame callback; callbacks
registered meanwhile go to the back of the queue.  Nothing happens when no
callback is pending. -/
def frameStep (s : State) : State :=
  match s.rafQueue with
  | [] => s
  | cb :: rest => runCallback cb { s with rafQueue := rest }

/-- The next `n` callback invocations, with no other event in between. -/
def runFrames : Nat → State → State
  | 0, s => s
  | n + 1, s => runFrames n (frameStep s)

/-- The browser reports a native scroll offset: `window.scrollY` reads `y` and
the `scroll` listener (line 133) runs. -/
def nativeScroll (y : ℚ) (s : State) : State :=
  onScroll { s with scrollY := y }

/-- A call `customScroll.scrollTo(y, opts)` together with the browser's answer
to the `window.scrollTo(0, targetScroll)` of line 154: the page moves, the
browser fires `scroll` before the next animation frame with `window.scrollY`
reading the offset that was requested, and the listener of line 133 runs.  The
browser's part is the environment's, not the script's. -/
def scrollToInBrowser (y : ℚ) (opts : Opts) (s : State) : State :=
  nativeScroll (scrollTo y opts s).targetScroll (scrollTo y opts s)

/-- Lines 43-45, 95-97 and 136-138: the state the script leaves behind once it
has run to the end, given what `window.scrollY` and the layout read then. -/
def initState (scrollY scrollHeight innerHeight trackOffsetHeight thumbOffsetHeight : ℚ) :
    State :=
  let s0 : State :=
    { targetScroll := scrollY, currentScroll := scrollY, isScrolling := false,
      isDragging := false, dragStartY := 0, dragStartScroll := 0,
      scrollHeight := scrollHeight, innerHeight := innerHeight, scrollY := scrollY,
      trackOffsetHeight := trackOffsetHeight, thumbOffsetHeight := thumbOffsetHeight,
      bodyHeight := none, transform := none, thumbHeight := none, thumbTop := none,
      userSelect := "", effects := [], rafQueue := [] }
  onScroll (updateScrollbar (setBodyHeight s0))

/-- Line 12: `if (window.innerWidth <= 768) return;` - at that width or below
there is no engine; above it the script runs to the end. -/
def init (innerWidth scrollY scrollHeight innerHeight trackOffsetHeight thumbOffsetHeight : ℚ) :
    Option State :=
  if innerWidth ≤ 768 then none
  else some (initState scrollY scrollHeight innerHeight trackOffsetHeight thumbOffsetHeight)

/-- What can happen to a running engine. -/
inductive Event where
  /-- The browser fires `scroll` while `window.scrollY` reads `y`. -/
  | scroll (y : ℚ) : Event
  /-- The browser invokes the oldest pending animation-frame callback. -/
  | frame : Event
  /-- Another script calls `customScroll.scrollTo(y, opts)`. -/
  | scrollTo (y : ℚ) (opts : Opts) : Event
  | mousedown (clientY : ℚ) : Event
  | mousemove (clientY : ℚ) : Event
  | mouseup : Event
  /-- The viewport or the content changes size: the layout reads the new values
  and the `resize` listener or the `ResizeObserver` callback runs. -/
  | resize (scrollHeight innerHeight trackOffsetHeight thumbOffsetHeight : ℚ) : Event
  | load : Event
  deriving DecidableEq, Repr

/-- The handler the script runs for each event. -/
def applyEvent : Event → State → State
  | Event.scroll y, s => nativeScroll y s
  | Event.frame, s => frameStep s
  | Event.scrollTo y opts, s => scrollTo y opts s
  | Event.mousedown clientY, s => onMouseDown clientY s
  | Event.mousemove clientY, s => onMouseMove clientY s
  | Event.mouseup, s => onMouseUp s
  | Event.resize h v t th, s =>
      onResize { s with scrollHeight := h, innerHeight := v,
                        trackOffsetHeight := t, thumbOffsetHeight := th }
  | Event.load, s => onLoad s

/-- The states the engine can be in: the state after initialisation, and any
state an event leads to from there. -/
inductive Reachable : State → Prop where
  | init (w y h v t th : ℚ) (s : State) : init w y h v t th = some s → Reachable s
  | next {s : State} (e : Event) : Reachable s → Reachable (applyEvent e s)

/-- A run of native scroll events, one per reported offset, oldest first. -/
def nativeScrolls (ys : List ℚ) (s : State) : State :=
  ys.foldl (fun st y => nativeScroll y st) s

/-- No animation-frame callback is pending: every easing loop has stopped. -/
def atRest (s : State) : Prop := s.rafQueue = []

instance (s : State) : Decidable (atRest s) := by
  unfold atRest; infer_instance

/-- The largest scroll offset, `scrollContainer.scrollHeight - window.innerHeight`. -/
def maxScroll (s : State) : ℚ := s.scrollHeight - s.innerHeight

/-- Clamping as the script writes it: `Math.max(0, Math.min(hi, y))`. -/
def clamp (y hi : ℚ) : ℚ := max 0 (min hi y)

/-- A desktop page of content height 3800 in a viewport of height 800 (track
height 800), loaded at the top, after the frame that follows initialisation. -/
def pageAtTop : State := frameStep (initState 0 3800 800 800 (3200 / 19))

/-- The flag `isScrolling` counts the pending `smoothScrollStep` callbacks. -/
def flagMatchesQueue (s : State) : Prop :=
  s.rafQueue.count Callback.smoothScrollStep = s.isScrolling.toNat

/-- Only `smoothScrollStep` is pending, at most once: one easing loop started by
`onScroll`, running or already stopped, and nothing else. -/
def singleLoop (s : State) : Prop :=
  s.rafQueue = [] ∨ s.rafQueue = [Callback.smoothScrollStep]

/-- A page whose content (600) is shorter than the viewport (800), at rest, with
the browser reporting a native offset of 40. -/
def shortPage : State :=
  { frameStep (initState 0 600 800 800 800) with scrollY := 40 }

/-- The page at `currentScroll = 0` after a native scroll to `1000`: `targetScroll = 1000`, one
`smoothScrollStep` scheduled, content 3800 in a viewport of 800. -/
def from0to1000 : State := nativeScroll 1000 pageAtTop

/-- A page displayed at offset `1200` on which the browser reports a native
scroll back up to `100`. -/
def scrollingUp : State :=
  nativeScroll 100 (frameStep (initState 1200 3800 800 800 (3200 / 19)))

/-- A call of `customScroll.getScroll()` (line 148): the value returned and the
engine state after the call; the arrow function `() => currentScroll` assigns
nothing. -/
def callGetScroll (s : State) : ℚ × State := (getScroll s, s)

/-- Line 61: the `progress` that `updateScrollbar` computes. -/
def scrollProgress (s : State) : ℚ :=
  max 0 (min 1 (s.currentScroll / orOne (s.scrollHeight - s.innerHeight)))

/-- Line 62: the `thumbHeight` that `updateScrollbar` computes. -/
def computedThumbHeight (s : State) : ℚ :=
  max 50 (s.trackOffsetHeight * (s.innerHeight / s.scrollHeight))

/-- Line 64: the offset that `updateScrollbar` writes to `scrollbarThumb.style.top`. -/
def computedThumbTop (s : State) : ℚ :=
  scrollProgress s * (s.trackOffsetHeight - computedThumbHeight s)

/-- The page of content 3800 in a viewport of 800 displayed at offset `1500`. -/
def pageAt1500 : State := frameStep (initState 1500 3800 800 800 (3200 / 19))

/-- The page of content 3800 in a viewport of 800 displayed at offset `1500`,
whose scrollbar track is only 40 high. -/
def shortTrackPage : State := frameStep (initState 1500 3800 800 40 50)

/-- The events that change the layout readings: `resize`. -/
def Event.isResize : Event → Bool
  | Event.resize _ _ _ _ => true
  | _ => false

/-- The events whose handler calls `updateScrollbar` directly: `resize` (lines
118-121, 125-128) and `load` (lines 140-144). -/
def Event.callsUpdateScrollbar : Event → Bool
  | Event.resize _ _ _ _ => true
  | Event.load => true
  | _ => false

/-- A write to `scrollContainer.style.transform`. -/
def Effect.isTransform : Effect → Bool
  | Effect.transform _ => true
  | _ => false

/-- A write to `scrollbarThumb.style.height` or `scrollbarThumb.style.top`. -/
def Effect.isThumb : Effect → Bool
  | Effect.thumbHeight _ => true
  | Effect.thumbTop _ => true
  | _ => false

/-- A sequence of events, oldest first. -/
def applyEvents (es : List Event) (s : State) : State :=
  es.foldl (fun st e => applyEvent e st) s

/-- The page scrolled towards `1500` whose content then shrinks to height 1000. -/
def shrunkPage : State :=
  applyEvent (Event.resize 1000 800 800 640) (nativeScroll 1500 pageAtTop)

/-- A page of content 800 in a viewport of 798 (`maxScroll = 2`) whose thumb is
laid out as tall as the 800 track, with a drag started at pointer coordinate `0`. -/
def fullThumbDrag : State :=
  onMouseDown 0 (frameStep (initState 0 800 798 800 800))

/-- A drag started at pointer coordinate `100` on the page at the top (track
800, thumb `3200/19`). -/
def dragFromTop : State := onMouseDown 100 pageAtTop

/-- The request the `mousemove` handler would issue if it divided by
`trackHeight - thumbHeight` itself, with no `|| 1`. -/
def unguardedDragRequest (clientY : ℚ) (s : State) : ℚ :=
  clamp (s.dragStartScroll +
    (clientY - s.dragStartY) / (s.trackOffsetHeight - s.thumbOffsetHeight) * maxScroll s)
    (maxScroll s)

/-- The state once the layout reads a new content height, viewport height,
track height and thumb height. -/
def withLayout (s : State) (h v t th : ℚ) : State :=
  { s with scrollHeight := h, innerHeight := v, trackOffsetHeight := t, thumbOffsetHeight := th }

/-- The divisors of the two quotients in `updateScrollbar`: `scrollHeight || 1`
(line 61) and `scrollContainer.scrollHeight` (line 62). -/
def updateScrollbarDivisors (s : State) : List ℚ :=
  [orOne (s.scrollHeight - s.innerHeight), s.scrollHeight]

/-- The divisor of the quotient in the `mousemove` handler: `trackHeight || 1`
(line 109). -/
def mouseMoveDivisors (s : State) : List ℚ :=
  [orOne (s.trackOffsetHeight - s.thumbOffsetHeight)]

/-- The fraction of the remaining distance a callback moves by: `EASE` for
`smoothScrollStep`, the captured `ease` for a `step` closure. -/
def Callback.ease : Callback → ℚ
  | Callback.smoothScrollStep => EASE
  | Callback.step e => e

/-- A page at offset `0` on which `scrollTo(1000, { ease })` has just been called. -/
def scrollToWithEase (ease : ℚ) : State :=
  scrollTo 1000 { duration := none, ease := some ease } pageAtTop

/-- The page at offset `0` on which `scrollTo(1000, { ease })` has been called
and the browser has fired the `scroll` event of the native scroll it requests. -/
def scrollToWithEaseInBrowser (ease : ℚ) : State :=
  scrollToInBrowser 1000 { duration := none, ease := some ease } pageAtTop

/-- The page at the top (`maxScroll = 3000`) on which `scrollTo(3000)` was
called, the browser fired the `scroll` event of the native scroll, and four
animation-frame callbacks have run: the run towards `3000` is under way. -/
def redirectedMidway : State :=
  runFrames 4 (nativeScrolls [3000] (scrollTo 3000 noOpts pageAtTop))

/-- What the script finds when it runs: the viewport width, which elements the
document already has, whether `window.ResizeObserver` exists, and the readings
it will take. -/
structure Page where
  innerWidth : ℚ
  /-- `document.querySelector('#smooth-scroll-container')` is not `null`. -/
  hasScrollContainer : Bool
  /-- `document.querySelector('.custom-scrollbar-container')` is not `null`. -/
  hasScrollbarContainer : Bool
  /-- That existing scrollbar container has a `.custom-scrollbar-track` descendant. -/
  hasTrack : Bool
  /-- That existing scrollbar container has a `.custom-scrollbar-thumb` descendant. -/
  hasThumb : Bool
  hasResizeObserver : Bool
  scrollY : ℚ
  scrollHeight : ℚ
  innerHeight : ℚ
  trackOffsetHeight : ℚ
  thumbOffsetHeight : ℚ
  deriving DecidableEq, Repr

/-- The listeners and observers the script registers. -/
inductive Listener where
  /-- Line 98: `mousedown` on the thumb. -/
  | thumbMousedown : Listener
  /-- Line 104. -/
  | windowMousemove : Listener
  /-- Line 112. -/
  | windowMouseup : Listener
  /-- Line 118. -/
  | windowResize : Listener
  /-- Lines 125-129: the `ResizeObserver` on the scroll container. -/
  | resizeObserver : Listener
  /-- Line 133. -/
  | windowScroll : Listener
  /-- Line 140. -/
  | windowLoad : Listener
  deriving DecidableEq, Repr

/-- What running the script has done to the page when it stops. -/
structure ScriptRun where
  /-- An uncaught `TypeError` ended the script. -/
  threw : Bool
  /-- Lines 18-25: a `#smooth-scroll-container` was created and the body's
  children moved into it. -/
  containerCreated : Bool
  /-- Lines 28-35: the container was given `position: fixed` and the other styles. -/
  containerStyled : Bool
  /-- Lines 49-54: a `.custom-scrollbar-container` with track and thumb was
  created and appended to the body. -/
  scrollbarCreated : Bool
  listeners : List Listener
  /-- Line 147: `window.customScroll` was assigned. -/
  customScrollDefined : Bool
  /-- The module variables and the writes made through them when the script
  stopped; `none` when it returned at line 12. -/
  state : Option State
  deriving DecidableEq, Repr

/-- The page as the script found it: nothing styled, created, registered or
defined, and no error. -/
def ScriptRun.untouched : ScriptRun :=
  { threw := false, containerCreated := false, containerStyled := false,
    scrollbarCreated := false, listeners := [], customScrollDefined := false, state := none }

/-- Lines 43-45 and 95-97: the module variables as declared, before any
function of the script has run. -/
def declaredState (scrollY scrollHeight innerHeight trackOffsetHeight thumbOffsetHeight : ℚ) :
    State :=
  { targetScroll := scrollY, currentScroll := scrollY, isScrolling := false,
    isDragging := false, dragStartY := 0, dragStartScroll := 0,
    scrollHeight := scrollHeight, innerHeight := innerHeight, scrollY := scrollY,
    trackOffsetHeight := trackOffsetHeight, thumbOffsetHeight := thumbOffsetHeight,
    bodyHeight := none, transform := none, thumbHeight := none, thumbTop := none,
    userSelect := "", effects := [], rafQueue := [] }

/-- Lines 55-56: `scrollbarTrack` is not `null` - the script created the
scrollbar itself, or the existing container has a track. -/
def Page.trackFound (p : Page) : Bool := !p.hasScrollbarContainer || p.hasTrack

/-- Lines 55-56: `scrollbarThumb` is not `null`. -/
def Page.thumbFound (p : Page) : Bool := !p.hasScrollbarContainer || p.hasThumb

/-- Lines 98-133: the listeners registered, in order, once the thumb listener
could be attached. -/
def listenersBeforeSetup (p : Page) : List Listener :=
  [Listener.thumbMousedown, Listener.windowMousemove, Listener.windowMouseup,
    Listener.windowResize] ++
  (if p.hasResizeObserver then [Listener.resizeObserver] else []) ++
  [Listener.windowScroll]

/-- The whole script, lines 5-173, run on a page.  Reading a property of
`null` (line 98 for a missing thumb, line 62 inside the `updateScrollbar()` call
of line 137 for a missing track) raises a `TypeError` that nothing catches. -/
def runScript (p : Page) : ScriptRun :=
  if p.innerWidth ≤ 768 then ScriptRun.untouched
  else
    let s0 := declaredState p.scrollY p.scrollHeight p.innerHeight p.trackOffsetHeight
      p.thumbOffsetHeight
    if p.thumbFound = false then
      { threw := true, containerCreated := !p.hasScrollContainer, containerStyled := true,
        scrollbarCreated := !p.hasScrollbarContainer, listeners := [],
        customScrollDefined := false, state := some s0 }
    else if p.trackFound = false then
      { threw := true, containerCreated := !p.hasScrollContainer, containerStyled := true,
        scrollbarCreated := !p.hasScrollbarContainer, listeners := listenersBeforeSetup p,
        customScrollDefined := false, state := some (setBodyHeight s0) }
    else
      { threw := false, containerCreated := !p.hasScrollContainer, containerStyled := true,
        scrollbarCreated := !p.hasScrollbarContainer,
        listeners := listenersBeforeSetup p ++ [Listener.windowLoad],
        customScrollDefined := true,
        state := some (onScroll (updateScrollbar (setBodyHeight s0))) }

/-- A desktop page (width 1280, content 3800, viewport 800) with no scroll
container and no scrollbar of its own. -/
def plainDesktopPage : Page :=
  { innerWidth := 1280, hasScrollContainer := false, hasScrollbarContainer := false,
    hasTrack := false, hasThumb := false, hasResizeObserver := true,
    scrollY := 0, scrollHeight := 3800, innerHeight := 800,
    trackOffsetHeight := 800, thumbOffsetHeight := 3200 / 19 }

/-- The same page on a phone-sized viewport of width 768. -/
def narrowPage : Page := { plainDesktopPage with innerWidth := 768 }

/-- A desktop page whose markup already has an empty
`<div class="custom-scrollbar-container"></div>`: no track, no thumb. -/
def emptyScrollbarPage : Page :=
  { plainDesktopPage with hasScrollbarContainer := true, hasTrack := false, hasThumb := false }

/-- A desktop page whose existing scrollbar container has a thumb but no track. -/
def thumbOnlyPage : Page :=
  { plainDesktopPage with hasScrollbarContainer := true, hasTrack := false, hasThumb := true }

/-- A desktop page one pixel wider than the threshold (width 769), otherwise
as `plainDesktopPage`. -/
def justDesktopPage : Page := { plainDesktopPage with innerWidth := 769 }

/-- The page of width 769 whose markup already has an empty
`<div class="custom-scrollbar-container"></div>`. -/
def justDesktopEmptyScrollbarPage : Page :=
  { plainDesktopPage with innerWidth := 769, hasScrollbarContainer := true }

/-- The page of width 769 in a browser without `ResizeObserver`. -/
def justDesktopNoObserverPage : Page :=
  { plainDesktopPage with innerWidth := 769, hasResizeObserver := false }

end CustomScroll

/-! # Local file links (`src/js/main.js`)

JavaScript strings are modelled as lists of characters. -/

namespace Main

/-- The JavaScript regular-expression class `\s`, by code point. -/
def isWhiteSpace (c : Char) : Bool :=
  c.toNat = 9 || c.toNat = 10 || c.toNat = 11 || c.toNat = 12 || c.toNat = 13 ||
  c.toNat = 32 || c.toNat = 160 || c.toNat = 5760 || (8192 ≤ c.toNat && c.toNat ≤ 8202) ||
  c.toNat = 8232 || c.toNat = 8233 || c.toNat = 8239 || c.toNat = 8287 ||
  c.toNat = 12288 || c.toNat = 65279

/-- Matching a literal pattern, written in lower case, at the start of `s`
under the `i` flag: the rest of `s` after the match, if there is one.  Without
the `u` flag only the ASCII letters fold onto ASCII letters. -/
def dropLiteralCI : List Char → List Char → Option (List Char)
  | [], s => some s
  | _ :: _, [] => none
  | p :: ps, c :: cs => if c.toLower = p then dropLiteralCI ps cs else none

/-- Line 127: `/^(https?:|mailto:|tel:|#)/i.test(href)`. -/
def schemeTest (href : List Char) : Bool :=
  (dropLiteralCI "http:".toList href).isSome || (dropLiteralCI "https:".toList href).isSome ||
  (dropLiteralCI "mailto:".toList href).isSome || (dropLiteralCI "tel:".toList href).isSome ||
  (dropLiteralCI "#".toList href).isSome

/-- The pattern `\.html(#[^\s]*)?$` of line 128 matched at the start of `t`. -/
def htmlAtStart (t : List Char) : Bool :=
  match dropLiteralCI ".html".toList t with
  | none => false
  | some [] => true
  | some (c :: frag) => c = '#' && frag.all (fun x => !isWhiteSpace x)

/-- Line 128: `/\.html(#[^\s]*)?$/i.test(href)` - a match may start anywhere. -/
def htmlTest (href : List Char) : Bool := href.tails.any htmlAtStart

/-- The pattern `\.[^\/]+$` of line 133 matched at the start of `t`. -/
def extensionAtStart (t : List Char) : Bool :=
  match t with
  | '.' :: c :: rest => (c :: rest).all (fun x => x != '/')
  | _ => false

/-- Line 133: `/\.[^\/]+$/.test(target)`. -/
def extensionTest (target : List Char) : Bool := target.tails.any extensionAtStart

/-- Lines 125-137: `resolveHrefForFile`, given `window.location.protocol`. -/
def resolveHrefForFile (protocol href : List Char) : List Char :=
  if protocol ≠ "file:".toList then href
  else if schemeTest href then href
  else if htmlTest href then href
  else if href.getLast? = some '/' then href ++ "index.html".toList
  else if !extensionTest href then href ++ "/index.html".toList
  else href

/-- In the words of the specification: `s` starts with `p`, ASCII letters
compared without regard to case. -/
def StartsWithCI (p s : List Char) : Prop :=
  ∃ pre rest, s = pre ++ rest ∧ pre.map Char.toLower = p

/-- In the words of the specification: `href` starts with `http:`, `https:`,
`mailto:`, `tel:` or `#`. -/
def HasSpecialPrefix (href : List Char) : Prop :=
  StartsWithCI "http:".toList href ∨ StartsWithCI "https:".toList href ∨
  StartsWithCI "mailto:".toList href ∨ StartsWithCI "tel:".toList href ∨
  StartsWithCI "#".toList href

/-- In the words of the specification: `href` ends in `.html` (any case),
optionally followed by a fragment, `#` and characters that are not white space. -/
def EndsInHtml (href : List Char) : Prop :=
  ∃ pre ext frag, href = pre ++ ext ++ frag ∧ ext.map Char.toLower = ".html".toList ∧
    (frag = [] ∨ ∃ f, frag = '#' :: f ∧ ∀ c ∈ f, isWhiteSpace c = false)

/-- In the words of the specification: `seg` is the last path segment of
`href`, what follows the last `/` (all of `href` when there is none). -/
def IsLastSegment (href seg : List Char) : Prop :=
  '/' ∉ seg ∧ ∃ pre, href = pre ++ seg ∧ (pre = [] ∨ pre.getLast? = some '/')

/-- In the words of the specification: `seg` has an extension, a `.` followed
by at least one character. -/
def HasExtension (seg : List Char) : Prop :=
  ∃ a b, seg = a ++ '.' :: b ∧ b ≠ []

/-- In the words of the specification: the last path segment of `href` has an
extension. -/
def LastSegmentHasExtension (href : List Char) : Prop :=
  ∃ seg, IsLastSegment href seg ∧ HasExtension seg

end Main

namespace CustomScroll

/-! ## Projections of the two step functions -/

theorem smoothScrollStep_targetScroll (s : State) :
    (smoothScrollStep s).targetScroll = s.targetScroll := by
  simp only [smoothScrollStep, updateScrollbar]
  split_ifs <;> rfl

theorem smoothScrollStep_currentScroll (s : State) :
    (smoothScrollStep s).currentScroll =
      if |s.targetScroll - s.currentScroll| < STOP_THRESHOLD then s.targetScroll
      else s.currentScroll + (s.targetScroll - s.currentScroll) * EASE := by
  simp only [smoothScrollStep, updateScrollbar]
  split_ifs <;> rfl

theorem smoothScrollStep_rafQueue (s : State) :
    (smoothScrollStep s).rafQueue =
      if |s.targetScroll - (smoothScrollStep s).currentScroll| > STOP_THRESHOLD then
        s.rafQueue ++ [Callback.smoothScrollStep]
      else s.rafQueue := by
  simp only [smoothScrollStep, updateScrollbar]
  split_ifs <;> rfl

theorem smoothScrollStep_isScrolling (s : State) :
    (smoothScrollStep s).isScrolling =
      if |s.targetScroll - (smoothScrollStep s).currentScroll| > STOP_THRESHOLD then
        s.isScrolling
      else false := by
  simp only [smoothScrollStep, updateScrollbar]
  split_ifs <;> rfl

theorem step_targetScroll (e : ℚ) (s : State) :
    (step e s).targetScroll = s.targetScroll := by
  simp only [step, updateScrollbar]
  split_ifs <;> rfl

theorem step_currentScroll (e : ℚ) (s : State) :
    (step e s).currentScroll =
      if |s.targetScroll - s.currentScroll| < STOP_THRESHOLD then s.targetScroll
      else s.currentScroll + (s.targetScroll - s.currentScroll) * e := by
  simp only [step, updateScrollbar]
  split_ifs <;> rfl

theorem step_rafQueue (e : ℚ) (s : State) :
    (step e s).rafQueue =
      if |s.targetScroll - (step e s).currentScroll| > STOP_THRESHOLD then
        s.rafQueue ++ [Callback.step e]
      else s.rafQueue := by
  simp only [step, updateScrollbar]
  split_ifs <;> rfl

theorem step_isScrolling (e : ℚ) (s : State) :
    (step e s).isScrolling = s.isScrolling := by
  simp only [step, updateScrollbar]
  split_ifs <;> rfl

theorem flagMatchesQueue_onScroll {s : State} (h : flagMatchesQueue s) :
    flagMatchesQueue (onScroll s) := by
  unfold flagMatchesQueue at *
  cases hs : s.isScrolling <;> simp_all [onScroll]

theorem flagMatchesQueue_frameStep {s : State} (h : flagMatchesQueue s) :
    flagMatchesQueue (frameStep s) := by
  unfold flagMatchesQueue at *
  unfold frameStep
  rcases hq : s.rafQueue with _ | ⟨cb, rest⟩
  · simpa [hq] using h
  · rw [hq] at h
    cases cb with
    | smoothScrollStep =>
      simp only [runCallback, smoothScrollStep_rafQueue, smoothScrollStep_isScrolling]
      cases hs : s.isScrolling
      · simp [hs] at h
      · have h0 : rest.count Callback.smoothScrollStep = 0 := by simpa [hs] using h
        split_ifs <;> simp [h0]
    | step e =>
      simp only [runCallback, step_rafQueue, step_isScrolling]
      have h0 : rest.count Callback.smoothScrollStep = s.isScrolling.toNat := by simpa using h
      split_ifs <;> simp [h0]

theorem flagMatchesQueue_applyEvent (e : Event) {s : State} (h : flagMatchesQueue s) :
    flagMatchesQueue (applyEvent e s) := by
  cases e with
  | scroll y => exact flagMatchesQueue_onScroll (s := { s with scrollY := y }) h
  | frame => exact flagMatchesQueue_frameStep h
  | scrollTo y opts =>
    unfold flagMatchesQueue at *
    simpa [applyEvent, scrollTo, List.count_append] using h
  | mousedown y => exact h
  | mousemove y =>
    unfold flagMatchesQueue at *
    cases hd : s.isDragging <;> simpa [applyEvent, onMouseMove, hd] using h
  | mouseup => exact h
  | resize a b c d => exact h
  | load => exact flagMatchesQueue_onScroll (s := updateScrollbar (setBodyHeight s)) h

theorem flagMatchesQueue_of_reachable {s : State} (h : Reachable s) : flagMatchesQueue s := by
  induction h with
  | init w y hh v t th s hi =>
    unfold init at hi
    split_ifs at hi
    cases hi
    simp [flagMatchesQueue, initState, onScroll, updateScrollbar, setBodyHeight]
  | next e _ ih => exact flagMatchesQueue_applyEvent e ih

/-! ## Running animation frames -/

theorem frameStep_of_atRest {s : State} (h : s.rafQueue = []) : frameStep s = s := by
  simp [frameStep, h]

theorem runFrames_succ_last (n : Nat) (s : State) :
    runFrames (n + 1) s = frameStep (runFrames n s) := by
  induction n generalizing s with
  | zero => rfl
  | succ k ih =>
    show runFrames (k + 1) (frameStep s) = frameStep (runFrames k (frameStep s))
    exact ih (frameStep s)

theorem runFrames_add (m n : Nat) (s : State) :
    runFrames (m + n) s = runFrames n (runFrames m s) := by
  induction m generalizing s with
  | zero => simp [runFrames]
  | succ k ih =>
    rw [Nat.add_right_comm]
    show runFrames (k + n) (frameStep s) = runFrames n (runFrames k (frameStep s))
    exact ih (frameStep s)

theorem runFrames_of_atRest {s : State} (h : s.rafQueue = []) (n : Nat) :
    runFrames n s = s := by
  induction n with
  | zero => rfl
  | succ k ih => rw [runFrames_succ_last, ih, frameStep_of_atRest h]

theorem frameStep_singleLoop {s : State} (h : singleLoop s) :
    singleLoop (frameStep s) ∧ (frameStep s).targetScroll = s.targetScroll := by
  rcases h with h | h
  · rw [frameStep_of_atRest h]; exact ⟨Or.inl h, rfl⟩
  · simp only [frameStep, h, runCallback, singleLoop, smoothScrollStep_rafQueue,
      smoothScrollStep_targetScroll]
    split_ifs <;> simp

theorem frameStep_singleLoop_between {s : State} (h : singleLoop s) :
    (s.currentScroll ≤ s.targetScroll →
      s.currentScroll ≤ (frameStep s).currentScroll ∧
      (frameStep s).currentScroll ≤ s.targetScroll) ∧
    (s.targetScroll ≤ s.currentScroll →
      (frameStep s).currentScroll ≤ s.currentScroll ∧
      s.targetScroll ≤ (frameStep s).currentScroll) := by
  rcases h with h | h
  · rw [frameStep_of_atRest h]
    exact ⟨fun h1 => ⟨le_refl _, h1⟩, fun h1 => ⟨le_refl _, h1⟩⟩
  · simp only [frameStep, h, runCallback, smoothScrollStep_currentScroll, EASE]
    constructor
    · intro h1
      split_ifs
      · exact ⟨h1, le_refl _⟩
      · constructor <;> linarith
    · intro h1
      split_ifs
      · exact ⟨h1, le_refl _⟩
      · constructor <;> linarith

theorem runFrames_singleLoop {s : State} (h : singleLoop s) (n : Nat) :
    singleLoop (runFrames n s) ∧ (runFrames n s).targetScroll = s.targetScroll := by
  induction n with
  | zero => exact ⟨h, rfl⟩
  | succ k ih =>
    rw [runFrames_succ_last]
    have := frameStep_singleLoop ih.1
    exact ⟨this.1, this.2.trans ih.2⟩

/-! ## Reachability and repeated scroll events -/

theorem reachable_runFrames {s : State} (h : Reachable s) (n : Nat) :
    Reachable (runFrames n s) := by
  induction n with
  | zero => exact h
  | succ k ih => rw [runFrames_succ_last]; exact Reachable.next Event.frame ih

theorem reachable_nativeScroll {s : State} (h : Reachable s) (y : ℚ) :
    Reachable (nativeScroll y s) :=
  Reachable.next (Event.scroll y) h

theorem reachable_scrollTo {s : State} (h : Reachable s) (y : ℚ) (opts : Opts) :
    Reachable (scrollTo y opts s) :=
  Reachable.next (Event.scrollTo y opts) h

theorem reachable_pageAtTop : Reachable pageAtTop :=
  Reachable.next Event.frame
    (Reachable.init 1280 0 3800 800 800 (3200 / 19) _ (by norm_num [init]))

theorem nativeScroll_of_isScrolling {s : State} (y : ℚ) (h : s.isScrolling = true) :
    (nativeScroll y s).rafQueue = s.rafQueue ∧ (nativeScroll y s).isScrolling = true := by
  simp [nativeScroll, onScroll, h]

theorem nativeScrolls_of_isScrolling (ys : List ℚ) {s : State} (h : s.isScrolling = true) :
    (nativeScrolls ys s).rafQueue = s.rafQueue ∧ (nativeScrolls ys s).isScrolling = true := by
  induction ys generalizing s with
  | nil => exact ⟨rfl, h⟩
  | cons y rest ih =>
    have h1 := nativeScroll_of_isScrolling y h
    have h2 := ih h1.2
    exact ⟨h2.1.trans h1.1, h2.2⟩

theorem onScroll_of_isScrolling {s : State} (h : s.isScrolling = true) :
    (onScroll s).rafQueue = s.rafQueue ∧ (onScroll s).isScrolling = true := by
  simp [onScroll, h]

theorem iterate_onScroll_of_isScrolling (n : Nat) {s : State} (h : s.isScrolling = true) :
    (onScroll^[n] s).rafQueue = s.rafQueue ∧ (onScroll^[n] s).isScrolling = true := by
  induction n generalizing s with
  | zero => exact ⟨rfl, h⟩
  | succ k ih =>
    rw [Function.iterate_succ_apply]
    have h1 := onScroll_of_isScrolling h
    have h2 := ih h1.2
    exact ⟨h2.1.trans h1.1, h2.2⟩

/-! ## What a run of the loops comes to rest on -/

/-- A single `smoothScrollStep` loop that has at least `0.3` to go never snaps:
whenever it has stopped, `currentScroll` differs from `targetScroll`. -/
theorem single_loop_rests_off_target (s : State) (n : Nat)
    (hq : s.rafQueue = [Callback.smoothScrollStep])
    (hd : STOP_THRESHOLD ≤ |s.targetScroll - s.currentScroll|)
    (hrest : (runFrames n s).rafQueue = []) :
    (runFrames n s).currentScroll ≠ (runFrames n s).targetScroll ∧
    |(runFrames n s).targetScroll - (runFrames n s).currentScroll| ≤ STOP_THRESHOLD := by
  have key : ∀ k, ((runFrames k s).rafQueue = [Callback.smoothScrollStep] ∧
        STOP_THRESHOLD ≤ |(runFrames k s).targetScroll - (runFrames k s).currentScroll|) ∨
      ((runFrames k s).rafQueue = [] ∧
        (runFrames k s).currentScroll ≠ (runFrames k s).targetScroll ∧
        |(runFrames k s).targetScroll - (runFrames k s).currentScroll| ≤ STOP_THRESHOLD) := by
    intro k
    induction k with
    | zero => exact Or.inl ⟨hq, hd⟩
    | succ j ih =>
      rw [runFrames_succ_last]
      rcases ih with ⟨h1, h2⟩ | ⟨h1, h2⟩
      · have hc : (frameStep (runFrames j s)).currentScroll =
            (runFrames j s).currentScroll +
              ((runFrames j s).targetScroll - (runFrames j s).currentScroll) * EASE := by
          simp only [frameStep, h1, runCallback, smoothScrollStep_currentScroll]
          exact if_neg (not_lt.mpr h2)
        have ht : (frameStep (runFrames j s)).targetScroll = (runFrames j s).targetScroll := by
          simp only [frameStep, h1, runCallback, smoothScrollStep_targetScroll]
        have hqq : (frameStep (runFrames j s)).rafQueue =
            if |(runFrames j s).targetScroll - (frameStep (runFrames j s)).currentScroll| >
                STOP_THRESHOLD then [Callback.smoothScrollStep] else [] := by
          simp only [frameStep, h1, runCallback, smoothScrollStep_rafQueue]
          rfl
        have hrem : (frameStep (runFrames j s)).targetScroll -
            (frameStep (runFrames j s)).currentScroll =
            ((runFrames j s).targetScroll - (runFrames j s).currentScroll) * (21 / 25) := by
          rw [ht, hc]; simp only [EASE]; ring
        by_cases hgt : |(runFrames j s).targetScroll - (frameStep (runFrames j s)).currentScroll| >
            STOP_THRESHOLD
        · left
          rw [hqq, if_pos hgt, ht]
          exact ⟨rfl, hgt.le⟩
        · right
          rw [hqq, if_neg hgt, ht]
          refine ⟨rfl, ?_, not_lt.mp hgt⟩
          intro heq
          have h0 : (runFrames j s).targetScroll - (runFrames j s).currentScroll = 0 := by
            have : ((runFrames j s).targetScroll - (runFrames j s).currentScroll) * (21 / 25) = 0 := by
              rw [← hrem, ht, heq]; ring
            simpa using this
          rw [h0] at h2
          norm_num [STOP_THRESHOLD] at h2
      · right
        rw [frameStep_of_atRest h1]
        exact ⟨h1, h2⟩
  rcases key n with ⟨h1, _⟩ | ⟨_, h2⟩
  · rw [h1] at hrest; cases hrest
  · exact h2

/-- One `step` callback run from the head of the queue. -/
theorem frameStep_step_head {s : State} {e : ℚ} {rest : List Callback}
    (hq : s.rafQueue = Callback.step e :: rest) :
    (frameStep s).targetScroll = s.targetScroll ∧
    (frameStep s).scrollHeight = s.scrollHeight ∧
    (frameStep s).innerHeight = s.innerHeight ∧
    (frameStep s).currentScroll =
      (if |s.targetScroll - s.currentScroll| < STOP_THRESHOLD then s.targetScroll
       else s.currentScroll + (s.targetScroll - s.currentScroll) * e) ∧
    (frameStep s).rafQueue =
      (if |s.targetScroll - (frameStep s).currentScroll| > STOP_THRESHOLD then
        rest ++ [Callback.step e] else rest) := by
  simp only [frameStep, hq, runCallback, step_targetScroll, step_currentScroll, step_rafQueue]
  refine ⟨trivial, ?_, ?_, trivial, trivial⟩
  · simp only [step, updateScrollbar]; split_ifs <;> rfl
  · simp only [step, updateScrollbar]; split_ifs <;> rfl

/-- A lone `step` callback that starts strictly within the threshold snaps and
stops. -/
theorem lone_step_snaps {s : State} {e : ℚ} (hq : s.rafQueue = [Callback.step e])
    (hd : |s.targetScroll - s.currentScroll| < STOP_THRESHOLD) :
    (frameStep s).rafQueue = [] ∧ (frameStep s).currentScroll = s.targetScroll := by
  obtain ⟨_, _, _, hc, hqq⟩ := frameStep_step_head hq
  rw [if_pos hd] at hc
  rw [hc] at hqq
  refine ⟨?_, hc⟩
  rw [hqq, if_neg]
  norm_num [STOP_THRESHOLD]

/-- Two default-ease `step` loops running together: unless some callback leaves
the distance at exactly the threshold, they both stop and the last one to run
has snapped `currentScroll` onto `targetScroll`. -/
theorem two_step_loops_rest_on_target (N : Nat) : ∀ s : State,
    s.rafQueue = [Callback.step EASE, Callback.step EASE] →
    |s.targetScroll - s.currentScroll| * (21 / 25) ^ N < STOP_THRESHOLD →
    (∀ j, |(runFrames j s).targetScroll - (runFrames j s).currentScroll| ≠ STOP_THRESHOLD) →
    ∃ n, (runFrames n s).rafQueue = [] ∧ (runFrames n s).currentScroll = s.targetScroll := by
  have small : ∀ s : State, s.rafQueue = [Callback.step EASE, Callback.step EASE] →
      |s.targetScroll - s.currentScroll| < STOP_THRESHOLD →
      ∃ n, (runFrames n s).rafQueue = [] ∧ (runFrames n s).currentScroll = s.targetScroll := by
    intro s hq hd
    obtain ⟨ht, _, _, hc, hqq⟩ := frameStep_step_head hq
    rw [if_pos hd] at hc
    have hq1 : (frameStep s).rafQueue = [Callback.step EASE] := by
      rw [hqq, hc, if_neg]
      norm_num [STOP_THRESHOLD]
    have hd1 : |(frameStep s).targetScroll - (frameStep s).currentScroll| < STOP_THRESHOLD := by
      rw [ht, hc]; norm_num [STOP_THRESHOLD]
    have h2 := lone_step_snaps hq1 hd1
    exact ⟨2, h2.1, h2.2.trans ht⟩
  induction N with
  | zero =>
    intro s hq hd _
    exact small s hq (by simpa using hd)
  | succ k ih =>
    intro s hq hd hb
    by_cases hlt : |s.targetScroll - s.currentScroll| < STOP_THRESHOLD
    · exact small s hq hlt
    · obtain ⟨ht, _, _, hc, hqq⟩ := frameStep_step_head hq
      rw [if_neg hlt] at hc
      have hrem : (frameStep s).targetScroll - (frameStep s).currentScroll =
          (s.targetScroll - s.currentScroll) * (21 / 25) := by
        rw [ht, hc]; simp only [EASE]; ring
      have habs : |(frameStep s).targetScroll - (frameStep s).currentScroll| =
          |s.targetScroll - s.currentScroll| * (21 / 25) := by
        rw [hrem, abs_mul]; norm_num
      have hshift : ∀ j, |(runFrames j (frameStep s)).targetScroll -
          (runFrames j (frameStep s)).currentScroll| ≠ STOP_THRESHOLD := fun j => hb (j + 1)
      by_cases hgt : |s.targetScroll - (frameStep s).currentScroll| > STOP_THRESHOLD
      · rw [if_pos hgt] at hqq
        have hd' : |(frameStep s).targetScroll - (frameStep s).currentScroll| * (21 / 25) ^ k <
            STOP_THRESHOLD := by
          rw [habs]
          calc |s.targetScroll - s.currentScroll| * (21 / 25) * (21 / 25) ^ k
              = |s.targetScroll - s.currentScroll| * (21 / 25) ^ (k + 1) := by ring
            _ < STOP_THRESHOLD := hd
        obtain ⟨n, hn1, hn2⟩ := ih (frameStep s) hqq hd' hshift
        exact ⟨n + 1, hn1, hn2.trans ht⟩
      · rw [if_neg hgt] at hqq
        have hle : |(frameStep s).targetScroll - (frameStep s).currentScroll| ≤ STOP_THRESHOLD := by
          rw [ht]; exact not_lt.mp hgt
        have hne := hb 1
        have hd1 : |(frameStep s).targetScroll - (frameStep s).currentScroll| < STOP_THRESHOLD :=
          lt_of_le_of_ne hle hne
        have h2 := lone_step_snaps hqq hd1
        exact ⟨2, h2.1, h2.2.trans ht⟩

/-- Redirect, away from the threshold: `scrollTo(Y2)` issued with default
options while one default-ease `step` loop is still pending makes every loop
stop with `currentScroll` exactly `clamp(Y2, 0, maxScroll)`, provided no
callback leaves the distance at exactly `0.3`. -/
theorem redirect_rests_on_second_target (s : State) (Y2 : ℚ)
    (hq : s.rafQueue = [Callback.step EASE])
    (hb : ∀ j, |(runFrames j (scrollTo Y2 noOpts s)).targetScroll -
        (runFrames j (scrollTo Y2 noOpts s)).currentScroll| ≠ STOP_THRESHOLD) :
    ∃ n, ∀ m, n ≤ m →
      atRest (runFrames m (scrollTo Y2 noOpts s)) ∧
      (runFrames m (scrollTo Y2 noOpts s)).currentScroll = clamp Y2 (maxScroll s) := by
  have hq2 : (scrollTo Y2 noOpts s).rafQueue = [Callback.step EASE, Callback.step EASE] := by
    simp [scrollTo, hq, noOpts]
  have ht2 : (scrollTo Y2 noOpts s).targetScroll = clamp Y2 (maxScroll s) := rfl
  obtain ⟨N, hN⟩ : ∃ N : ℕ, |(scrollTo Y2 noOpts s).targetScroll -
      (scrollTo Y2 noOpts s).currentScroll| * (21 / 25) ^ N < STOP_THRESHOLD := by
    by_cases h0 : |(scrollTo Y2 noOpts s).targetScroll - (scrollTo Y2 noOpts s).currentScroll| = 0
    · exact ⟨0, by rw [h0]; norm_num [STOP_THRESHOLD]⟩
    · have hpos : 0 < |(scrollTo Y2 noOpts s).targetScroll -
          (scrollTo Y2 noOpts s).currentScroll| :=
        lt_of_le_of_ne (abs_nonneg _) (Ne.symm h0)
      obtain ⟨N, hN⟩ := exists_pow_lt_of_lt_one
        (div_pos (by norm_num [STOP_THRESHOLD] : (0 : ℚ) < STOP_THRESHOLD) hpos)
        (by norm_num : (21 / 25 : ℚ) < 1)
      refine ⟨N, ?_⟩
      rw [lt_div_iff₀ hpos] at hN
      rwa [mul_comm]
  obtain ⟨n, hn1, hn2⟩ := two_step_loops_rest_on_target N _ hq2 hN hb
  refine ⟨n, fun m hm => ?_⟩
  obtain ⟨k, rfl⟩ := Nat.exists_eq_add_of_le hm
  rw [runFrames_add, runFrames_of_atRest hn1]
  exact ⟨hn1, hn2.trans ht2⟩

/-- The redirect `scrollTo(100)` then `scrollTo(1)` from offset `0` never meets
the threshold exactly, and comes to rest on `1`. -/
theorem redirect_rests_on_second_target_example :
    ∃ n, ∀ m, n ≤ m →
      atRest (runFrames m (scrollTo 1 noOpts (scrollTo 100 noOpts pageAtTop))) ∧
      (runFrames m (scrollTo 1 noOpts (scrollTo 100 noOpts pageAtTop))).currentScroll =
        clamp 1 (maxScroll (scrollTo 100 noOpts pageAtTop)) := by
  apply redirect_rests_on_second_target (scrollTo 100 noOpts pageAtTop) 1 (by decide!)
  intro j
  have hrest : (runFrames 9 (scrollTo 1 noOpts (scrollTo 100 noOpts pageAtTop))).rafQueue = [] := by
    decide!
  rcases Nat.lt_or_ge j 9 with hj | hj
  · interval_cases j <;> decide!
  · obtain ⟨k, rfl⟩ := Nat.exists_eq_add_of_le hj
    rw [runFrames_add, runFrames_of_atRest hrest]
    decide!

/-! ## Scrollbar geometry, frames of the handlers and the target range -/

theorem updateScrollbar_writes (s : State) :
    (updateScrollbar s).thumbHeight = some (computedThumbHeight s) ∧
    (updateScrollbar s).thumbTop = some (computedThumbTop s) ∧
    (updateScrollbar s).effects = s.effects ++
      [Effect.thumbHeight (computedThumbHeight s), Effect.thumbTop (computedThumbTop s)] :=
  ⟨rfl, rfl, rfl⟩

theorem scrollProgress_bounds (s : State) : 0 ≤ scrollProgress s ∧ scrollProgress s ≤ 1 := by
  unfold scrollProgress
  exact ⟨le_max_left _ _, max_le (by norm_num) (min_le_left _ _)⟩

theorem smoothScrollStep_geometry (s : State) :
    (smoothScrollStep s).scrollHeight = s.scrollHeight ∧
    (smoothScrollStep s).innerHeight = s.innerHeight := by
  simp only [smoothScrollStep, updateScrollbar]
  split_ifs <;> exact ⟨rfl, rfl⟩

theorem step_geometry (e : ℚ) (s : State) :
    (step e s).scrollHeight = s.scrollHeight ∧ (step e s).innerHeight = s.innerHeight := by
  simp only [step, updateScrollbar]
  split_ifs <;> exact ⟨rfl, rfl⟩

theorem frameStep_keeps_target_and_geometry (s : State) :
    (frameStep s).targetScroll = s.targetScroll ∧
    (frameStep s).scrollHeight = s.scrollHeight ∧
    (frameStep s).innerHeight = s.innerHeight := by
  unfold frameStep
  rcases hq : s.rafQueue with _ | ⟨cb, rest⟩
  · exact ⟨rfl, rfl, rfl⟩
  · cases cb with
    | smoothScrollStep =>
      exact ⟨smoothScrollStep_targetScroll _, (smoothScrollStep_geometry _).1,
        (smoothScrollStep_geometry _).2⟩
    | step e =>
      exact ⟨step_targetScroll e _, (step_geometry e _).1, (step_geometry e _).2⟩

theorem onScroll_target (s : State) :
    (onScroll s).targetScroll = max 0 (min (s.scrollHeight - s.innerHeight) s.scrollY) ∧
    (onScroll s).scrollHeight = s.scrollHeight ∧ (onScroll s).innerHeight = s.innerHeight := by
  cases hs : s.isScrolling <;> simp [onScroll, hs]

theorem onMouseMove_keeps (y : ℚ) (s : State) :
    (onMouseMove y s).targetScroll = s.targetScroll ∧
    (onMouseMove y s).currentScroll = s.currentScroll ∧
    (onMouseMove y s).scrollHeight = s.scrollHeight ∧
    (onMouseMove y s).innerHeight = s.innerHeight := by
  cases hd : s.isDragging <;> simp [onMouseMove, hd]

theorem targetScroll_nonneg_of_reachable {s : State} (h : Reachable s) : 0 ≤ s.targetScroll := by
  induction h with
  | init w y hh v t th s hi =>
    unfold init at hi
    split_ifs at hi
    cases hi
    unfold initState
    rw [(onScroll_target _).1]
    exact le_max_left _ _
  | @next s0 e _ ih =>
    cases e with
    | scroll y =>
      show 0 ≤ (onScroll _).targetScroll
      rw [(onScroll_target _).1]; exact le_max_left _ _
    | frame => rw [show applyEvent Event.frame s0 = frameStep s0 from rfl,
        (frameStep_keeps_target_and_geometry s0).1]; exact ih
    | scrollTo y opts => exact le_max_left _ _
    | mousedown y => exact ih
    | mousemove y =>
      rw [show applyEvent (Event.mousemove y) s0 = onMouseMove y s0 from rfl,
        (onMouseMove_keeps y s0).1]; exact ih
    | mouseup => exact ih
    | resize a b c d => exact ih
    | load =>
      show 0 ≤ (onScroll _).targetScroll
      rw [(onScroll_target _).1]; exact le_max_left _ _

/-- While the size stays what it is, with `maxScroll >= 0`, an event keeps
`targetScroll` inside `[0, maxScroll]`. -/
theorem applyEvent_keeps_target_in_range (e : Event) (s : State) (he : e.isResize = false)
    (hM : 0 ≤ maxScroll s) (h0 : 0 ≤ s.targetScroll) (h1 : s.targetScroll ≤ maxScroll s) :
    maxScroll (applyEvent e s) = maxScroll s ∧
    0 ≤ (applyEvent e s).targetScroll ∧
    (applyEvent e s).targetScroll ≤ maxScroll s := by
  unfold maxScroll at *
  cases e with
  | scroll y =>
    have h := onScroll_target { s with scrollY := y }
    show (onScroll _).scrollHeight - (onScroll _).innerHeight = _ ∧ 0 ≤ (onScroll _).targetScroll ∧
      (onScroll _).targetScroll ≤ _
    rw [h.1, h.2.1, h.2.2]
    exact ⟨rfl, le_max_left _ _, max_le hM (min_le_left _ _)⟩
  | frame =>
    have h := frameStep_keeps_target_and_geometry s
    show (frameStep s).scrollHeight - (frameStep s).innerHeight = _ ∧
      0 ≤ (frameStep s).targetScroll ∧ (frameStep s).targetScroll ≤ _
    rw [h.1, h.2.1, h.2.2]
    exact ⟨rfl, h0, h1⟩
  | scrollTo y opts => exact ⟨rfl, le_max_left _ _, max_le hM (min_le_left _ _)⟩
  | mousedown y => exact ⟨rfl, h0, h1⟩
  | mousemove y =>
    have h := onMouseMove_keeps y s
    show (onMouseMove y s).scrollHeight - (onMouseMove y s).innerHeight = _ ∧
      0 ≤ (onMouseMove y s).targetScroll ∧ (onMouseMove y s).targetScroll ≤ _
    rw [h.1, h.2.2.1, h.2.2.2]
    exact ⟨rfl, h0, h1⟩
  | mouseup => exact ⟨rfl, h0, h1⟩
  | resize a b c d => simp [Event.isResize] at he
  | load =>
    have h := onScroll_target (updateScrollbar (setBodyHeight s))
    show (onScroll _).scrollHeight - (onScroll _).innerHeight = _ ∧ 0 ≤ (onScroll _).targetScroll ∧
      (onScroll _).targetScroll ≤ _
    rw [h.1, h.2.1, h.2.2]
    exact ⟨rfl, le_max_left _ _, max_le hM (min_le_left _ _)⟩

theorem applyEvents_keeps_target_in_range (es : List Event) :
    ∀ s : State, (∀ e ∈ es, e.isResize = false) → 0 ≤ maxScroll s →
      0 ≤ s.targetScroll → s.targetScroll ≤ maxScroll s →
      maxScroll (applyEvents es s) = maxScroll s ∧
      0 ≤ (applyEvents es s).targetScroll ∧
      (applyEvents es s).targetScroll ≤ maxScroll s := by
  induction es with
  | nil => intro s _ _ h0 h1; exact ⟨rfl, h0, h1⟩
  | cons e rest ih =>
    intro s hno hM h0 h1
    have h := applyEvent_keeps_target_in_range e s (hno e (List.mem_cons_self _ _)) hM h0 h1
    have h' := ih (applyEvent e s) (fun x hx => hno x (List.mem_cons_of_mem _ hx))
      (by rw [h.1]; exact hM) h.2.1 (by rw [h.1]; exact h.2.2)
    rw [h.1] at h'
    exact h'

theorem onScroll_keeps_view (s : State) :
    (onScroll s).currentScroll = s.currentScroll ∧
    (onScroll s).transform = s.transform ∧
    (onScroll s).thumbHeight = s.thumbHeight ∧
    (onScroll s).thumbTop = s.thumbTop ∧
    (onScroll s).effects = s.effects := by
  cases hs : s.isScrolling <;> simp [onScroll, hs]

theorem onMouseMove_view (y : ℚ) (s : State) :
    (onMouseMove y s).transform = s.transform ∧
    (onMouseMove y s).thumbHeight = s.thumbHeight ∧
    (onMouseMove y s).thumbTop = s.thumbTop ∧
    ∃ new, (onMouseMove y s).effects = s.effects ++ new ∧
      ∀ x ∈ new, x.isTransform = false ∧ x.isThumb = false := by
  cases hd : s.isDragging
  · refine ⟨by simp [onMouseMove, hd], by simp [onMouseMove, hd], by simp [onMouseMove, hd],
      [], by simp [onMouseMove, hd], by simp⟩
  · refine ⟨by simp [onMouseMove, hd], by simp [onMouseMove, hd], by simp [onMouseMove, hd],
      _, by simp only [onMouseMove, hd]; rfl, ?_⟩
    intro x hx
    rw [List.mem_singleton] at hx
    subst hx
    exact ⟨rfl, rfl⟩

/-! ## Divisors, lone loops and the script as a whole -/

theorem orOne_ne_zero (x : ℚ) : orOne x ≠ 0 := by
  unfold orOne
  split_ifs with h
  · norm_num
  · exact h

/-- One frame of a loop that is the only pending callback. -/
theorem frameStep_lone_callback {s : State} {cb : Callback} (hq : s.rafQueue = [cb]) :
    (frameStep s).targetScroll = s.targetScroll ∧
    (frameStep s).currentScroll =
      (if |s.targetScroll - s.currentScroll| < STOP_THRESHOLD then s.targetScroll
       else s.currentScroll + (s.targetScroll - s.currentScroll) * cb.ease) ∧
    (frameStep s).rafQueue =
      (if |s.targetScroll - (frameStep s).currentScroll| > STOP_THRESHOLD then [cb] else []) := by
  cases cb with
  | smoothScrollStep =>
    simp only [frameStep, hq, runCallback, smoothScrollStep_targetScroll,
      smoothScrollStep_currentScroll, smoothScrollStep_rafQueue, Callback.ease]
    exact ⟨trivial, trivial, rfl⟩
  | step e =>
    simp only [frameStep, hq, runCallback, step_targetScroll, step_currentScroll,
      step_rafQueue, Callback.ease]
    exact ⟨trivial, trivial, rfl⟩

/-- The state a lone loop is in after a frame: at rest within the threshold, or
still scheduled with the distance multiplied by `1 - ease`. -/
theorem frameStep_lone_callback_cases {s : State} {cb : Callback} (hq : s.rafQueue = [cb]) :
    (frameStep s).targetScroll = s.targetScroll ∧
    (((frameStep s).rafQueue = [] ∧
        |(frameStep s).targetScroll - (frameStep s).currentScroll| ≤ STOP_THRESHOLD) ∨
      ((frameStep s).rafQueue = [cb] ∧
        STOP_THRESHOLD < |(frameStep s).targetScroll - (frameStep s).currentScroll| ∧
        STOP_THRESHOLD ≤ |s.targetScroll - s.currentScroll| ∧
        (frameStep s).targetScroll - (frameStep s).currentScroll =
          (s.targetScroll - s.currentScroll) * (1 - cb.ease))) := by
  obtain ⟨ht, hc, hqq⟩ := frameStep_lone_callback hq
  refine ⟨ht, ?_⟩
  by_cases hgt : |s.targetScroll - (frameStep s).currentScroll| > STOP_THRESHOLD
  · right
    rw [if_pos hgt] at hqq
    have hnot : ¬ |s.targetScroll - s.currentScroll| < STOP_THRESHOLD := by
      intro hlt
      rw [if_pos hlt] at hc
      rw [hc] at hgt
      norm_num [STOP_THRESHOLD] at hgt
    rw [if_neg hnot] at hc
    refine ⟨hqq, by rw [ht]; exact hgt, not_lt.mp hnot, ?_⟩
    rw [ht, hc]; ring
  · left
    rw [if_neg hgt] at hqq
    exact ⟨hqq, by rw [ht]; exact not_lt.mp hgt⟩

/-- A lone loop whose factor `1 - ease` is below `1` in absolute value stops:
after at most `N + 1` frames when `|distance| * |1 - ease| ^ N` is within the
threshold. -/
theorem lone_loop_stops_within (cb : Callback) (hr : |1 - cb.ease| < 1) (N : Nat) :
    ∀ s : State, s.rafQueue = [cb] →
      |s.targetScroll - s.currentScroll| * |1 - cb.ease| ^ N ≤ STOP_THRESHOLD →
      ∃ n, n ≤ N + 1 ∧ (∀ k, k < n → (runFrames k s).rafQueue = [cb]) ∧
        (runFrames n s).rafQueue = [] ∧
        (runFrames n s).targetScroll = s.targetScroll ∧
        |(runFrames n s).targetScroll - (runFrames n s).currentScroll| ≤ STOP_THRESHOLD := by
  induction N with
  | zero =>
    intro s hq hd
    obtain ⟨ht, hcase⟩ := frameStep_lone_callback_cases hq
    rcases hcase with ⟨h1, h2⟩ | ⟨_, h2, h3, h4⟩
    · refine ⟨1, le_refl _, ?_, h1, ht, h2⟩
      intro k hk
      interval_cases k
      exact hq
    · exfalso
      rw [h4, abs_mul] at h2
      have hd' : |s.targetScroll - s.currentScroll| ≤ STOP_THRESHOLD := by simpa using hd
      have : |s.targetScroll - s.currentScroll| * |1 - cb.ease| ≤
          |s.targetScroll - s.currentScroll| := mul_le_of_le_one_right (abs_nonneg _) hr.le
      linarith
  | succ j ih =>
    intro s hq hd
    obtain ⟨ht, hcase⟩ := frameStep_lone_callback_cases hq
    rcases hcase with ⟨h1, h2⟩ | ⟨h1, _, _, h4⟩
    · refine ⟨1, by omega, ?_, h1, ht, h2⟩
      intro k hk
      interval_cases k
      exact hq
    · have hd' : |(frameStep s).targetScroll - (frameStep s).currentScroll| *
          |1 - cb.ease| ^ j ≤ STOP_THRESHOLD := by
        rw [h4, abs_mul]
        calc |s.targetScroll - s.currentScroll| * |1 - cb.ease| * |1 - cb.ease| ^ j
            = |s.targetScroll - s.currentScroll| * |1 - cb.ease| ^ (j + 1) := by ring
          _ ≤ STOP_THRESHOLD := hd
      obtain ⟨n, hn, hrun, hrest, htn, hdn⟩ := ih (frameStep s) h1 hd'
      refine ⟨n + 1, by omega, ?_, hrest, htn.trans ht, hdn⟩
      intro k hk
      cases k with
      | zero => exact hq
      | succ i => exact hrun i (by omega)

/-- Some power of a factor below `1` brings any distance within the threshold. -/
theorem exists_pow_within_threshold (d r : ℚ) (h1 : r < 1) :
    ∃ N : ℕ, |d| * r ^ N ≤ STOP_THRESHOLD := by
  by_cases hd : |d| = 0
  · exact ⟨0, by rw [hd]; norm_num [STOP_THRESHOLD]⟩
  · have hpos : 0 < |d| := lt_of_le_of_ne (abs_nonneg _) (Ne.symm hd)
    obtain ⟨N, hN⟩ := exists_pow_lt_of_lt_one
      (div_pos (by norm_num [STOP_THRESHOLD] : (0 : ℚ) < STOP_THRESHOLD) hpos) h1
    refine ⟨N, ?_⟩
    rw [lt_div_iff₀ hpos] at hN
    rw [mul_comm]
    exact hN.le

theorem lone_loop_stops (cb : Callback) (hr : |1 - cb.ease| < 1) (s : State)
    (hq : s.rafQueue = [cb]) :
    ∃ n, (∀ k, k < n → (runFrames k s).rafQueue = [cb]) ∧
      (runFrames n s).rafQueue = [] ∧
      (runFrames n s).targetScroll = s.targetScroll ∧
      |(runFrames n s).targetScroll - (runFrames n s).currentScroll| ≤ STOP_THRESHOLD := by
  obtain ⟨N, hN⟩ := exists_pow_within_threshold (s.targetScroll - s.currentScroll)
    |1 - cb.ease| hr
  obtain ⟨n, _, h⟩ := lone_loop_stops_within cb hr N s hq hN
  exact ⟨n, h⟩

/-- A lone loop whose factor `1 - ease` is at least `1` in absolute value and
that starts beyond the threshold is scheduled again after every frame. -/
theorem lone_loop_runs_forever (cb : Callback) (hr : 1 ≤ |1 - cb.ease|) (s : State)
    (hq : s.rafQueue = [cb]) (hd : STOP_THRESHOLD < |s.targetScroll - s.currentScroll|) :
    ∀ n, (runFrames n s).rafQueue = [cb] ∧
      STOP_THRESHOLD < |(runFrames n s).targetScroll - (runFrames n s).currentScroll| := by
  intro n
  induction n with
  | zero => exact ⟨hq, hd⟩
  | succ k ih =>
    rw [runFrames_succ_last]
    obtain ⟨hqk, hdk⟩ := ih
    obtain ⟨ht, hc, hqq⟩ := frameStep_lone_callback hqk
    rw [if_neg (not_lt.mpr hdk.le)] at hc
    have hrem : (frameStep (runFrames k s)).targetScroll -
        (frameStep (runFrames k s)).currentScroll =
        ((runFrames k s).targetScroll - (runFrames k s).currentScroll) * (1 - cb.ease) := by
      rw [ht, hc]; ring
    have hbig : STOP_THRESHOLD < |(frameStep (runFrames k s)).targetScroll -
        (frameStep (runFrames k s)).currentScroll| := by
      rw [hrem, abs_mul]
      calc STOP_THRESHOLD < |(runFrames k s).targetScroll - (runFrames k s).currentScroll| := hdk
        _ = |(runFrames k s).targetScroll - (runFrames k s).currentScroll| * 1 := (mul_one _).symm
        _ ≤ |(runFrames k s).targetScroll - (runFrames k s).currentScroll| * |1 - cb.ease| :=
          mul_le_mul_of_nonneg_left hr (abs_nonneg _)
    refine ⟨?_, hbig⟩
    rw [hqq, if_pos]
    rw [← ht]; exact hbig

/-- With a factor `1 - ease >= 0` a lone loop keeps the remaining distance on
the side of the target it started from. -/
theorem lone_loop_keeps_side (cb : Callback) (he : cb.ease ≤ 1) (s : State)
    (hq : s.rafQueue = [cb]) :
    ∀ n, ((runFrames n s).rafQueue = [] ∨ (runFrames n s).rafQueue = [cb]) ∧
      (runFrames n s).targetScroll = s.targetScroll ∧
      0 ≤ (s.targetScroll - (runFrames n s).currentScroll) *
        (s.targetScroll - s.currentScroll) := by
  intro n
  induction n with
  | zero => exact ⟨Or.inr hq, rfl, mul_self_nonneg _⟩
  | succ k ih =>
    rw [runFrames_succ_last]
    obtain ⟨hshape, htk, hside⟩ := ih
    rcases hshape with h0 | h1
    · rw [frameStep_of_atRest h0]
      exact ⟨Or.inl h0, htk, hside⟩
    · obtain ⟨ht, hc, hqq⟩ := frameStep_lone_callback h1
      refine ⟨?_, ht.trans htk, ?_⟩
      · rw [hqq]; split_ifs
        · exact Or.inr rfl
        · exact Or.inl rfl
      · rw [hc]
        split_ifs
        · rw [htk]; simp
        · rw [htk]
          have : s.targetScroll - ((runFrames k s).currentScroll +
              (s.targetScroll - (runFrames k s).currentScroll) * cb.ease) =
              (s.targetScroll - (runFrames k s).currentScroll) * (1 - cb.ease) := by ring
          rw [this, mul_right_comm]
          exact mul_nonneg hside (by linarith)

theorem initState_eq_declared (y h v t th : ℚ) :
    initState y h v t th = onScroll (updateScrollbar (setBodyHeight (declaredState y h v t th))) :=
  rfl

/-! ## Several loops running together -/

/-- One frame, whatever callback is at the head of the queue. -/
theorem frameStep_head {s : State} {cb : Callback} {rest : List Callback}
    (hq : s.rafQueue = cb :: rest) :
    (frameStep s).targetScroll = s.targetScroll ∧
    (frameStep s).currentScroll =
      (if |s.targetScroll - s.currentScroll| < STOP_THRESHOLD then s.targetScroll
       else s.currentScroll + (s.targetScroll - s.currentScroll) * cb.ease) ∧
    (frameStep s).rafQueue =
      (if |s.targetScroll - (frameStep s).currentScroll| > STOP_THRESHOLD then rest ++ [cb]
       else rest) := by
  cases cb with
  | smoothScrollStep =>
    simp only [frameStep, hq, runCallback, smoothScrollStep_targetScroll,
      smoothScrollStep_currentScroll, smoothScrollStep_rafQueue, Callback.ease]
    exact ⟨trivial, trivial, trivial⟩
  | step e =>
    simp only [frameStep, hq, runCallback, step_targetScroll, step_currentScroll,
      step_rafQueue, Callback.ease]
    exact ⟨trivial, trivial, trivial⟩

/-- A frame whose callback starts at or beyond the threshold multiplies the
distance by `1 - ease`. -/
theorem frameStep_head_moves {s : State} {cb : Callback} {rest : List Callback}
    (hq : s.rafQueue = cb :: rest)
    (hd : ¬ |s.targetScroll - s.currentScroll| < STOP_THRESHOLD) :
    (frameStep s).targetScroll = s.targetScroll ∧
    (frameStep s).targetScroll - (frameStep s).currentScroll =
      (s.targetScroll - s.currentScroll) * (1 - cb.ease) ∧
    |(frameStep s).targetScroll - (frameStep s).currentScroll| =
      |s.targetScroll - s.currentScroll| * |1 - cb.ease| ∧
    (frameStep s).rafQueue =
      (if |(frameStep s).targetScroll - (frameStep s).currentScroll| > STOP_THRESHOLD then
        rest ++ [cb] else rest) := by
  obtain ⟨ht, hcur, hqq⟩ := frameStep_head hq
  rw [if_neg hd] at hcur
  have hrem : (frameStep s).targetScroll - (frameStep s).currentScroll =
      (s.targetScroll - s.currentScroll) * (1 - cb.ease) := by
    rw [ht, hcur]; ring
  refine ⟨ht, hrem, ?_, ?_⟩
  · rw [hrem, abs_mul]
  · rw [ht]; exact hqq

/-- Once `currentScroll` is on the target, every pending callback snaps and
leaves the queue: after as many frames as there are callbacks all is at rest. -/
theorem drains_on_target (q : List Callback) : ∀ s : State, s.rafQueue = q →
    s.currentScroll = s.targetScroll →
    (runFrames q.length s).rafQueue = [] ∧
    (runFrames q.length s).currentScroll = s.targetScroll := by
  induction q with
  | nil => intro s hq hc; exact ⟨hq, hc⟩
  | cons cb rest ih =>
    intro s hq hc
    obtain ⟨ht, hcur, hqq⟩ := frameStep_head hq
    have h0 : |s.targetScroll - s.currentScroll| < STOP_THRESHOLD := by
      rw [hc]; norm_num [STOP_THRESHOLD]
    rw [if_pos h0] at hcur
    have hrest : (frameStep s).rafQueue = rest := by
      rw [hqq, hcur, if_neg]; norm_num [STOP_THRESHOLD]
    have := ih (frameStep s) hrest (by rw [hcur, ht])
    rw [ht] at this
    exact this

/-- A callback that starts strictly within the threshold snaps; whatever is
still pending then drains with `currentScroll` on the target. -/
theorem rests_on_target_of_small {s : State} (hne : s.rafQueue ≠ [])
    (hd : |s.targetScroll - s.currentScroll| < STOP_THRESHOLD) :
    ∃ n, (runFrames n s).rafQueue = [] ∧ (runFrames n s).currentScroll = s.targetScroll := by
  rcases hq : s.rafQueue with _ | ⟨cb, rest⟩
  · exact absurd hq hne
  · obtain ⟨ht, hcur, hqq⟩ := frameStep_head hq
    rw [if_pos hd] at hcur
    have hrest : (frameStep s).rafQueue = rest := by
      rw [hqq, hcur, if_neg]; norm_num [STOP_THRESHOLD]
    have h := drains_on_target rest (frameStep s) hrest (by rw [hcur, ht])
    rw [ht] at h
    exact ⟨rest.length + 1, h⟩

/-- With at least two contracting callbacks pending and the distance within
the threshold, the run ends on the target: at an exact tie the first callback
moves strictly inside the threshold and the second snaps. -/
theorem rests_on_target_of_within {s : State} {ρ : ℚ} (hρ : ρ < 1)
    (hlen : 2 ≤ s.rafQueue.length)
    (hall : ∀ cb ∈ s.rafQueue, |1 - cb.ease| ≤ ρ)
    (hd : |s.targetScroll - s.currentScroll| ≤ STOP_THRESHOLD) :
    ∃ n, (runFrames n s).rafQueue = [] ∧ (runFrames n s).currentScroll = s.targetScroll := by
  by_cases hlt : |s.targetScroll - s.currentScroll| < STOP_THRESHOLD
  · exact rests_on_target_of_small (by intro h; rw [h] at hlen; simp at hlen) hlt
  · rcases hq : s.rafQueue with _ | ⟨cb, rest⟩
    · rw [hq] at hlen; simp at hlen
    · obtain ⟨ht, _, habs, hqq⟩ := frameStep_head_moves hq hlt
      have hcb : |1 - cb.ease| ≤ ρ := hall cb (by rw [hq]; exact List.mem_cons_self _ _)
      have h3 : (0 : ℚ) < STOP_THRESHOLD := by norm_num [STOP_THRESHOLD]
      have hdpos : 0 < |s.targetScroll - s.currentScroll| := lt_of_lt_of_le h3 (not_lt.mp hlt)
      have hsmall : |(frameStep s).targetScroll - (frameStep s).currentScroll| <
          STOP_THRESHOLD := by
        rw [habs]
        have : |s.targetScroll - s.currentScroll| * |1 - cb.ease| <
            |s.targetScroll - s.currentScroll| := by
          have hlt1 : |1 - cb.ease| < 1 := lt_of_le_of_lt hcb hρ
          nlinarith
        exact lt_of_lt_of_le this hd
      have hrest : (frameStep s).rafQueue = rest := by
        rw [hqq, if_neg]; exact not_lt.mpr hsmall.le
      have hne : (frameStep s).rafQueue ≠ [] := by
        rw [hrest]; intro h; rw [hq, h] at hlen; simp at hlen
      obtain ⟨n, h1, h2⟩ := rests_on_target_of_small hne hsmall
      exact ⟨n + 1, h1, h2.trans ht⟩

/-- With at least three contracting callbacks pending the run always ends with
`currentScroll` exactly on the target. -/
theorem three_loops_rest_on_target {ρ : ℚ} (hρ : ρ < 1) (N : Nat) :
    ∀ s : State, 3 ≤ s.rafQueue.length →
    (∀ cb ∈ s.rafQueue, |1 - cb.ease| ≤ ρ) →
    |s.targetScroll - s.currentScroll| * ρ ^ N ≤ STOP_THRESHOLD →
    ∃ n, (runFrames n s).rafQueue = [] ∧ (runFrames n s).currentScroll = s.targetScroll := by
  induction N with
  | zero =>
    intro s hlen hall hd
    exact rests_on_target_of_within hρ (by omega) hall (by simpa using hd)
  | succ k ih =>
    intro s hlen hall hd
    by_cases hle : |s.targetScroll - s.currentScroll| ≤ STOP_THRESHOLD
    · exact rests_on_target_of_within hρ (by omega) hall hle
    · rcases hq : s.rafQueue with _ | ⟨cb, rest⟩
      · rw [hq] at hlen; simp at hlen
      · have hnlt : ¬ |s.targetScroll - s.currentScroll| < STOP_THRESHOLD :=
          fun h => hle h.le
        obtain ⟨ht, _, habs, hqq⟩ := frameStep_head_moves hq hnlt
        have hcb : |1 - cb.ease| ≤ ρ := hall cb (by rw [hq]; exact List.mem_cons_self _ _)
        have hρ0 : 0 ≤ ρ := (abs_nonneg _).trans hcb
        have hrestlen : 2 ≤ rest.length := by
          rw [hq] at hlen; simp at hlen; omega
        have hallrest : ∀ c ∈ rest, |1 - c.ease| ≤ ρ :=
          fun c hc => hall c (by rw [hq]; exact List.mem_cons_of_mem _ hc)
        by_cases hgt : |(frameStep s).targetScroll - (frameStep s).currentScroll| >
            STOP_THRESHOLD
        · rw [if_pos hgt] at hqq
          have hd' : |(frameStep s).targetScroll - (frameStep s).currentScroll| *
              ρ ^ k ≤ STOP_THRESHOLD := by
            rw [habs]
            calc |s.targetScroll - s.currentScroll| * |1 - cb.ease| * ρ ^ k
                ≤ |s.targetScroll - s.currentScroll| * ρ * ρ ^ k := by
                  apply mul_le_mul_of_nonneg_right _ (pow_nonneg hρ0 k)
                  exact mul_le_mul_of_nonneg_left hcb (abs_nonneg _)
              _ = |s.targetScroll - s.currentScroll| * ρ ^ (k + 1) := by ring
              _ ≤ STOP_THRESHOLD := hd
          obtain ⟨n, h1, h2⟩ := ih (frameStep s)
            (by rw [hqq]; simp; omega)
            (by
              intro c hc
              rw [hqq, List.mem_append, List.mem_singleton] at hc
              rcases hc with hc | rfl
              · exact hallrest c hc
              · exact hcb)
            hd'
          exact ⟨n + 1, h1, h2.trans ht⟩
        · rw [if_neg hgt] at hqq
          obtain ⟨n, h1, h2⟩ := rests_on_target_of_within (s := frameStep s) hρ
            (by rw [hqq]; exact hrestlen)
            (by rw [hqq]; exact hallrest)
            (not_lt.mp hgt)
          exact ⟨n + 1, h1, h2.trans ht⟩

/-- Finitely many eases strictly between `0` and `2` share a factor below `1`. -/
theorem exists_common_factor (q : List Callback)
    (h : ∀ cb ∈ q, 0 < cb.ease ∧ cb.ease < 2) :
    ∃ ρ : ℚ, ρ < 1 ∧ ∀ cb ∈ q, |1 - cb.ease| ≤ ρ := by
  induction q with
  | nil => exact ⟨0, by norm_num, fun cb hcb => absurd hcb (List.not_mem_nil _)⟩
  | cons c rest ih =>
    obtain ⟨ρ, hρ, hall⟩ := ih (fun cb hcb => h cb (List.mem_cons_of_mem _ hcb))
    have hc := h c (List.mem_cons_self _ _)
    have hc1 : |1 - c.ease| < 1 := by
      rw [abs_lt]; constructor <;> linarith [hc.1, hc.2]
    refine ⟨max ρ |1 - c.ease|, max_lt hρ hc1, ?_⟩
    intro cb hcb
    rw [List.mem_cons] at hcb
    rcases hcb with rfl | hcb
    · exact le_max_right _ _
    · exact (hall cb hcb).trans (le_max_left _ _)

theorem three_loops_rest_on_target_from (s : State) (hlen : 3 ≤ s.rafQueue.length)
    (hall : ∀ cb ∈ s.rafQueue, 0 < cb.ease ∧ cb.ease < 2) :
    ∃ n, ∀ m, n ≤ m → (runFrames m s).rafQueue = [] ∧
      (runFrames m s).currentScroll = s.targetScroll := by
  obtain ⟨ρ, hρ, hfac⟩ := exists_common_factor s.rafQueue hall
  obtain ⟨N, hN⟩ := exists_pow_within_threshold (s.targetScroll - s.currentScroll) ρ hρ
  obtain ⟨n, h1, h2⟩ := three_loops_rest_on_target hρ N s hlen hfac hN
  refine ⟨n, fun m hm => ?_⟩
  obtain ⟨k, rfl⟩ := Nat.exists_eq_add_of_le hm
  rw [runFrames_add, runFrames_of_atRest h1]
  exact ⟨h1, h2⟩

theorem runFrames_keeps_target_and_geometry (n : Nat) (s : State) :
    (runFrames n s).targetScroll = s.targetScroll ∧
    (runFrames n s).scrollHeight = s.scrollHeight ∧
    (runFrames n s).innerHeight = s.innerHeight := by
  induction n with
  | zero => exact ⟨rfl, rfl, rfl⟩
  | succ k ih =>
    rw [runFrames_succ_last]
    have h := frameStep_keeps_target_and_geometry (runFrames k s)
    exact ⟨h.1.trans ih.1, h.2.1.trans ih.2.1, h.2.2.trans ih.2.2⟩

theorem frameStep_queue_subset (s : State) :
    ∀ cb ∈ (frameStep s).rafQueue, cb ∈ s.rafQueue := by
  intro cb hcb
  rcases hq : s.rafQueue with _ | ⟨c, rest⟩
  · rw [frameStep_of_atRest hq, hq] at hcb; exact absurd hcb (List.not_mem_nil _)
  · obtain ⟨_, _, hqq⟩ := frameStep_head hq
    rw [hqq] at hcb
    split_ifs at hcb
    · rw [List.mem_append, List.mem_singleton] at hcb
      rcases hcb with h | rfl
      · exact List.mem_cons_of_mem _ h
      · exact List.mem_cons_self _ _
    · exact List.mem_cons_of_mem _ hcb

theorem runFrames_queue_subset (n : Nat) (s : State) :
    ∀ cb ∈ (runFrames n s).rafQueue, cb ∈ s.rafQueue := by
  induction n with
  | zero => intro cb h; exact h
  | succ k ih =>
    intro cb h
    rw [runFrames_succ_last] at h
    exact ih cb (frameStep_queue_subset _ cb h)

theorem nativeScroll_after_scrollTo (y reported : ℚ) (opts : Opts) (s : State) :
    (nativeScroll reported (scrollTo y opts s)).rafQueue =
      (s.rafQueue ++ [Callback.step (opts.ease.getD EASE)]) ++
        (if s.isScrolling = false then [Callback.smoothScrollStep] else []) ∧
    (nativeScroll reported (scrollTo y opts s)).targetScroll = clamp reported (maxScroll s) ∧
    (nativeScroll reported (scrollTo y opts s)).currentScroll = s.currentScroll := by
  cases hs : s.isScrolling <;>
    simp [nativeScroll, onScroll, scrollTo, hs, clamp, maxScroll]

theorem default_ease_in_range : 0 < EASE ∧ EASE < 2 := by
  norm_num [EASE]

/-- The redirect in general: in a state where a default-ease `step` loop is
still pending, the flag agrees with the queue and every pending callback has
an ease strictly between `0` and `2`, `scrollTo(Y2)` followed by the scroll
event (reporting any offset) leaves at least three loops pending, and they come
to rest with `currentScroll` exactly on the clamp of the reported offset. -/
theorem redirect_with_scroll_event (s1 : State) (Y2 reported : ℚ)
    (hflag : flagMatchesQueue s1)
    (hall : ∀ cb ∈ s1.rafQueue, 0 < cb.ease ∧ cb.ease < 2)
    (hpending : Callback.step EASE ∈ s1.rafQueue) :
    ∃ n, ∀ m, n ≤ m →
      (runFrames m (nativeScroll reported (scrollTo Y2 noOpts s1))).rafQueue = [] ∧
      (runFrames m (nativeScroll reported (scrollTo Y2 noOpts s1))).currentScroll =
        clamp reported (maxScroll s1) := by
  obtain ⟨hq, ht, _⟩ := nativeScroll_after_scrollTo Y2 reported noOpts s1
  have hlen : 3 ≤ (nativeScroll reported (scrollTo Y2 noOpts s1)).rafQueue.length := by
    rw [hq]
    cases hs : s1.isScrolling
    · have : 1 ≤ s1.rafQueue.length := List.length_pos_of_mem hpending
      simp; omega
    · unfold flagMatchesQueue at hflag
      rw [hs] at hflag
      have hsm : Callback.smoothScrollStep ∈ s1.rafQueue :=
        List.count_pos_iff.mp (by rw [hflag]; exact Nat.one_pos)
      obtain ⟨l1, l2, hsplit⟩ := List.append_of_mem hpending
      have : 2 ≤ s1.rafQueue.length := by
        rw [hsplit] at hsm ⊢
        rw [List.mem_append, List.mem_cons] at hsm
        rcases hsm with h | h | h
        · have := List.length_pos_of_mem h
          simp; omega
        · cases h
        · have := List.length_pos_of_mem h
          simp; omega
      simp; omega
  have hall2 : ∀ cb ∈ (nativeScroll reported (scrollTo Y2 noOpts s1)).rafQueue,
      0 < cb.ease ∧ cb.ease < 2 := by
    intro cb hcb
    rw [hq] at hcb
    rw [List.mem_append, List.mem_append, List.mem_singleton] at hcb
    rcases hcb with (h | rfl) | h
    · exact hall cb h
    · exact default_ease_in_range
    · split_ifs at h
      · rw [List.mem_singleton] at h; subst h; exact default_ease_in_range
      · exact absurd h (List.not_mem_nil _)
  obtain ⟨n, hn⟩ := three_loops_rest_on_target_from _ hlen hall2
  refine ⟨n, fun m hm => ?_⟩
  rw [← ht]
  exact hn m hm

theorem clamp_clamp (y hi : ℚ) : clamp (clamp y hi) hi = clamp y hi := by
  unfold clamp
  rcases le_total 0 hi with h | h
  · rcases le_total hi y with h1 | h1
    · rw [min_eq_left h1, max_eq_right h, min_self, max_eq_right h]
    · rw [min_eq_right h1]
      rcases le_total 0 y with h2 | h2
      · rw [max_eq_right h2, min_eq_right h1, max_eq_right h2]
      · rw [max_eq_left h2, min_eq_right h, max_self]
  · have h1 : min hi y ≤ 0 := (min_le_left _ _).trans h
    rw [max_eq_left h1, min_eq_left h, max_eq_left h]

theorem easeInRange_nativeScroll (y : ℚ) {s : State}
    (h : ∀ cb ∈ s.rafQueue, 0 < cb.ease ∧ cb.ease < 2) :
    ∀ cb ∈ (nativeScroll y s).rafQueue, 0 < cb.ease ∧ cb.ease < 2 := by
  intro cb hcb
  cases hs : s.isScrolling
  · have hq : (nativeScroll y s).rafQueue = s.rafQueue ++ [Callback.smoothScrollStep] := by
      simp [nativeScroll, onScroll, hs]
    rw [hq, List.mem_append, List.mem_singleton] at hcb
    rcases hcb with h1 | rfl
    · exact h cb h1
    · exact default_ease_in_range
  · rw [(nativeScroll_of_isScrolling y hs).1] at hcb
    exact h cb hcb

theorem nativeScroll_maxScroll (y : ℚ) (s : State) :
    maxScroll (nativeScroll y s) = maxScroll s := by
  cases hs : s.isScrolling <;> simp [nativeScroll, onScroll, hs, maxScroll]

theorem nativeScrolls_redirect_invariants (ys : List ℚ) :
    ∀ s : State, Reachable s → (∀ cb ∈ s.rafQueue, 0 < cb.ease ∧ cb.ease < 2) →
      Reachable (nativeScrolls ys s) ∧
      (∀ cb ∈ (nativeScrolls ys s).rafQueue, 0 < cb.ease ∧ cb.ease < 2) ∧
      maxScroll (nativeScrolls ys s) = maxScroll s := by
  induction ys with
  | nil => intro s hr hall; exact ⟨hr, hall, rfl⟩
  | cons y rest ih =>
    intro s hr hall
    obtain ⟨h1, h2, h3⟩ := ih (nativeScroll y s) (reachable_nativeScroll hr y)
      (easeInRange_nativeScroll y hall)
    exact ⟨h1, h2, h3.trans (nativeScroll_maxScroll y s)⟩

theorem runFrames_maxScroll (n : Nat) (s : State) :
    maxScroll (runFrames n s) = maxScroll s := by
  obtain ⟨_, h1, h2⟩ := runFrames_keeps_target_and_geometry n s
  unfold maxScroll
  rw [h1, h2]

/-! ## The `step` loop next to the scroll listener's loop -/

/-- A lone callback with `|1 - ease| <= 1` that starts within the threshold is
not scheduled again. -/
theorem lone_callback_within_stops {s : State} {cb : Callback} (hq : s.rafQueue = [cb])
    (hr : |1 - cb.ease| ≤ 1)
    (hd : |s.targetScroll - s.currentScroll| ≤ STOP_THRESHOLD) :
    (frameStep s).rafQueue = [] := by
  by_cases hlt : |s.targetScroll - s.currentScroll| < STOP_THRESHOLD
  · obtain ⟨_, hcur, hqq⟩ := frameStep_head hq
    rw [if_pos hlt] at hcur
    rw [hqq, hcur, if_neg]; norm_num [STOP_THRESHOLD]
  · obtain ⟨_, _, habs, hqq⟩ := frameStep_head_moves hq hlt
    rw [hqq, if_neg]
    rw [habs]
    have : |s.targetScroll - s.currentScroll| * |1 - cb.ease| ≤
        |s.targetScroll - s.currentScroll| :=
      mul_le_of_le_one_right (abs_nonneg _) hr
    exact not_lt.mpr (this.trans hd)

/-- A `step` loop with `0 <= ease <= 2` running next to the scroll listener's
loop: both stop. -/
theorem step_with_scroll_loop_stops (e : ℚ) (he : |1 - e| ≤ 1) (N : Nat) :
    ∀ s : State, s.rafQueue = [Callback.step e, Callback.smoothScrollStep] →
    |s.targetScroll - s.currentScroll| * (21 / 25) ^ N ≤ STOP_THRESHOLD →
    ∃ n, (runFrames n s).rafQueue = [] := by
  have hsm : |1 - Callback.smoothScrollStep.ease| < 1 := by
    norm_num [Callback.ease, EASE, abs_lt]
  have hsm2 : |1 - Callback.smoothScrollStep.ease| = 21 / 25 := by
    norm_num [Callback.ease, EASE, abs_of_pos]
  have key : ∀ s : State, s.rafQueue = [Callback.step e, Callback.smoothScrollStep] →
      (∃ n, (runFrames n s).rafQueue = []) ∨
      ((runFrames 2 s).rafQueue = [Callback.step e, Callback.smoothScrollStep] ∧
        STOP_THRESHOLD < |(runFrames 2 s).targetScroll - (runFrames 2 s).currentScroll| ∧
        |(runFrames 2 s).targetScroll - (runFrames 2 s).currentScroll| ≤
          |s.targetScroll - s.currentScroll| * (21 / 25)) := by
    intro s hq
    by_cases hlt : |s.targetScroll - s.currentScroll| < STOP_THRESHOLD
    · left
      obtain ⟨n, h, _⟩ := rests_on_target_of_small (by rw [hq]; simp) hlt
      exact ⟨n, h⟩
    · obtain ⟨_, _, habs, hqq⟩ := frameStep_head_moves hq hlt
      by_cases hgt : |(frameStep s).targetScroll - (frameStep s).currentScroll| >
          STOP_THRESHOLD
      · rw [if_pos hgt] at hqq
        have hq1 : (frameStep s).rafQueue = [Callback.smoothScrollStep, Callback.step e] := hqq
        obtain ⟨_, _, habs2, hqq2⟩ := frameStep_head_moves hq1 (not_lt.mpr hgt.le)
        have hle : |(frameStep (frameStep s)).targetScroll -
            (frameStep (frameStep s)).currentScroll| ≤
            |s.targetScroll - s.currentScroll| * (21 / 25) := by
          rw [habs2, habs, hsm2]
          simp only [Callback.ease]
          apply mul_le_mul_of_nonneg_right _ (by norm_num)
          exact mul_le_of_le_one_right (abs_nonneg _) he
        by_cases hgt2 : |(frameStep (frameStep s)).targetScroll -
            (frameStep (frameStep s)).currentScroll| > STOP_THRESHOLD
        · right
          rw [if_pos hgt2] at hqq2
          exact ⟨hqq2, hgt2, hle⟩
        · left
          rw [if_neg hgt2] at hqq2
          have hq2 : (frameStep (frameStep s)).rafQueue = [Callback.step e] := hqq2
          exact ⟨3, lone_callback_within_stops hq2 he (not_lt.mp hgt2)⟩
      · left
        rw [if_neg hgt] at hqq
        have hq1 : (frameStep s).rafQueue = [Callback.smoothScrollStep] := hqq
        obtain ⟨n, _, hrest, _⟩ := lone_loop_stops Callback.smoothScrollStep hsm (frameStep s) hq1
        exact ⟨n + 1, hrest⟩
  induction N with
  | zero =>
    intro s hq hd
    rcases key s hq with h | ⟨_, h2, h3⟩
    · exact h
    · exfalso
      have hd0 : |s.targetScroll - s.currentScroll| ≤ STOP_THRESHOLD := by simpa using hd
      have h4 : |s.targetScroll - s.currentScroll| * (21 / 25) ≤
          |s.targetScroll - s.currentScroll| := by
        nlinarith [abs_nonneg (s.targetScroll - s.currentScroll)]
      linarith
  | succ k ih =>
    intro s hq hd
    rcases key s hq with h | ⟨h1, _, h3⟩
    · exact h
    · have hd' : |(runFrames 2 s).targetScroll - (runFrames 2 s).currentScroll| *
          (21 / 25) ^ k ≤ STOP_THRESHOLD := by
        calc |(runFrames 2 s).targetScroll - (runFrames 2 s).currentScroll| * (21 / 25) ^ k
            ≤ |s.targetScroll - s.currentScroll| * (21 / 25) * (21 / 25) ^ k :=
              mul_le_mul_of_nonneg_right h3 (by positivity)
          _ = |s.targetScroll - s.currentScroll| * (21 / 25) ^ (k + 1) := by ring
          _ ≤ STOP_THRESHOLD := hd
      obtain ⟨n, hn⟩ := ih (runFrames 2 s) h1 hd'
      refine ⟨2 + n, ?_⟩
      rw [runFrames_add]
      exact hn

/-- A `step` loop whose factor `|1 - ease|` is at least `25/21` outweighs the
scroll listener's loop: from beyond the threshold the two are scheduled again
after every frame. -/
theorem step_with_scroll_loop_runs_forever (e : ℚ) (he : 25 / 21 ≤ |1 - e|) (s : State)
    (hq : s.rafQueue = [Callback.step e, Callback.smoothScrollStep])
    (hd : STOP_THRESHOLD < |s.targetScroll - s.currentScroll|) :
    ∀ n, Callback.step e ∈ (runFrames n s).rafQueue := by
  have hsm2 : |1 - Callback.smoothScrollStep.ease| = 21 / 25 := by
    norm_num [Callback.ease, EASE, abs_of_pos]
  have h3 : (0 : ℚ) < STOP_THRESHOLD := by norm_num [STOP_THRESHOLD]
  have key : ∀ n, ((runFrames n s).rafQueue = [Callback.step e, Callback.smoothScrollStep] ∧
        STOP_THRESHOLD < |(runFrames n s).targetScroll - (runFrames n s).currentScroll|) ∨
      ((runFrames n s).rafQueue = [Callback.smoothScrollStep, Callback.step e] ∧
        STOP_THRESHOLD * (25 / 21) <
          |(runFrames n s).targetScroll - (runFrames n s).currentScroll|) := by
    intro n
    induction n with
    | zero => exact Or.inl ⟨hq, hd⟩
    | succ k ih =>
      rw [runFrames_succ_last]
      rcases ih with ⟨hqk, hdk⟩ | ⟨hqk, hdk⟩
      · right
        obtain ⟨_, _, habs, hqq⟩ := frameStep_head_moves hqk (not_lt.mpr hdk.le)
        simp only [Callback.ease] at habs
        have hbig : STOP_THRESHOLD * (25 / 21) <
            |(frameStep (runFrames k s)).targetScroll -
              (frameStep (runFrames k s)).currentScroll| := by
          rw [habs]
          have hpos : 0 < |(runFrames k s).targetScroll - (runFrames k s).currentScroll| :=
            lt_trans h3 hdk
          nlinarith
        have hgt : STOP_THRESHOLD < |(frameStep (runFrames k s)).targetScroll -
              (frameStep (runFrames k s)).currentScroll| := by
          nlinarith
        rw [if_pos hgt] at hqq
        exact ⟨hqq, hbig⟩
      · left
        have hdk' : STOP_THRESHOLD <
            |(runFrames k s).targetScroll - (runFrames k s).currentScroll| := by
          nlinarith
        obtain ⟨_, _, habs, hqq⟩ := frameStep_head_moves hqk (not_lt.mpr hdk'.le)
        rw [hsm2] at habs
        have hgt : STOP_THRESHOLD < |(frameStep (runFrames k s)).targetScroll -
              (frameStep (runFrames k s)).currentScroll| := by
          rw [habs]; nlinarith
        rw [if_pos hgt] at hqq
        exact ⟨hqq, hgt⟩
  intro n
  rcases key n with ⟨h, _⟩ | ⟨h, _⟩ <;> rw [h] <;> simp

/-- Callbacks whose eases are all at most `1` never carry `currentScroll` to the
other side of the target. -/
theorem loops_keep_side (s : State) (hall : ∀ cb ∈ s.rafQueue, cb.ease ≤ 1) :
    ∀ n, (runFrames n s).targetScroll = s.targetScroll ∧
      0 ≤ (s.targetScroll - (runFrames n s).currentScroll) *
        (s.targetScroll - s.currentScroll) := by
  intro n
  induction n with
  | zero => exact ⟨rfl, mul_self_nonneg _⟩
  | succ k ih =>
    rw [runFrames_succ_last]
    obtain ⟨htk, hside⟩ := ih
    rcases hqk : (runFrames k s).rafQueue with _ | ⟨cb, rest⟩
    · rw [frameStep_of_atRest hqk]
      exact ⟨htk, hside⟩
    · obtain ⟨ht, hcur, _⟩ := frameStep_head hqk
      have hcb : cb.ease ≤ 1 :=
        hall cb (runFrames_queue_subset k s cb (by rw [hqk]; exact List.mem_cons_self _ _))
      refine ⟨ht.trans htk, ?_⟩
      rw [hcur]
      split_ifs
      · rw [htk]; simp
      · rw [htk]
        have : s.targetScroll - ((runFrames k s).currentScroll +
            (s.targetScroll - (runFrames k s).currentScroll) * cb.ease) =
            (s.targetScroll - (runFrames k s).currentScroll) * (1 - cb.ease) := by ring
        rw [this]
        have h1 : 0 ≤ 1 - cb.ease := by linarith
        nlinarith [mul_nonneg hside h1]

/-- A callback with ease above `1` at the head of the queue, starting beyond
the threshold, lands on the other side of the target. -/
theorem head_overshoots {s : State} {cb : Callback} {rest : List Callback}
    (hq : s.rafQueue = cb :: rest) (he : 1 < cb.ease)
    (hd : STOP_THRESHOLD < |s.targetScroll - s.currentScroll|) :
    (s.targetScroll - (runFrames 1 s).currentScroll) *
      (s.targetScroll - s.currentScroll) < 0 := by
  obtain ⟨_, hc, _⟩ := frameStep_head hq
  rw [if_neg (not_lt.mpr hd.le)] at hc
  show (s.targetScroll - (frameStep s).currentScroll) * (s.targetScroll - s.currentScroll) < 0
  rw [hc]
  have hne : s.targetScroll - s.currentScroll ≠ 0 := by
    intro h0
    rw [h0] at hd
    norm_num [STOP_THRESHOLD] at hd
  have hsq : 0 < (s.targetScroll - s.currentScroll) ^ 2 := by positivity
  nlinarith

/-- For the loop of `customScroll.scrollTo` with a caller-supplied ease `e`,
alone in the queue, the target left fixed and the initial distance above `0.3`:
the loop comes to a stop after finitely many steps if and only if `0 < e < 2`
- for `e <= 0` or `e >= 2` it is scheduled again after every step; and
`currentScroll` never passes to the other side of the target if and only if
`e <= 1` - for `e > 1` the first step already does. -/
theorem lone_step_loop_stops_iff (s : State) (e : ℚ)
    (hq : s.rafQueue = [Callback.step e])
    (hd : (3 / 10 : ℚ) < |s.targetScroll - s.currentScroll|) :
    ((∃ n, (runFrames n s).rafQueue = []) ↔ (0 < e ∧ e < 2)) ∧
    ((e ≤ 0 ∨ 2 ≤ e) → ∀ n, (runFrames n s).rafQueue = [Callback.step e]) ∧
    ((∀ n, 0 ≤ (s.targetScroll - (runFrames n s).currentScroll) *
        (s.targetScroll - s.currentScroll)) ↔ e ≤ 1) ∧
    (1 < e → (s.targetScroll - (runFrames 1 s).currentScroll) *
        (s.targetScroll - s.currentScroll) < 0) := by
  have hd' : STOP_THRESHOLD < |s.targetScroll - s.currentScroll| := by
    simpa [STOP_THRESHOLD] using hd
  have hforever : (e ≤ 0 ∨ 2 ≤ e) → ∀ n, (runFrames n s).rafQueue = [Callback.step e] := by
    intro hout n
    have hr : 1 ≤ |1 - (Callback.step e).ease| := by
      simp only [Callback.ease]
      rcases hout with h | h
      · rw [abs_of_nonneg (by linarith)]; linarith
      · rw [abs_of_nonpos (by linarith)]; linarith
    exact (lone_loop_runs_forever (Callback.step e) hr s hq hd' n).1
  have hfirst : 1 < e → (s.targetScroll - (runFrames 1 s).currentScroll) *
      (s.targetScroll - s.currentScroll) < 0 := by
    intro h1
    obtain ⟨_, hc, _⟩ := frameStep_lone_callback hq
    rw [if_neg (not_lt.mpr hd'.le)] at hc
    show (s.targetScroll - (frameStep s).currentScroll) * (s.targetScroll - s.currentScroll) < 0
    rw [hc]
    simp only [Callback.ease]
    have hne : s.targetScroll - s.currentScroll ≠ 0 := by
      intro h0
      rw [h0] at hd
      norm_num at hd
    have hsq : 0 < (s.targetScroll - s.currentScroll) ^ 2 := by positivity
    nlinarith
  refine ⟨⟨?_, ?_⟩, hforever, ⟨?_, ?_⟩, hfirst⟩
  · rintro ⟨n, hn⟩
    by_contra hnot
    have hout : e ≤ 0 ∨ 2 ≤ e := by
      by_cases h0 : 0 < e
      · right; by_contra h2; exact hnot ⟨h0, not_le.mp h2⟩
      · left; exact not_lt.mp h0
    rw [hforever hout n] at hn
    cases hn
  · rintro ⟨h0, h2⟩
    have hr : |1 - (Callback.step e).ease| < 1 := by
      simp only [Callback.ease]
      rw [abs_lt]; constructor <;> linarith
    obtain ⟨n, _, hrest, _⟩ := lone_loop_stops (Callback.step e) hr s hq
    exact ⟨n, hrest⟩
  · intro hall
    by_contra hgt
    have := hfirst (not_le.mp hgt)
    linarith [hall 1]
  · intro he n
    exact (lone_loop_keeps_side (Callback.step e) he s hq n).2.2

/-! ## Properties stated by the specification -/

/-- C1 (spec scenario: viewport 800, content 3800, native scroll to 1500 from
`currentScroll = 0`): the loop is still scheduled after 48 callbacks and has
stopped after the 49th with `isScrolling` cleared, but `getScroll()` is then
`1500 - 1500 * 0.84^49` (about `1499.7077`), not `clamp(1500, 0, 3000) = 1500`,
and it stays there. -/
theorem native_scroll_1500_rests_off_target :
    maxScroll (nativeScroll 1500 pageAtTop) = 3000 ∧
    (nativeScroll 1500 pageAtTop).currentScroll = 0 ∧
    (nativeScroll 1500 pageAtTop).targetScroll = clamp 1500 3000 ∧
    clamp 1500 3000 = 1500 ∧
    ¬ atRest (runFrames 48 (nativeScroll 1500 pageAtTop)) ∧
    atRest (runFrames 49 (nativeScroll 1500 pageAtTop)) ∧
    (runFrames 49 (nativeScroll 1500 pageAtTop)).isScrolling = false ∧
    getScroll (runFrames 49 (nativeScroll 1500 pageAtTop)) = 1500 - 1500 * (21 / 25) ^ 49 ∧
    getScroll (runFrames 49 (nativeScroll 1500 pageAtTop)) ≠ clamp 1500 3000 ∧
    ∀ n, getScroll (runFrames (49 + n) (nativeScroll 1500 pageAtTop)) ≠ clamp 1500 3000 := by
  have hrest : atRest (runFrames 49 (nativeScroll 1500 pageAtTop)) := by decide!
  have hne : getScroll (runFrames 49 (nativeScroll 1500 pageAtTop)) ≠ clamp 1500 3000 := by
    decide!
  refine ⟨by decide!, by decide!, by decide!, by decide!, by decide!, hrest, by decide!,
    by decide!, hne, ?_⟩
  intro n
  rw [runFrames_add, runFrames_of_atRest hrest]
  exact hne

/-- C2: the state reached from the freshly loaded page by a native scroll to
offset `1` followed by seven animation frames has `isScrolling = false` and no
callback pending, yet `currentScroll = 4302427084/6103515625` (about `0.705`)
while `targetScroll = 1`. -/
theorem reachable_rest_state_off_target :
    Reachable (runFrames 7 (nativeScroll 1 pageAtTop)) ∧
    (runFrames 7 (nativeScroll 1 pageAtTop)).isScrolling = false ∧
    (runFrames 7 (nativeScroll 1 pageAtTop)).rafQueue = [] ∧
    (runFrames 7 (nativeScroll 1 pageAtTop)).targetScroll = 1 ∧
    (runFrames 7 (nativeScroll 1 pageAtTop)).currentScroll = 4302427084 / 6103515625 ∧
    (runFrames 7 (nativeScroll 1 pageAtTop)).currentScroll ≠
      (runFrames 7 (nativeScroll 1 pageAtTop)).targetScroll :=
  ⟨reachable_runFrames (reachable_nativeScroll reachable_pageAtTop 1) 7,
    by decide!, by decide!, by decide!, by decide!, by decide!⟩

/-- C3: from `currentScroll = 0` with `targetScroll = 1000` held fixed, the
`smoothScrollStep` loop is still scheduled after 46 steps and stops at the 47th,
but it stops at `1000 - 1000 * 0.84^47` (about `999.724`): the last step starts
at distance about `0.3287`, too far to snap, and ends at distance about `0.2761`,
too close to be rescheduled. -/
theorem run_0_to_1000_stops_without_snap :
    from0to1000.currentScroll = 0 ∧ from0to1000.targetScroll = 1000 ∧
    from0to1000.rafQueue = [Callback.smoothScrollStep] ∧
    (runFrames 46 from0to1000).rafQueue = [Callback.smoothScrollStep] ∧
    (runFrames 47 from0to1000).rafQueue = [] ∧
    (runFrames 47 from0to1000).isScrolling = false ∧
    (runFrames 47 from0to1000).targetScroll = 1000 ∧
    (runFrames 47 from0to1000).currentScroll = 1000 - 1000 * (21 / 25) ^ 47 ∧
    (runFrames 47 from0to1000).currentScroll ≠ 1000 ∧
    (3 / 10 : ℚ) ≤ 1000 - (runFrames 46 from0to1000).currentScroll ∧
    1000 - (runFrames 47 from0to1000).currentScroll ≤ (3 / 10 : ℚ) ∧
    ∀ n, (runFrames (47 + n) from0to1000).currentScroll ≠ 1000 := by
  have hrest : (runFrames 47 from0to1000).rafQueue = [] := by decide!
  have hne : (runFrames 47 from0to1000).currentScroll ≠ 1000 := by decide!
  refine ⟨by decide!, by decide!, by decide!, by decide!, hrest, by decide!, by decide!,
    by decide!, hne, by decide!, by decide!, ?_⟩
  intro n
  rw [runFrames_add, runFrames_of_atRest hrest]
  exact hne

/-- C4: for every state (any native offset `scrollY`, any content and viewport
height) `onScroll` sets `targetScroll` to `max(0, min(maxScroll, scrollY))` with
`maxScroll = scrollHeight - innerHeight`, which is `0` when `maxScroll` is
negative; it appends one `smoothScrollStep` to the animation-frame queue and
raises `isScrolling` when the flag was down, and leaves the queue alone when
the flag was up; in every reachable state the flag is down exactly when no
`smoothScrollStep` is pending, so a step is scheduled exactly when none was. -/
theorem onScroll_clamps_and_schedules_once (s : State) :
    (onScroll s).targetScroll = max 0 (min (s.scrollHeight - s.innerHeight) s.scrollY) ∧
    (s.scrollHeight - s.innerHeight < 0 → (onScroll s).targetScroll = 0) ∧
    (s.isScrolling = false →
      (onScroll s).rafQueue = s.rafQueue ++ [Callback.smoothScrollStep] ∧
      (onScroll s).isScrolling = true) ∧
    (s.isScrolling = true →
      (onScroll s).rafQueue = s.rafQueue ∧ (onScroll s).isScrolling = true) ∧
    (Reachable s →
      (Callback.smoothScrollStep ∉ s.rafQueue →
        (onScroll s).rafQueue = s.rafQueue ++ [Callback.smoothScrollStep]) ∧
      (Callback.smoothScrollStep ∈ s.rafQueue → (onScroll s).rafQueue = s.rafQueue)) := by
  have ht : (onScroll s).targetScroll =
      max 0 (min (s.scrollHeight - s.innerHeight) s.scrollY) := by
    cases hs : s.isScrolling <;> simp [onScroll, hs]
  have hf : s.isScrolling = false →
      (onScroll s).rafQueue = s.rafQueue ++ [Callback.smoothScrollStep] ∧
      (onScroll s).isScrolling = true := by
    intro hs; simp [onScroll, hs]
  have hb : s.isScrolling = true →
      (onScroll s).rafQueue = s.rafQueue ∧ (onScroll s).isScrolling = true := by
    intro hs; simp [onScroll, hs]
  refine ⟨ht, ?_, hf, hb, ?_⟩
  · intro hneg
    rw [ht]
    exact max_eq_left ((min_le_left _ _).trans hneg.le)
  · intro hr
    have hinv := flagMatchesQueue_of_reachable hr
    unfold flagMatchesQueue at hinv
    constructor
    · intro hnot
      have h0 : s.rafQueue.count Callback.smoothScrollStep = 0 := List.count_eq_zero.mpr hnot
      cases hs : s.isScrolling
      · exact (hf hs).1
      · rw [hs, h0] at hinv; simp at hinv
    · intro hmem
      have hpos : 0 < s.rafQueue.count Callback.smoothScrollStep := List.count_pos_iff.mpr hmem
      cases hs : s.isScrolling
      · rw [hs] at hinv; simp at hinv; omega
      · exact (hb hs).1

/-- On the short page `maxScroll = -200 < 0`: the target becomes `0` and, the
flag being down, exactly one step is queued. -/
theorem onScroll_clamps_and_schedules_once_witness :
    (onScroll shortPage).targetScroll = 0 ∧
    (onScroll shortPage).rafQueue = shortPage.rafQueue ++ [Callback.smoothScrollStep] ∧
    (onScroll shortPage).isScrolling = true :=
  ⟨(onScroll_clamps_and_schedules_once shortPage).2.1 (by decide!),
   (onScroll_clamps_and_schedules_once shortPage).2.2.1 (by decide!)⟩

/-- C5: whenever the remaining distance is at least `0.3` in absolute value,
one `smoothScrollStep` moves `currentScroll` by `0.16` of the signed distance
to `targetScroll`, so the signed distance left is `0.84` of what it was. -/
theorem smoothScrollStep_moves_fixed_fraction (s : State)
    (h : (3 / 10 : ℚ) ≤ |s.targetScroll - s.currentScroll|) :
    (smoothScrollStep s).currentScroll =
      s.currentScroll + (16 / 100 : ℚ) * (s.targetScroll - s.currentScroll) ∧
    (smoothScrollStep s).targetScroll - (smoothScrollStep s).currentScroll =
      (84 / 100 : ℚ) * (s.targetScroll - s.currentScroll) := by
  have hc : (smoothScrollStep s).currentScroll =
      s.currentScroll + (16 / 100 : ℚ) * (s.targetScroll - s.currentScroll) := by
    rw [smoothScrollStep_currentScroll, if_neg (not_lt.mpr (by simpa [STOP_THRESHOLD] using h))]
    simp only [EASE]; ring
  refine ⟨hc, ?_⟩
  rw [smoothScrollStep_targetScroll, hc]; ring

/-- From offset `0` towards `1500`: the first step lands on `240`, leaving `1260`. -/
theorem smoothScrollStep_moves_fixed_fraction_witness :
    (smoothScrollStep (nativeScroll 1500 pageAtTop)).currentScroll = 240 ∧
    (smoothScrollStep (nativeScroll 1500 pageAtTop)).targetScroll -
      (smoothScrollStep (nativeScroll 1500 pageAtTop)).currentScroll = 1260 := by
  have h := smoothScrollStep_moves_fixed_fraction (nativeScroll 1500 pageAtTop) (by decide!)
  have e1 : (nativeScroll 1500 pageAtTop).currentScroll = 0 := by decide!
  have e2 : (nativeScroll 1500 pageAtTop).targetScroll = 1500 := by decide!
  rw [e1, e2] at h
  constructor
  · rw [h.1]; norm_num
  · rw [h.2]; norm_num

/-- C6: whenever the remaining distance is below `0.3` in absolute value, one
`smoothScrollStep` sets `currentScroll` to exactly `targetScroll`, requests no
further animation frame and clears `isScrolling`; run as the only pending
callback it leaves the queue empty. -/
theorem smoothScrollStep_snaps_and_stops (s : State)
    (h : |s.targetScroll - s.currentScroll| < (3 / 10 : ℚ)) :
    (smoothScrollStep s).currentScroll = s.targetScroll ∧
    (smoothScrollStep s).targetScroll = s.targetScroll ∧
    (smoothScrollStep s).rafQueue = s.rafQueue ∧
    (smoothScrollStep s).isScrolling = false ∧
    (s.rafQueue = [Callback.smoothScrollStep] → (frameStep s).rafQueue = []) := by
  have hc : (smoothScrollStep s).currentScroll = s.targetScroll := by
    rw [smoothScrollStep_currentScroll, if_pos (by simpa [STOP_THRESHOLD] using h)]
  have hstop : ∀ t : State, |t.targetScroll - t.currentScroll| < (3 / 10 : ℚ) →
      ¬ |t.targetScroll - (smoothScrollStep t).currentScroll| > STOP_THRESHOLD := by
    intro t ht
    rw [smoothScrollStep_currentScroll, if_pos (by simpa [STOP_THRESHOLD] using ht)]
    norm_num [STOP_THRESHOLD]
  refine ⟨hc, smoothScrollStep_targetScroll s, ?_, ?_, ?_⟩
  · rw [smoothScrollStep_rafQueue, if_neg (hstop s h)]
  · rw [smoothScrollStep_isScrolling, if_neg (hstop s h)]
  · intro hq
    have hs := hstop { s with rafQueue := [] } h
    simp only [frameStep, hq, runCallback, smoothScrollStep_rafQueue]
    exact if_neg hs

/-- A native scroll to offset `1/5` from rest at `0`: the step snaps to `1/5`,
empties the queue and clears the flag. -/
theorem smoothScrollStep_snaps_and_stops_witness :
    (smoothScrollStep (nativeScroll (1 / 5) pageAtTop)).currentScroll =
      (nativeScroll (1 / 5) pageAtTop).targetScroll ∧
    (smoothScrollStep (nativeScroll (1 / 5) pageAtTop)).isScrolling = false ∧
    (frameStep (nativeScroll (1 / 5) pageAtTop)).rafQueue = [] :=
  ⟨(smoothScrollStep_snaps_and_stops (nativeScroll (1 / 5) pageAtTop) (by decide!)).1,
   (smoothScrollStep_snaps_and_stops (nativeScroll (1 / 5) pageAtTop) (by decide!)).2.2.2.1,
   (smoothScrollStep_snaps_and_stops (nativeScroll (1 / 5) pageAtTop) (by decide!)).2.2.2.2
     (by decide!)⟩

/-- C7: in an uninterrupted run of the `smoothScrollStep` loop (it is the
only pending callback and only animation frames happen, so the target stays
fixed), the values of `currentScroll` after 0, 1, 2, ... callbacks never
decrease and never exceed the target when the run starts below the target,
and never increase and never go below the target when it starts above. -/
theorem easing_run_monotone_no_overshoot (s : State) (n : Nat)
    (hq : s.rafQueue = [Callback.smoothScrollStep]) :
    (s.currentScroll < s.targetScroll →
      (runFrames n s).currentScroll ≤ (runFrames (n + 1) s).currentScroll ∧
      (runFrames n s).currentScroll ≤ s.targetScroll) ∧
    (s.targetScroll < s.currentScroll →
      (runFrames (n + 1) s).currentScroll ≤ (runFrames n s).currentScroll ∧
      s.targetScroll ≤ (runFrames n s).currentScroll) := by
  have hs : singleLoop s := Or.inr hq
  constructor
  · intro hlt
    have hle : ∀ k, (runFrames k s).currentScroll ≤ s.targetScroll := by
      intro k
      induction k with
      | zero => exact hlt.le
      | succ j ih =>
        have hj := runFrames_singleLoop hs j
        rw [runFrames_succ_last]
        have := ((frameStep_singleLoop_between hj.1).1 (by rw [hj.2]; exact ih)).2
        rwa [hj.2] at this
    have hn := runFrames_singleLoop hs n
    refine ⟨?_, hle n⟩
    rw [runFrames_succ_last]
    exact ((frameStep_singleLoop_between hn.1).1 (by rw [hn.2]; exact hle n)).1
  · intro hlt
    have hle : ∀ k, s.targetScroll ≤ (runFrames k s).currentScroll := by
      intro k
      induction k with
      | zero => exact hlt.le
      | succ j ih =>
        have hj := runFrames_singleLoop hs j
        rw [runFrames_succ_last]
        have := ((frameStep_singleLoop_between hj.1).2 (by rw [hj.2]; exact ih)).2
        rwa [hj.2] at this
    have hn := runFrames_singleLoop hs n
    refine ⟨?_, hle n⟩
    rw [runFrames_succ_last]
    exact ((frameStep_singleLoop_between hn.1).2 (by rw [hn.2]; exact hle n)).1

/-- Scrolling down from `0` to `1500`, the third value is at most the fourth
and below the target; scrolling back up from `1200` to `100`, the third value
is at least the fourth and above the target. -/
theorem easing_run_monotone_no_overshoot_witness :
    ((runFrames 3 (nativeScroll 1500 pageAtTop)).currentScroll ≤
        (runFrames (3 + 1) (nativeScroll 1500 pageAtTop)).currentScroll ∧
      (runFrames 3 (nativeScroll 1500 pageAtTop)).currentScroll ≤
        (nativeScroll 1500 pageAtTop).targetScroll) ∧
    ((runFrames (3 + 1) scrollingUp).currentScroll ≤ (runFrames 3 scrollingUp).currentScroll ∧
      scrollingUp.targetScroll ≤ (runFrames 3 scrollingUp).currentScroll) :=
  ⟨(easing_run_monotone_no_overshoot (nativeScroll 1500 pageAtTop) 3 (by decide!)).1
      (by decide!),
   (easing_run_monotone_no_overshoot scrollingUp 3 (by decide!)).2 (by decide!)⟩

/-- C8: two calls of `customScroll.scrollTo` from the page at rest leave two
`step` callbacks pending, and a call made while the `smoothScrollStep` loop is
running leaves that loop's callback and a `step` callback pending together, so
more than one easing callback is in flight; the two `step` callbacks both run,
each moving `currentScroll`, and both are scheduled again. -/
theorem scrollTo_spawns_second_loop :
    Reachable (scrollTo 2000 noOpts (scrollTo 1000 noOpts pageAtTop)) ∧
    (scrollTo 2000 noOpts (scrollTo 1000 noOpts pageAtTop)).rafQueue =
      [Callback.step EASE, Callback.step EASE] ∧
    ¬ (scrollTo 2000 noOpts (scrollTo 1000 noOpts pageAtTop)).rafQueue.length ≤ 1 ∧
    (runFrames 2 (scrollTo 2000 noOpts (scrollTo 1000 noOpts pageAtTop))).rafQueue =
      [Callback.step EASE, Callback.step EASE] ∧
    (runFrames 2 (scrollTo 2000 noOpts (scrollTo 1000 noOpts pageAtTop))).currentScroll =
      2000 - 2000 * (21 / 25) ^ 2 ∧
    Reachable (scrollTo 1000 noOpts (nativeScroll 1500 pageAtTop)) ∧
    (scrollTo 1000 noOpts (nativeScroll 1500 pageAtTop)).rafQueue =
      [Callback.smoothScrollStep, Callback.step EASE] :=
  ⟨reachable_scrollTo (reachable_scrollTo reachable_pageAtTop 1000 noOpts) 2000 noOpts,
    by decide!, by decide!, by decide!, by decide!,
    reachable_scrollTo (reachable_nativeScroll reachable_pageAtTop 1500) 1000 noOpts,
    by decide!⟩

/-- C8 (amended): in every reachable state at most one `smoothScrollStep`
callback is pending; a native scroll event leaves exactly one pending, and
leaves the queue as it was when one was pending already; `customScroll.scrollTo`
is outside that guard and appends one `step` callback of its own on every call. -/
theorem at_most_one_smoothScrollStep_pending (s : State) (hr : Reachable s) :
    s.rafQueue.count Callback.smoothScrollStep ≤ 1 ∧
    (∀ y, (nativeScroll y s).rafQueue.count Callback.smoothScrollStep = 1) ∧
    (Callback.smoothScrollStep ∈ s.rafQueue → ∀ y, (nativeScroll y s).rafQueue = s.rafQueue) ∧
    (∀ y opts, (scrollTo y opts s).rafQueue =
      s.rafQueue ++ [Callback.step (opts.ease.getD EASE)]) := by
  have hinv := flagMatchesQueue_of_reachable hr
  unfold flagMatchesQueue at hinv
  refine ⟨?_, ?_, ?_, ?_⟩
  · rw [hinv]; cases s.isScrolling <;> simp
  · intro y
    have h1 := flagMatchesQueue_of_reachable (reachable_nativeScroll hr y)
    unfold flagMatchesQueue at h1
    have h2 : (nativeScroll y s).isScrolling = true := by
      cases hs : s.isScrolling <;> simp [nativeScroll, onScroll, hs]
    rw [h1, h2]; rfl
  · intro hmem y
    have hpos : 0 < s.rafQueue.count Callback.smoothScrollStep := List.count_pos_iff.mpr hmem
    cases hs : s.isScrolling
    · rw [hs] at hinv; simp at hinv; omega
    · exact (nativeScroll_of_isScrolling y hs).1
  · intro y opts
    rfl

/-- While the loop started by a native scroll to `1500` is running, one
`smoothScrollStep` is pending, a further scroll event changes nothing in the
queue, and a `scrollTo(1000)` adds a `step` callback next to it. -/
theorem at_most_one_smoothScrollStep_pending_witness :
    (nativeScroll 1500 pageAtTop).rafQueue.count Callback.smoothScrollStep ≤ 1 ∧
    (nativeScroll 700 (nativeScroll 1500 pageAtTop)).rafQueue =
      (nativeScroll 1500 pageAtTop).rafQueue ∧
    (scrollTo 1000 noOpts (nativeScroll 1500 pageAtTop)).rafQueue =
      (nativeScroll 1500 pageAtTop).rafQueue ++ [Callback.step (noOpts.ease.getD EASE)] :=
  ⟨(at_most_one_smoothScrollStep_pending (nativeScroll 1500 pageAtTop)
      (reachable_nativeScroll reachable_pageAtTop 1500)).1,
   (at_most_one_smoothScrollStep_pending (nativeScroll 1500 pageAtTop)
      (reachable_nativeScroll reachable_pageAtTop 1500)).2.2.1 (by decide!) 700,
   (at_most_one_smoothScrollStep_pending (nativeScroll 1500 pageAtTop)
      (reachable_nativeScroll reachable_pageAtTop 1500)).2.2.2 1000 noOpts⟩

/-- C9: in a reachable state where a `smoothScrollStep` is already scheduled
(`isScrolling` is true), calling `onScroll` any number `N` of times, in
particular `N >= 1` - also when each call sees a different native offset -
leaves the queue of pending callbacks and `isScrolling` exactly as a single
call does, with exactly one `smoothScrollStep` pending. -/
theorem onScroll_repeated_keeps_one_step (s : State) (N : Nat) (y : ℚ) (ys : List ℚ)
    (hr : Reachable s) (hs : s.isScrolling = true) :
    (onScroll^[N] s).rafQueue = (onScroll s).rafQueue ∧
    (onScroll^[N] s).isScrolling = (onScroll s).isScrolling ∧
    (onScroll^[N] s).rafQueue.count Callback.smoothScrollStep = 1 ∧
    (nativeScrolls (y :: ys) s).rafQueue = (nativeScroll y s).rafQueue ∧
    (nativeScrolls (y :: ys) s).isScrolling = (nativeScroll y s).isScrolling ∧
    (nativeScrolls (y :: ys) s).rafQueue.count Callback.smoothScrollStep = 1 := by
  have hinv := flagMatchesQueue_of_reachable hr
  unfold flagMatchesQueue at hinv
  rw [hs] at hinv
  have h1 := iterate_onScroll_of_isScrolling N hs
  have h2 := onScroll_of_isScrolling hs
  have h3 := nativeScrolls_of_isScrolling (y :: ys) hs
  have h4 := nativeScroll_of_isScrolling y hs
  refine ⟨h1.1.trans h2.1.symm, h1.2.trans h2.2.symm, ?_, h3.1.trans h4.1.symm,
    h3.2.trans h4.2.symm, ?_⟩
  · rw [h1.1]; simpa using hinv
  · rw [h3.1]; simpa using hinv

/-- While the loop towards `1500` is running, five more `onScroll` calls, or
three more native scroll events, leave one pending step. -/
theorem onScroll_repeated_keeps_one_step_witness :
    (onScroll^[5] (nativeScroll 1500 pageAtTop)).rafQueue =
      (onScroll (nativeScroll 1500 pageAtTop)).rafQueue ∧
    (onScroll^[5] (nativeScroll 1500 pageAtTop)).isScrolling =
      (onScroll (nativeScroll 1500 pageAtTop)).isScrolling ∧
    (onScroll^[5] (nativeScroll 1500 pageAtTop)).rafQueue.count Callback.smoothScrollStep = 1 ∧
    (nativeScrolls [1400, 1300, 1200] (nativeScroll 1500 pageAtTop)).rafQueue =
      (nativeScroll 1400 (nativeScroll 1500 pageAtTop)).rafQueue ∧
    (nativeScrolls [1400, 1300, 1200] (nativeScroll 1500 pageAtTop)).isScrolling =
      (nativeScroll 1400 (nativeScroll 1500 pageAtTop)).isScrolling ∧
    (nativeScrolls [1400, 1300, 1200] (nativeScroll 1500 pageAtTop)).rafQueue.count
      Callback.smoothScrollStep = 1 :=
  onScroll_repeated_keeps_one_step (nativeScroll 1500 pageAtTop) 5 1400 [1300, 1200]
    (reachable_nativeScroll reachable_pageAtTop 1500) (by decide!)

/-- C10: on the page with `maxScroll = 3000`, `scrollTo(3000)` and then, with
the first run at `1506.38592` and its `step` loop still pending,
`scrollTo(5000)`, each followed by the scroll event of its native scroll: 51
callbacks later every loop has stopped, and from then on
`currentScroll = 3000 = clamp(5000, 0, 3000)`, which is `Y1`. -/
theorem redirect_beyond_maximum_rests_on_first_value :
    maxScroll pageAtTop = 3000 ∧
    Callback.step EASE ∈ redirectedMidway.rafQueue ∧
    redirectedMidway.targetScroll = 3000 ∧
    redirectedMidway.currentScroll = 4707456 / 3125 ∧
    (scrollToInBrowser 5000 noOpts redirectedMidway).rafQueue =
      [Callback.step EASE, Callback.smoothScrollStep, Callback.step EASE] ∧
    clamp 5000 (maxScroll pageAtTop) = 3000 ∧
    (∀ m, atRest (runFrames (51 + m) (scrollToInBrowser 5000 noOpts redirectedMidway)) ∧
      (runFrames (51 + m) (scrollToInBrowser 5000 noOpts redirectedMidway)).currentScroll =
        3000) := by
  refine ⟨by decide!, by decide!, by decide!, by decide!, by decide!, by decide!, fun m => ?_⟩
  have hrest : (runFrames 51 (scrollToInBrowser 5000 noOpts redirectedMidway)).rafQueue = [] := by
    decide!
  rw [runFrames_add, runFrames_of_atRest hrest]
  exact ⟨hrest, by decide!⟩

/-- C10 (amended): from any reachable state whose pending callbacks have eases
strictly between `0` and `2`, `scrollTo(Y1)`, then any scroll events and any
number of frames that leave a default-ease `step` loop pending, then
`scrollTo(Y2)` and the scroll event of its native scroll: all loops stop and
from then on `currentScroll` is exactly the clamp of the offset the event
reported - `clamp(Y2, 0, maxScroll)` when the browser reports the offset that
was requested - and it differs from `Y1` whenever `Y1` is not that value. -/
theorem redirect_rests_on_reported_offset (s0 : State) (Y1 Y2 r2 : ℚ) (rs : List ℚ) (k : Nat)
    (hr : Reachable s0)
    (hall : ∀ cb ∈ s0.rafQueue, 0 < cb.ease ∧ cb.ease < 2)
    (hpending : Callback.step EASE ∈
      (runFrames k (nativeScrolls rs (scrollTo Y1 noOpts s0))).rafQueue) :
    (∃ n, ∀ m, n ≤ m →
      atRest (runFrames m (nativeScroll r2
        (scrollTo Y2 noOpts (runFrames k (nativeScrolls rs (scrollTo Y1 noOpts s0)))))) ∧
      (runFrames m (nativeScroll r2
        (scrollTo Y2 noOpts (runFrames k (nativeScrolls rs (scrollTo Y1 noOpts s0))))
        )).currentScroll = clamp r2 (maxScroll s0)) ∧
    (∃ n, ∀ m, n ≤ m →
      atRest (runFrames m (scrollToInBrowser Y2 noOpts
        (runFrames k (nativeScrolls rs (scrollTo Y1 noOpts s0))))) ∧
      (runFrames m (scrollToInBrowser Y2 noOpts
        (runFrames k (nativeScrolls rs (scrollTo Y1 noOpts s0))))).currentScroll =
        clamp Y2 (maxScroll s0) ∧
      (Y1 ≠ clamp Y2 (maxScroll s0) →
        (runFrames m (scrollToInBrowser Y2 noOpts
          (runFrames k (nativeScrolls rs (scrollTo Y1 noOpts s0))))).currentScroll ≠ Y1)) := by
  have hall1 : ∀ cb ∈ (scrollTo Y1 noOpts s0).rafQueue, 0 < cb.ease ∧ cb.ease < 2 := by
    intro cb hcb
    have hq : (scrollTo Y1 noOpts s0).rafQueue = s0.rafQueue ++ [Callback.step EASE] := rfl
    rw [hq, List.mem_append, List.mem_singleton] at hcb
    rcases hcb with h | rfl
    · exact hall cb h
    · exact default_ease_in_range
  obtain ⟨hr2, hall2, hm2⟩ := nativeScrolls_redirect_invariants rs _
    (reachable_scrollTo hr Y1 noOpts) hall1
  have hm1 : maxScroll (scrollTo Y1 noOpts s0) = maxScroll s0 := rfl
  have hm3 : maxScroll (runFrames k (nativeScrolls rs (scrollTo Y1 noOpts s0))) = maxScroll s0 :=
    (runFrames_maxScroll k _).trans (hm2.trans hm1)
  have hflag := flagMatchesQueue_of_reachable (reachable_runFrames hr2 k)
  have hall3 : ∀ cb ∈ (runFrames k (nativeScrolls rs (scrollTo Y1 noOpts s0))).rafQueue,
      0 < cb.ease ∧ cb.ease < 2 := fun cb hcb => hall2 cb (runFrames_queue_subset k _ cb hcb)
  constructor
  · obtain ⟨n, hn⟩ := redirect_with_scroll_event _ Y2 r2 hflag hall3 hpending
    rw [hm3] at hn
    exact ⟨n, hn⟩
  · obtain ⟨n, hn⟩ := redirect_with_scroll_event _ Y2
      (scrollTo Y2 noOpts (runFrames k (nativeScrolls rs (scrollTo Y1 noOpts s0)))).targetScroll
      hflag hall3 hpending
    have ht : (scrollTo Y2 noOpts
        (runFrames k (nativeScrolls rs (scrollTo Y1 noOpts s0)))).targetScroll =
        clamp Y2 (maxScroll s0) := by
      rw [← hm3]; rfl
    rw [ht, hm3, clamp_clamp] at hn
    refine ⟨n, fun m hm => ?_⟩
    have h := hn m hm
    have he : scrollToInBrowser Y2 noOpts
        (runFrames k (nativeScrolls rs (scrollTo Y1 noOpts s0))) =
        nativeScroll (clamp Y2 (maxScroll s0))
          (scrollTo Y2 noOpts (runFrames k (nativeScrolls rs (scrollTo Y1 noOpts s0)))) := by
      unfold scrollToInBrowser
      rw [ht]
    rw [he]
    refine ⟨h.1, h.2, fun hne heq => hne ?_⟩
    rw [← heq, h.2]

/-- From the top, `scrollTo(1000)`, its scroll event and four callbacks, then
`scrollTo(2000)`: whatever offset `r2 = 1990` the event reports the run rests
on `clamp(1990, 0, 3000)`, and with the requested offset reported it rests on
`clamp(2000, 0, 3000)`, which is not `1000`. -/
theorem redirect_rests_on_reported_offset_witness :
    (∃ n, ∀ m, n ≤ m →
      atRest (runFrames m (nativeScroll 1990
        (scrollTo 2000 noOpts (runFrames 4 (nativeScrolls [1000]
          (scrollTo 1000 noOpts pageAtTop)))))) ∧
      (runFrames m (nativeScroll 1990
        (scrollTo 2000 noOpts (runFrames 4 (nativeScrolls [1000]
          (scrollTo 1000 noOpts pageAtTop)))))).currentScroll =
        clamp 1990 (maxScroll pageAtTop)) ∧
    (∃ n, ∀ m, n ≤ m →
      atRest (runFrames m (scrollToInBrowser 2000 noOpts
        (runFrames 4 (nativeScrolls [1000] (scrollTo 1000 noOpts pageAtTop))))) ∧
      (runFrames m (scrollToInBrowser 2000 noOpts
        (runFrames 4 (nativeScrolls [1000] (scrollTo 1000 noOpts pageAtTop))))).currentScroll =
        clamp 2000 (maxScroll pageAtTop) ∧
      ((1000 : ℚ) ≠ clamp 2000 (maxScroll pageAtTop) →
        (runFrames m (scrollToInBrowser 2000 noOpts
          (runFrames 4 (nativeScrolls [1000]
            (scrollTo 1000 noOpts pageAtTop))))).currentScroll ≠ 1000)) :=
  redirect_rests_on_reported_offset pageAtTop 1000 2000 1990 [1000] 4 reachable_pageAtTop
    (by decide!) (by decide!)

/-- C11: for every rational `y` and every options object, `customScroll.scrollTo`
returns normally; it sets `targetScroll` to `max(0, min(maxScroll, y))` - which
is `0` for `y < 0`, `y` itself for `0 <= y <= maxScroll`, `maxScroll` for
`y > maxScroll >= 0`, and always inside `[0, maxScroll]` when `maxScroll >= 0` -
and the one write it performs is the native scroll request with that same
value, the other module variables staying as they were. -/
theorem scrollTo_clamps_and_requests_native_scroll (y : ℚ) (opts : Opts) (s : State) :
    (scrollTo y opts s).targetScroll = clamp y (maxScroll s) ∧
    (scrollTo y opts s).effects =
      s.effects ++ [Effect.nativeScrollTo (scrollTo y opts s).targetScroll] ∧
    (y < 0 → (scrollTo y opts s).targetScroll = 0) ∧
    (0 ≤ y → y ≤ maxScroll s → (scrollTo y opts s).targetScroll = y) ∧
    (0 ≤ maxScroll s → maxScroll s < y → (scrollTo y opts s).targetScroll = maxScroll s) ∧
    (0 ≤ maxScroll s →
      0 ≤ (scrollTo y opts s).targetScroll ∧ (scrollTo y opts s).targetScroll ≤ maxScroll s) ∧
    (scrollTo y opts s).currentScroll = s.currentScroll ∧
    (scrollTo y opts s).isScrolling = s.isScrolling := by
  have ht : (scrollTo y opts s).targetScroll = max 0 (min (maxScroll s) y) := rfl
  refine ⟨rfl, rfl, ?_, ?_, ?_, ?_, rfl, rfl⟩
  · intro hy
    rw [ht]
    exact max_eq_left ((min_le_right _ _).trans hy.le)
  · intro h0 h1
    rw [ht, min_eq_right h1, max_eq_right h0]
  · intro h0 h1
    rw [ht, min_eq_left h1.le, max_eq_right h0]
  · intro h0
    rw [ht]
    exact ⟨le_max_left _ _, max_le h0 (min_le_left _ _)⟩

/-- On the page with `maxScroll = 3000`: `scrollTo(-50)` targets `0`,
`scrollTo(1200)` targets `1200`, `scrollTo(9000)` targets `3000`. -/
theorem scrollTo_clamps_and_requests_native_scroll_witness :
    (scrollTo (-50) noOpts pageAtTop).targetScroll = 0 ∧
    (scrollTo 1200 noOpts pageAtTop).targetScroll = 1200 ∧
    (scrollTo 9000 noOpts pageAtTop).targetScroll = maxScroll pageAtTop ∧
    (0 ≤ (scrollTo 9000 noOpts pageAtTop).targetScroll ∧
      (scrollTo 9000 noOpts pageAtTop).targetScroll ≤ maxScroll pageAtTop) :=
  ⟨(scrollTo_clamps_and_requests_native_scroll (-50) noOpts pageAtTop).2.2.1 (by decide!),
   (scrollTo_clamps_and_requests_native_scroll 1200 noOpts pageAtTop).2.2.2.1
     (by decide!) (by decide!),
   (scrollTo_clamps_and_requests_native_scroll 9000 noOpts pageAtTop).2.2.2.2.1
     (by decide!) (by decide!),
   (scrollTo_clamps_and_requests_native_scroll 9000 noOpts pageAtTop).2.2.2.2.2.1
     (by decide!)⟩

/-- C12: in every state `getScroll()` returns `currentScroll` and the call leaves
the whole state, in particular `targetScroll`, `currentScroll` and `isScrolling`,
as it was; one frame after a native scroll to `1500` it returns the eased value
`240` while both the native offset and `targetScroll` are `1500`. -/
theorem getScroll_returns_eased_offset (s : State) :
    (callGetScroll s).1 = s.currentScroll ∧
    (callGetScroll s).2 = s ∧
    (callGetScroll s).2.targetScroll = s.targetScroll ∧
    (callGetScroll s).2.currentScroll = s.currentScroll ∧
    (callGetScroll s).2.isScrolling = s.isScrolling ∧
    (callGetScroll (runFrames 1 (nativeScroll 1500 pageAtTop))).1 = 240 ∧
    (runFrames 1 (nativeScroll 1500 pageAtTop)).scrollY = 1500 ∧
    (runFrames 1 (nativeScroll 1500 pageAtTop)).targetScroll = 1500 :=
  ⟨rfl, rfl, rfl, rfl, rfl, by decide!, by decide!, by decide!⟩

/-- C13: after `updateScrollbar`, when `maxScroll > 0`, `0 <= currentScroll <=
maxScroll` and the computed thumb is shorter than the track, the written thumb
offset divided by `trackHeight - thumbHeight` equals `currentScroll / maxScroll`
(exact arithmetic).  The values compared are the ones the function writes. -/
theorem updateScrollbar_thumb_proportional (s : State)
    (hmax : 0 < maxScroll s) (h0 : 0 ≤ s.currentScroll) (h1 : s.currentScroll ≤ maxScroll s)
    (hfit : computedThumbHeight s < s.trackOffsetHeight) :
    (updateScrollbar s).thumbHeight = some (computedThumbHeight s) ∧
    (updateScrollbar s).thumbTop = some (computedThumbTop s) ∧
    computedThumbTop s / (s.trackOffsetHeight - computedThumbHeight s) =
      s.currentScroll / maxScroll s := by
  refine ⟨rfl, rfl, ?_⟩
  have hne : s.trackOffsetHeight - computedThumbHeight s ≠ 0 := by
    have := sub_pos.mpr hfit
    exact ne_of_gt this
  have hp : scrollProgress s = s.currentScroll / maxScroll s := by
    unfold scrollProgress maxScroll at *
    rw [orOne, if_neg (ne_of_gt hmax)]
    rw [min_eq_right ((div_le_one hmax).mpr h1), max_eq_right (div_nonneg h0 hmax.le)]
  unfold computedThumbTop
  rw [hp, mul_div_assoc, div_self hne, mul_one]

/-- The spec scenario: at `currentScroll = 1500` of `maxScroll = 3000` the thumb
sits at proportion `1/2` of the draggable range. -/
theorem updateScrollbar_thumb_proportional_witness :
    (updateScrollbar pageAt1500).thumbHeight = some (computedThumbHeight pageAt1500) ∧
    (updateScrollbar pageAt1500).thumbTop = some (computedThumbTop pageAt1500) ∧
    computedThumbTop pageAt1500 / (pageAt1500.trackOffsetHeight - computedThumbHeight pageAt1500) =
      pageAt1500.currentScroll / maxScroll pageAt1500 ∧
    pageAt1500.currentScroll / maxScroll pageAt1500 = 1 / 2 :=
  ⟨(updateScrollbar_thumb_proportional pageAt1500 (by decide!) (by decide!) (by decide!)
      (by decide!)).1,
   (updateScrollbar_thumb_proportional pageAt1500 (by decide!) (by decide!) (by decide!)
      (by decide!)).2.1,
   (updateScrollbar_thumb_proportional pageAt1500 (by decide!) (by decide!) (by decide!)
      (by decide!)).2.2,
   by decide!⟩

/-- C14: with a track of height 40 the thumb keeps its minimum height 50, so
`trackHeight - thumbHeight = -10`, and at `currentScroll = 1500` of 3000
`updateScrollbar` writes the offset `-5`, which exceeds `-10`. -/
theorem thumb_offset_exceeds_short_track :
    (updateScrollbar shortTrackPage).thumbHeight = some 50 ∧
    (updateScrollbar shortTrackPage).thumbTop = some (-5) ∧
    shortTrackPage.trackOffsetHeight - 50 = -10 ∧
    ¬ ((-5 : ℚ) ≤ shortTrackPage.trackOffsetHeight - 50) := by
  refine ⟨by decide!, by decide!, by decide!, by decide!⟩

/-- C14 (amended): for a positive content height, `updateScrollbar` writes the
thumb height `max(50, track * viewport / content)` and the offset
`progress * (track - thumbHeight)` with `0 <= progress <= 1`; whenever that thumb
fits in the track the offset lies in `[0, trackHeight - thumbHeight]`, and
when the track is shorter than the thumb it lies in
`[trackHeight - thumbHeight, 0]`. -/
theorem thumb_offset_within_track_when_thumb_fits (s : State)
    (hcontent : 0 < s.scrollHeight) :
    (updateScrollbar s).thumbHeight = some (computedThumbHeight s) ∧
    (updateScrollbar s).thumbTop = some (computedThumbTop s) ∧
    s.scrollHeight ≠ 0 ∧
    (computedThumbHeight s ≤ s.trackOffsetHeight →
      0 ≤ computedThumbTop s ∧
      computedThumbTop s ≤ s.trackOffsetHeight - computedThumbHeight s) ∧
    (s.trackOffsetHeight < computedThumbHeight s →
      s.trackOffsetHeight - computedThumbHeight s ≤ computedThumbTop s ∧
      computedThumbTop s ≤ 0) := by
  obtain ⟨hp0, hp1⟩ := scrollProgress_bounds s
  refine ⟨rfl, rfl, ne_of_gt hcontent, ?_, ?_⟩
  · intro hfit
    have hd : 0 ≤ s.trackOffsetHeight - computedThumbHeight s := sub_nonneg.mpr hfit
    unfold computedThumbTop
    exact ⟨mul_nonneg hp0 hd, mul_le_of_le_one_left hd hp1⟩
  · intro hshort
    have hd : s.trackOffsetHeight - computedThumbHeight s ≤ 0 := (sub_neg.mpr hshort).le
    unfold computedThumbTop
    constructor
    · nlinarith
    · exact mul_nonpos_of_nonneg_of_nonpos hp0 hd

/-- At offset `1500` of `3000` (content height 3800) with a track of 800 the
thumb (height `3200/19`) fits and its offset is inside the draggable range;
with a track of 40 it does not fit and the offset lies between `-10` and `0`. -/
theorem thumb_offset_within_track_when_thumb_fits_witness :
    (0 ≤ computedThumbTop pageAt1500 ∧
      computedThumbTop pageAt1500 ≤
        pageAt1500.trackOffsetHeight - computedThumbHeight pageAt1500) ∧
    (shortTrackPage.trackOffsetHeight - computedThumbHeight shortTrackPage ≤
        computedThumbTop shortTrackPage ∧
      computedThumbTop shortTrackPage ≤ 0) :=
  ⟨(thumb_offset_within_track_when_thumb_fits pageAt1500 (by decide!)).2.2.2.1 (by decide!),
   (thumb_offset_within_track_when_thumb_fits shortTrackPage (by decide!)).2.2.2.2 (by decide!)⟩

/-- C15: after a native scroll to `1500` on the page with `maxScroll = 3000`
the content shrinks to height 1000 (`maxScroll = 200`); the resize handler does
not touch `targetScroll`, which stays `1500 > 200` in a reachable state. -/
theorem target_exceeds_maxScroll_after_shrink :
    Reachable shrunkPage ∧
    maxScroll shrunkPage = 200 ∧
    shrunkPage.targetScroll = 1500 ∧
    ¬ shrunkPage.targetScroll ≤ maxScroll shrunkPage :=
  ⟨Reachable.next _ (reachable_nativeScroll reachable_pageAtTop 1500),
    by decide!, by decide!, by decide!⟩

/-- C15 (amended): in every reachable state `0 <= targetScroll`; and in every
state reached from initialisation through native scroll events, `scrollTo`,
easing steps, drag input and `load`, with no change of size in between and
`maxScroll >= 0`, `targetScroll` lies in `[0, maxScroll]`. -/
theorem targetScroll_in_range_while_size_fixed :
    (∀ s : State, Reachable s → 0 ≤ s.targetScroll) ∧
    (∀ (scrollY h v t th : ℚ) (es : List Event),
      0 ≤ h - v → (∀ e ∈ es, e.isResize = false) →
      maxScroll (applyEvents es (initState scrollY h v t th)) = h - v ∧
      0 ≤ (applyEvents es (initState scrollY h v t th)).targetScroll ∧
      (applyEvents es (initState scrollY h v t th)).targetScroll ≤
        maxScroll (applyEvents es (initState scrollY h v t th))) := by
  refine ⟨fun s hs => targetScroll_nonneg_of_reachable hs, ?_⟩
  intro scrollY h v t th es hM hno
  have hi := onScroll_target (updateScrollbar (setBodyHeight
    { targetScroll := scrollY, currentScroll := scrollY, isScrolling := false,
      isDragging := false, dragStartY := 0, dragStartScroll := 0,
      scrollHeight := h, innerHeight := v, scrollY := scrollY,
      trackOffsetHeight := t, thumbOffsetHeight := th,
      bodyHeight := none, transform := none, thumbHeight := none, thumbTop := none,
      userSelect := "", effects := [], rafQueue := [] }))
  have hm : maxScroll (initState scrollY h v t th) = h - v := by
    unfold maxScroll initState
    rw [hi.2.1, hi.2.2]; rfl
  have ht : (initState scrollY h v t th).targetScroll = max 0 (min (h - v) scrollY) := by
    unfold initState
    rw [hi.1]; rfl
  have hres := applyEvents_keeps_target_in_range es (initState scrollY h v t th) hno
    (by rw [hm]; exact hM) (by rw [ht]; exact le_max_left _ _)
    (by rw [ht, hm]; exact max_le hM (min_le_left _ _))
  rw [hm] at hres
  refine ⟨hres.1, hres.2.1, ?_⟩
  rw [hres.1]; exact hres.2.2

/-- From a page loaded at native offset `5000` (content 3800, viewport 800):
a scroll event, a `scrollTo` beyond the end, a frame and a drag leave the target
inside `[0, 3000]`. -/
theorem targetScroll_in_range_while_size_fixed_witness :
    0 ≤ shrunkPage.targetScroll ∧
    (maxScroll (applyEvents [Event.scroll 4000, Event.scrollTo 9000 noOpts, Event.frame,
        Event.mousedown 10, Event.mousemove 30, Event.mouseup]
        (initState 5000 3800 800 800 (3200 / 19))) = 3800 - 800 ∧
      0 ≤ (applyEvents [Event.scroll 4000, Event.scrollTo 9000 noOpts, Event.frame,
        Event.mousedown 10, Event.mousemove 30, Event.mouseup]
        (initState 5000 3800 800 800 (3200 / 19))).targetScroll ∧
      (applyEvents [Event.scroll 4000, Event.scrollTo 9000 noOpts, Event.frame,
        Event.mousedown 10, Event.mousemove 30, Event.mouseup]
        (initState 5000 3800 800 800 (3200 / 19))).targetScroll ≤
        maxScroll (applyEvents [Event.scroll 4000, Event.scrollTo 9000 noOpts, Event.frame,
          Event.mousedown 10, Event.mousemove 30, Event.mouseup]
          (initState 5000 3800 800 800 (3200 / 19)))) :=
  ⟨targetScroll_in_range_while_size_fixed.1 shrunkPage
      (Reachable.next _ (reachable_nativeScroll reachable_pageAtTop 1500)),
   targetScroll_in_range_while_size_fixed.2 5000 3800 800 800 (3200 / 19) _ (by norm_num)
      (by decide)⟩

/-- C16: when the thumb is as tall as the track the draggable height is `0`
and the handler divides by `1` instead: moving the pointer by `1/2` on a page
with `maxScroll = 2` requests a native scroll to `1`, whereas the quotient by
the draggable height itself gives `0` in exact arithmetic (and the clamp of an
infinite value, `maxScroll = 2`, in IEEE arithmetic). -/
theorem drag_with_zero_draggable_height_divides_by_one :
    fullThumbDrag.isDragging = true ∧
    fullThumbDrag.trackOffsetHeight - fullThumbDrag.thumbOffsetHeight = 0 ∧
    maxScroll fullThumbDrag = 2 ∧
    (onMouseMove (1 / 2) fullThumbDrag).effects =
      fullThumbDrag.effects ++ [Effect.nativeScrollTo 1] ∧
    unguardedDragRequest (1 / 2) fullThumbDrag = 0 ∧
    (onMouseMove (1 / 2) fullThumbDrag).effects ≠
      fullThumbDrag.effects ++ [Effect.nativeScrollTo (unguardedDragRequest (1 / 2) fullThumbDrag)] ∧
    (onMouseMove (1 / 2) fullThumbDrag).effects ≠
      fullThumbDrag.effects ++ [Effect.nativeScrollTo (maxScroll fullThumbDrag)] := by
  refine ⟨by decide!, by decide!, by decide!, by decide!, by decide!, by decide!, by decide!⟩

/-- C16 (amended): while a drag session is active the `mousemove` handler issues
exactly one native scroll request, to `dragStartScroll + scrollDelta` clamped by
`max(0, min(maxScroll, .))`, where `scrollDelta = ((pointerY - dragStartY) / d) *
maxScroll` and `d` is `trackHeight - thumbHeight`, replaced by `1` when that
difference is `0`; it changes nothing else.  With no drag session active it
leaves the state as it is and issues no request. -/
theorem mousemove_requests_native_scroll (s : State) (clientY : ℚ) :
    (s.isDragging = true →
      (onMouseMove clientY s).effects = s.effects ++
        [Effect.nativeScrollTo (clamp (s.dragStartScroll +
          (clientY - s.dragStartY) / orOne (s.trackOffsetHeight - s.thumbOffsetHeight) *
            maxScroll s) (maxScroll s))] ∧
      (s.trackOffsetHeight - s.thumbOffsetHeight ≠ 0 →
        (onMouseMove clientY s).effects = s.effects ++
          [Effect.nativeScrollTo (unguardedDragRequest clientY s)]) ∧
      (s.trackOffsetHeight - s.thumbOffsetHeight = 0 →
        (onMouseMove clientY s).effects = s.effects ++
          [Effect.nativeScrollTo (clamp (s.dragStartScroll +
            (clientY - s.dragStartY) * maxScroll s) (maxScroll s))]) ∧
      (onMouseMove clientY s).targetScroll = s.targetScroll ∧
      (onMouseMove clientY s).currentScroll = s.currentScroll ∧
      (onMouseMove clientY s).isScrolling = s.isScrolling ∧
      (onMouseMove clientY s).rafQueue = s.rafQueue ∧
      (onMouseMove clientY s).isDragging = true) ∧
    (s.isDragging = false → onMouseMove clientY s = s) := by
  constructor
  · intro hd
    have he : (onMouseMove clientY s).effects = s.effects ++
        [Effect.nativeScrollTo (clamp (s.dragStartScroll +
          (clientY - s.dragStartY) / orOne (s.trackOffsetHeight - s.thumbOffsetHeight) *
            maxScroll s) (maxScroll s))] := by
      simp [onMouseMove, hd, clamp, maxScroll]
    refine ⟨he, ?_, ?_, ?_, ?_, ?_, ?_, ?_⟩
    · intro hne
      rw [he, unguardedDragRequest, orOne, if_neg hne]
    · intro h0
      rw [he, orOne, if_pos h0, div_one]
    all_goals simp [onMouseMove, hd]
  · intro hd
    simp [onMouseMove, hd]

/-- Dragging from pointer `100` to `258` on the page at the top: the draggable
height is `800 - 3200/19`, the request is sent, and the scroll state is
untouched; the same move with no drag in progress changes nothing. -/
theorem mousemove_requests_native_scroll_witness :
    (onMouseMove 258 dragFromTop).effects = dragFromTop.effects ++
      [Effect.nativeScrollTo (unguardedDragRequest 258 dragFromTop)] ∧
    unguardedDragRequest 258 dragFromTop = 1501 / 2 ∧
    onMouseMove 258 pageAtTop = pageAtTop :=
  ⟨((mousemove_requests_native_scroll dragFromTop 258).1 (by decide!)).2.1 (by decide!),
   by decide!,
   (mousemove_requests_native_scroll pageAtTop 258).2 (by decide!)⟩

/-- C17: for every prior state and every new content height, viewport height
and track and thumb heights, the `resize` listener and the `ResizeObserver`
callback write the new body height and the recomputed thumb height and offset,
and leave `currentScroll`, `targetScroll`, `isScrolling` and the pending
callbacks exactly as they were. -/
theorem resize_keeps_scroll_state (s : State) (h v t th : ℚ) :
    (applyEvent (Event.resize h v t th) s).currentScroll = s.currentScroll ∧
    (applyEvent (Event.resize h v t th) s).targetScroll = s.targetScroll ∧
    (applyEvent (Event.resize h v t th) s).isScrolling = s.isScrolling ∧
    (applyEvent (Event.resize h v t th) s).rafQueue = s.rafQueue ∧
    (applyEvent (Event.resize h v t th) s).bodyHeight = some h ∧
    (applyEvent (Event.resize h v t th) s).thumbHeight = some (max 50 (t * (v / h))) ∧
    (applyEvent (Event.resize h v t th) s).thumbTop =
      some (max 0 (min 1 (s.currentScroll / orOne (h - v))) * (t - max 50 (t * (v / h)))) ∧
    (onResize s).currentScroll = s.currentScroll ∧
    (onResize s).targetScroll = s.targetScroll ∧
    (onResize s).isScrolling = s.isScrolling :=
  ⟨rfl, rfl, rfl, rfl, rfl, rfl, rfl, rfl, rfl, rfl⟩

/-- C18: `onScroll` (and the native scroll event), the synchronous part of
`customScroll.scrollTo`, the `mousedown`, `mousemove` and `mouseup` handlers, the
resize handlers, the `load` handler and `getScroll` all leave `currentScroll`
unchanged - every event other than an animation frame does; an animation
frame does change it (from `0` to `240` on the first step towards `1500`). -/
theorem currentScroll_changed_only_by_easing_step (s : State) :
    (onScroll s).currentScroll = s.currentScroll ∧
    (∀ y opts, (scrollTo y opts s).currentScroll = s.currentScroll) ∧
    (∀ y, (onMouseDown y s).currentScroll = s.currentScroll) ∧
    (∀ y, (onMouseMove y s).currentScroll = s.currentScroll) ∧
    (onMouseUp s).currentScroll = s.currentScroll ∧
    (onResize s).currentScroll = s.currentScroll ∧
    (callGetScroll s).2.currentScroll = s.currentScroll ∧
    (∀ e, e ≠ Event.frame → (applyEvent e s).currentScroll = s.currentScroll) ∧
    (nativeScroll 1500 pageAtTop).currentScroll = 0 ∧
    (applyEvent Event.frame (nativeScroll 1500 pageAtTop)).currentScroll = 240 := by
  refine ⟨(onScroll_keeps_view s).1, fun _ _ => rfl, fun _ => rfl,
    fun y => (onMouseMove_keeps y s).2.1, rfl, rfl, rfl, ?_, by decide!, by decide!⟩
  intro e he
  cases e with
  | scroll y => exact (onScroll_keeps_view _).1
  | frame => exact absurd rfl he
  | scrollTo y opts => rfl
  | mousedown y => rfl
  | mousemove y => exact (onMouseMove_keeps y s).2.1
  | mouseup => rfl
  | resize a b c d => rfl
  | load => exact (onScroll_keeps_view _).1

/-- During a drag on the page heading for `1500`, a pointer move leaves
`currentScroll` where the last easing step put it. -/
theorem currentScroll_changed_only_by_easing_step_witness :
    (applyEvent (Event.mousemove 300) (onMouseDown 100 (nativeScroll 1500 pageAtTop))).currentScroll =
      (onMouseDown 100 (nativeScroll 1500 pageAtTop)).currentScroll :=
  (currentScroll_changed_only_by_easing_step
    (onMouseDown 100 (nativeScroll 1500 pageAtTop))).2.2.2.2.2.2.2.1 (Event.mousemove 300)
    (by decide)

/-- C19: the resize handler writes the thumb styles itself: when the viewport
of the page displayed at `1500` shrinks to 600 (track 600), the handler appends
a body-height write and the two thumb writes, and the thumb height and offset
change, with no easing step involved. -/
theorem resize_handler_writes_thumb_styles :
    (applyEvent (Event.resize 3800 600 600 100) pageAt1500).effects =
      pageAt1500.effects ++ [Effect.bodyHeight 3800, Effect.thumbHeight (1800 / 19),
        Effect.thumbTop (4500 / 19)] ∧
    pageAt1500.thumbHeight = some (3200 / 19) ∧
    (applyEvent (Event.resize 3800 600 600 100) pageAt1500).thumbHeight = some (1800 / 19) ∧
    (applyEvent (Event.resize 3800 600 600 100) pageAt1500).thumbHeight ≠ pageAt1500.thumbHeight ∧
    (applyEvent (Event.resize 3800 600 600 100) pageAt1500).thumbTop ≠ pageAt1500.thumbTop ∧
    (applyEvent (Event.resize 3800 600 600 100) pageAt1500).rafQueue = pageAt1500.rafQueue := by
  refine ⟨by decide!, by decide!, by decide!, by decide!, by decide!, by decide!⟩

/-- C19 (amended): the transform is written only by an easing step - no event
other than an animation frame writes it; the thumb height and offset are
written by easing steps and also, directly through `updateScrollbar`, by the
`resize`, content-size and `load` handlers; the native scroll, `scrollTo` and
drag handlers write neither the transform nor the thumb styles. -/
theorem view_writes_by_handler (s : State) (e : Event) (he : e ≠ Event.frame) :
    (applyEvent e s).transform = s.transform ∧
    (∃ new, (applyEvent e s).effects = s.effects ++ new ∧ ∀ x ∈ new, x.isTransform = false) ∧
    (e.callsUpdateScrollbar = false →
      (applyEvent e s).thumbHeight = s.thumbHeight ∧
      (applyEvent e s).thumbTop = s.thumbTop ∧
      ∃ new, (applyEvent e s).effects = s.effects ++ new ∧ ∀ x ∈ new, x.isThumb = false) ∧
    (e.callsUpdateScrollbar = true →
      ∃ r : State, r.currentScroll = s.currentScroll ∧
        (applyEvent e s).thumbHeight = some (computedThumbHeight r) ∧
        (applyEvent e s).thumbTop = some (computedThumbTop r) ∧
        (applyEvent e s).effects = s.effects ++ [Effect.bodyHeight r.scrollHeight,
          Effect.thumbHeight (computedThumbHeight r), Effect.thumbTop (computedThumbTop r)]) := by
  cases e with
  | frame => exact absurd rfl he
  | scroll y =>
    have h := onScroll_keeps_view { s with scrollY := y }
    refine ⟨h.2.1, ⟨[], by simpa using h.2.2.2.2, by simp⟩, fun _ => ⟨h.2.2.1, h.2.2.2.1,
      [], by simpa using h.2.2.2.2, by simp⟩, fun hc => by simp [Event.callsUpdateScrollbar] at hc⟩
  | scrollTo y opts =>
    refine ⟨rfl, ⟨_, rfl, ?_⟩, fun _ => ⟨rfl, rfl, _, rfl, ?_⟩,
      fun hc => by simp [Event.callsUpdateScrollbar] at hc⟩
    · intro x hx; rw [List.mem_singleton] at hx; subst hx; rfl
    · intro x hx; rw [List.mem_singleton] at hx; subst hx; rfl
  | mousedown y =>
    refine ⟨rfl, ⟨_, rfl, ?_⟩, fun _ => ⟨rfl, rfl, _, rfl, ?_⟩,
      fun hc => by simp [Event.callsUpdateScrollbar] at hc⟩
    · intro x hx; rw [List.mem_singleton] at hx; subst hx; rfl
    · intro x hx; rw [List.mem_singleton] at hx; subst hx; rfl
  | mousemove y =>
    obtain ⟨h1, h2, h3, new, h4, h5⟩ := onMouseMove_view y s
    exact ⟨h1, ⟨new, h4, fun x hx => (h5 x hx).1⟩,
      fun _ => ⟨h2, h3, new, h4, fun x hx => (h5 x hx).2⟩,
      fun hc => by simp [Event.callsUpdateScrollbar] at hc⟩
  | mouseup =>
    refine ⟨rfl, ⟨_, rfl, ?_⟩, fun _ => ⟨rfl, rfl, _, rfl, ?_⟩,
      fun hc => by simp [Event.callsUpdateScrollbar] at hc⟩
    · intro x hx; rw [List.mem_singleton] at hx; subst hx; rfl
    · intro x hx; rw [List.mem_singleton] at hx; subst hx; rfl
  | resize a b c d =>
    have hr : (applyEvent (Event.resize a b c d) s).effects = s.effects ++
        [Effect.bodyHeight a, Effect.thumbHeight (computedThumbHeight (withLayout s a b c d)),
         Effect.thumbTop (computedThumbTop (withLayout s a b c d))] := by
      simp [applyEvent, onResize, updateScrollbar, setBodyHeight, computedThumbHeight,
        computedThumbTop, scrollProgress, withLayout]
    refine ⟨rfl, ⟨_, hr, ?_⟩, fun hc => by simp [Event.callsUpdateScrollbar] at hc, fun _ =>
        ⟨withLayout s a b c d, rfl, rfl, rfl, hr⟩⟩
    intro x hx
    simp only [List.mem_cons, List.mem_singleton, List.not_mem_nil, or_false] at hx
    rcases hx with rfl | rfl | rfl <;> rfl
  | load =>
    have h := onScroll_keeps_view (updateScrollbar (setBodyHeight s))
    have hr : (applyEvent Event.load s).effects = s.effects ++
        [Effect.bodyHeight s.scrollHeight, Effect.thumbHeight (computedThumbHeight s),
         Effect.thumbTop (computedThumbTop s)] := by
      show (onScroll _).effects = _
      rw [h.2.2.2.2]
      simp [updateScrollbar, setBodyHeight, computedThumbHeight, computedThumbTop, scrollProgress]
    refine ⟨h.2.1, ⟨_, hr, ?_⟩, fun hc => by simp [Event.callsUpdateScrollbar] at hc, fun _ =>
        ⟨s, rfl, h.2.2.1, h.2.2.2.1, hr⟩⟩
    intro x hx
    simp only [List.mem_cons, List.mem_singleton, List.not_mem_nil, or_false] at hx
    rcases hx with rfl | rfl | rfl <;> rfl

/-- A native scroll event on the page displayed at `1500` writes neither
transform nor thumb styles; a resize keeps the transform and writes the thumb
styles computed from the unchanged `currentScroll`. -/
theorem view_writes_by_handler_witness :
    (applyEvent (Event.scroll 700) pageAt1500).transform = pageAt1500.transform ∧
    (applyEvent (Event.scroll 700) pageAt1500).thumbTop = pageAt1500.thumbTop ∧
    (applyEvent (Event.resize 3800 600 600 100) pageAt1500).transform = pageAt1500.transform ∧
    (∃ r : State, r.currentScroll = pageAt1500.currentScroll ∧
      (applyEvent (Event.resize 3800 600 600 100) pageAt1500).thumbHeight =
        some (computedThumbHeight r) ∧
      (applyEvent (Event.resize 3800 600 600 100) pageAt1500).thumbTop =
        some (computedThumbTop r) ∧
      (applyEvent (Event.resize 3800 600 600 100) pageAt1500).effects =
        pageAt1500.effects ++ [Effect.bodyHeight r.scrollHeight,
          Effect.thumbHeight (computedThumbHeight r), Effect.thumbTop (computedThumbTop r)]) :=
  ⟨(view_writes_by_handler pageAt1500 (Event.scroll 700) (by decide)).1,
   ((view_writes_by_handler pageAt1500 (Event.scroll 700) (by decide)).2.2.1 rfl).2.1,
   (view_writes_by_handler pageAt1500 (Event.resize 3800 600 600 100) (by decide)).1,
   (view_writes_by_handler pageAt1500 (Event.resize 3800 600 600 100) (by decide)).2.2.2 rfl⟩

/-- C20: every easing step - `smoothScrollStep` and the `step` of `scrollTo`,
whatever its ease - performs exactly four writes, in this order, all computed
from the `currentScroll` the step has just assigned: the container translation
`-currentScroll`, the thumb height and the thumb offset recomputed by
`updateScrollbar`, and one `customscroll` event carrying `currentScroll`. -/
theorem easing_step_renders_in_order (s : State) (e : ℚ) :
    (smoothScrollStep s).effects = s.effects ++
      [Effect.transform (-(smoothScrollStep s).currentScroll),
       Effect.thumbHeight (computedThumbHeight (smoothScrollStep s)),
       Effect.thumbTop (computedThumbTop (smoothScrollStep s)),
       Effect.customscroll (smoothScrollStep s).currentScroll] ∧
    (smoothScrollStep s).transform = some (-(smoothScrollStep s).currentScroll) ∧
    (smoothScrollStep s).thumbHeight = some (computedThumbHeight (smoothScrollStep s)) ∧
    (smoothScrollStep s).thumbTop = some (computedThumbTop (smoothScrollStep s)) ∧
    (step e s).effects = s.effects ++
      [Effect.transform (-(step e s).currentScroll),
       Effect.thumbHeight (computedThumbHeight (step e s)),
       Effect.thumbTop (computedThumbTop (step e s)),
       Effect.customscroll (step e s).currentScroll] ∧
    (step e s).transform = some (-(step e s).currentScroll) ∧
    (step e s).thumbHeight = some (computedThumbHeight (step e s)) ∧
    (step e s).thumbTop = some (computedThumbTop (step e s)) := by
  have k1 : (smoothScrollStep s).effects = ((s.effects ++
      [Effect.transform (-(smoothScrollStep s).currentScroll)]) ++
      [Effect.thumbHeight (computedThumbHeight (smoothScrollStep s)),
       Effect.thumbTop (computedThumbTop (smoothScrollStep s))]) ++
      [Effect.customscroll (smoothScrollStep s).currentScroll] := by
    simp only [smoothScrollStep, updateScrollbar, computedThumbHeight, computedThumbTop,
      scrollProgress]
    split_ifs <;> rfl
  have k2 : (step e s).effects = ((s.effects ++
      [Effect.transform (-(step e s).currentScroll)]) ++
      [Effect.thumbHeight (computedThumbHeight (step e s)),
       Effect.thumbTop (computedThumbTop (step e s))]) ++
      [Effect.customscroll (step e s).currentScroll] := by
    simp only [step, updateScrollbar, computedThumbHeight, computedThumbTop, scrollProgress]
    split_ifs <;> rfl
  refine ⟨?_, ?_, ?_, ?_, ?_, ?_, ?_, ?_⟩
  · rw [k1]; simp only [List.append_assoc, List.singleton_append, List.cons_append,
      List.nil_append]
  · simp only [smoothScrollStep, updateScrollbar]; split_ifs <;> rfl
  · simp only [smoothScrollStep, updateScrollbar, computedThumbHeight]; split_ifs <;> rfl
  · simp only [smoothScrollStep, updateScrollbar, computedThumbHeight, computedThumbTop,
      scrollProgress]
    split_ifs <;> rfl
  · rw [k2]; simp only [List.append_assoc, List.singleton_append, List.cons_append,
      List.nil_append]
  · simp only [step, updateScrollbar]; split_ifs <;> rfl
  · simp only [step, updateScrollbar, computedThumbHeight]; split_ifs <;> rfl
  · simp only [step, updateScrollbar, computedThumbHeight, computedThumbTop, scrollProgress]
    split_ifs <;> rfl

/-- C21: the `step` closure that `customScroll.scrollTo` schedules with the
default ease and `smoothScrollStep` compute, from every state, the same new
`currentScroll`, the same transform, thumb height and thumb offset, the same
trace of writes (`customscroll` event included) and take the same decision:
one reschedules itself exactly when the other does.  They differ only in which
callback is scheduled again and in `isScrolling`, which `step` never touches. -/
theorem scrollTo_step_matches_smoothScrollStep (s : State) :
    (∀ y, (scrollTo y noOpts s).rafQueue = s.rafQueue ++ [Callback.step EASE]) ∧
    (step EASE s).currentScroll = (smoothScrollStep s).currentScroll ∧
    (step EASE s).targetScroll = (smoothScrollStep s).targetScroll ∧
    (step EASE s).transform = (smoothScrollStep s).transform ∧
    (step EASE s).thumbHeight = (smoothScrollStep s).thumbHeight ∧
    (step EASE s).thumbTop = (smoothScrollStep s).thumbTop ∧
    (step EASE s).effects = (smoothScrollStep s).effects ∧
    ((step EASE s).rafQueue = s.rafQueue ++ [Callback.step EASE] ↔
      (smoothScrollStep s).rafQueue = s.rafQueue ++ [Callback.smoothScrollStep]) ∧
    ((step EASE s).rafQueue = s.rafQueue ↔ (smoothScrollStep s).rafQueue = s.rafQueue) ∧
    ((step EASE s).rafQueue = s.rafQueue ∨
      (step EASE s).rafQueue = s.rafQueue ++ [Callback.step EASE]) ∧
    (step EASE s).isScrolling = s.isScrolling := by
  refine ⟨fun _ => rfl, ?_, ?_, ?_, ?_, ?_, ?_, ?_, ?_, ?_, step_isScrolling EASE s⟩
  · rw [step_currentScroll, smoothScrollStep_currentScroll]
  · rw [step_targetScroll, smoothScrollStep_targetScroll]
  · simp only [step, smoothScrollStep, updateScrollbar]; split_ifs <;> rfl
  · simp only [step, smoothScrollStep, updateScrollbar]; split_ifs <;> rfl
  · simp only [step, smoothScrollStep, updateScrollbar]; split_ifs <;> rfl
  · simp only [step, smoothScrollStep, updateScrollbar]; split_ifs <;> rfl
  · simp only [step, smoothScrollStep, updateScrollbar]; split_ifs <;> simp
  · simp only [step, smoothScrollStep, updateScrollbar]; split_ifs <;> simp
  · simp only [step, updateScrollbar]; split_ifs <;> simp

/-- C22: whatever `duration` is passed to `customScroll.scrollTo` - two
different values, or one value and none - the state after the call is the
same for the same `y` and `ease`: same `targetScroll`, same native scroll
request, same scheduled callback, and therefore the same `currentScroll` after
every number of animation frames. -/
theorem scrollTo_ignores_duration (y : ℚ) (ease d1 d2 : Option ℚ) (s : State) :
    scrollTo y { duration := d1, ease := ease } s = scrollTo y { duration := d2, ease := ease } s ∧
    (scrollTo y { duration := d1, ease := ease } s).targetScroll =
      (scrollTo y { duration := d2, ease := ease } s).targetScroll ∧
    (scrollTo y { duration := d1, ease := ease } s).effects =
      (scrollTo y { duration := d2, ease := ease } s).effects ∧
    (∀ n, (runFrames n (scrollTo y { duration := d1, ease := ease } s)).currentScroll =
      (runFrames n (scrollTo y { duration := d2, ease := ease } s)).currentScroll) ∧
    (∀ es, applyEvents es (scrollTo y { duration := d1, ease := ease } s) =
      applyEvents es (scrollTo y { duration := d2, ease := ease } s)) :=
  ⟨rfl, rfl, rfl, fun _ => rfl, fun _ => rfl⟩

/-- C23: every page of width `w <= 768` is left untouched, and a page of width
`w > 768` whose scrollbar track and thumb are found (created by the script, or
present in the existing container) is initialised in full: no error, the
listeners of lines 98-140 registered, `window.customScroll` defined.  But a
page of width `w > 768` whose existing scrollbar container lacks the thumb or
the track is not initialised: on the page of width 769 with an empty scrollbar
container the content container is created and styled, then the `TypeError`
of line 98 ends the script with no listener registered and
`window.customScroll` undefined. -/
theorem desktop_width_does_not_ensure_initialisation :
    (∀ p : Page, p.innerWidth ≤ 768 → runScript p = ScriptRun.untouched) ∧
    ScriptRun.untouched =
      { threw := false, containerCreated := false, containerStyled := false,
        scrollbarCreated := false, listeners := [], customScrollDefined := false,
        state := none } ∧
    runScript narrowPage = ScriptRun.untouched ∧
    (∀ p : Page, 768 < p.innerWidth → p.thumbFound = true → p.trackFound = true →
      (runScript p).threw = false ∧ (runScript p).containerStyled = true ∧
      (runScript p).customScrollDefined = true ∧
      (runScript p).listeners =
        [Listener.thumbMousedown, Listener.windowMousemove, Listener.windowMouseup,
          Listener.windowResize] ++
        (if p.hasResizeObserver = true then [Listener.resizeObserver] else []) ++
        [Listener.windowScroll, Listener.windowLoad] ∧
      (runScript p).state = some (initState p.scrollY p.scrollHeight p.innerHeight
        p.trackOffsetHeight p.thumbOffsetHeight)) ∧
    (∀ p : Page, 768 < p.innerWidth → (p.thumbFound = false ∨ p.trackFound = false) →
      (runScript p).threw = true ∧ (runScript p).containerStyled = true ∧
      (runScript p).customScrollDefined = false ∧
      Listener.windowLoad ∉ (runScript p).listeners) ∧
    runScript justDesktopPage =
      { threw := false, containerCreated := true, containerStyled := true,
        scrollbarCreated := true,
        listeners := [Listener.thumbMousedown, Listener.windowMousemove,
          Listener.windowMouseup, Listener.windowResize, Listener.resizeObserver,
          Listener.windowScroll, Listener.windowLoad],
        customScrollDefined := true,
        state := some (initState 0 3800 800 800 (3200 / 19)) } ∧
    (runScript justDesktopNoObserverPage).listeners =
      [Listener.thumbMousedown, Listener.windowMousemove, Listener.windowMouseup,
        Listener.windowResize, Listener.windowScroll, Listener.windowLoad] ∧
    768 < justDesktopEmptyScrollbarPage.innerWidth ∧
    runScript justDesktopEmptyScrollbarPage =
      { threw := true, containerCreated := true, containerStyled := true,
        scrollbarCreated := false, listeners := [], customScrollDefined := false,
        state := some (declaredState 0 3800 800 800 (3200 / 19)) } := by
  refine ⟨?_, rfl, by decide!, ?_, ?_, by decide!, by decide!, by decide!, by decide!⟩
  · intro p hw
    simp [runScript, hw]
  · intro p hw hth htr
    have hw' : ¬ p.innerWidth ≤ 768 := not_le.mpr hw
    simp only [runScript, hw', if_false, hth, htr]
    cases hro : p.hasResizeObserver <;>
      simp [listenersBeforeSetup, hro, initState, declaredState]
  · intro p hw hmiss
    have hw' : ¬ p.innerWidth ≤ 768 := not_le.mpr hw
    simp only [runScript, hw', if_false]
    rcases hmiss with h | h
    · simp [h]
    · cases hth : p.thumbFound
      · simp
      · cases hro : p.hasResizeObserver <;> simp [h, listenersBeforeSetup, hro]

/-- C24: on a desktop page whose existing `.custom-scrollbar-container` has no
thumb (and no track) the script styles the content container and then raises
a `TypeError` at line 98; when only the track is missing it also registers six
listeners and sets the body height before the `TypeError` of line 137.  In both
cases an error is raised, the page is not as it was, and `window.customScroll`
is never defined. -/
theorem missing_scrollbar_parts_abort_midway :
    (runScript emptyScrollbarPage).threw = true ∧
    (runScript emptyScrollbarPage).containerCreated = true ∧
    (runScript emptyScrollbarPage).containerStyled = true ∧
    (runScript emptyScrollbarPage).customScrollDefined = false ∧
    runScript emptyScrollbarPage ≠ ScriptRun.untouched ∧
    (runScript thumbOnlyPage).threw = true ∧
    (runScript thumbOnlyPage).containerStyled = true ∧
    (runScript thumbOnlyPage).listeners =
      [Listener.thumbMousedown, Listener.windowMousemove, Listener.windowMouseup,
        Listener.windowResize, Listener.resizeObserver, Listener.windowScroll] ∧
    (∃ s, (runScript thumbOnlyPage).state = some s ∧ s.bodyHeight = some 3800) ∧
    (runScript thumbOnlyPage).customScrollDefined = false ∧
    runScript thumbOnlyPage ≠ ScriptRun.untouched := by
  refine ⟨by decide!, by decide!, by decide!, by decide!, by decide!, by decide!, by decide!,
    by decide!, ⟨setBodyHeight (declaredState 0 3800 800 800 (3200 / 19)), by decide!, by decide!⟩,
    by decide!, by decide!⟩

/-- C26: for every `currentScroll` and every `targetScroll`, the
`smoothScrollStep` loop, once scheduled and with the target left alone, is no
longer scheduled after some finite number `n` of steps (it was scheduled before
each of them), stays stopped from then on, and when it stops
`|targetScroll - currentScroll| <= 0.3`. -/
theorem smoothScrollStep_loop_terminates (s : State)
    (hq : s.rafQueue = [Callback.smoothScrollStep]) :
    ∃ n, (∀ k, k < n → (runFrames k s).rafQueue = [Callback.smoothScrollStep]) ∧
      (∀ m, n ≤ m → (runFrames m s).rafQueue = [] ∧
        (runFrames m s).targetScroll = s.targetScroll ∧
        |(runFrames m s).targetScroll - (runFrames m s).currentScroll| ≤ (3 / 10 : ℚ)) := by
  have hr : |1 - Callback.smoothScrollStep.ease| < 1 := by
    norm_num [Callback.ease, EASE, abs_lt]
  obtain ⟨n, hrun, hrest, ht, hd⟩ := lone_loop_stops Callback.smoothScrollStep hr s hq
  refine ⟨n, hrun, fun m hm => ?_⟩
  obtain ⟨k, rfl⟩ := Nat.exists_eq_add_of_le hm
  rw [runFrames_add, runFrames_of_atRest hrest]
  exact ⟨hrest, ht, by simpa [STOP_THRESHOLD] using hd⟩

/-- From `0` towards `1000` the loop is stopped, within `0.3` of the target, from
some step on. -/
theorem smoothScrollStep_loop_terminates_witness :
    ∃ n, (∀ k, k < n → (runFrames k from0to1000).rafQueue = [Callback.smoothScrollStep]) ∧
      (∀ m, n ≤ m → (runFrames m from0to1000).rafQueue = [] ∧
        (runFrames m from0to1000).targetScroll = from0to1000.targetScroll ∧
        |(runFrames m from0to1000).targetScroll - (runFrames m from0to1000).currentScroll| ≤
          (3 / 10 : ℚ)) :=
  smoothScrollStep_loop_terminates from0to1000 (by decide!)

/-- C27: `scrollTo(1000, { ease: 0 })` and `scrollTo(1000, { ease: 2 })` from the
top, each followed by the scroll event of its native scroll: the target stays
`1000`, the initial distance is `1000`, and after 95 callbacks nothing is
pending - the `step` loop has stopped, on the target, although the ease is not
strictly between `0` and `2`. -/
theorem step_loop_outside_range_stops_next_to_scroll_loop :
    (scrollToWithEaseInBrowser 0).rafQueue = [Callback.step 0, Callback.smoothScrollStep] ∧
    (scrollToWithEaseInBrowser 0).targetScroll = 1000 ∧
    (scrollToWithEaseInBrowser 0).currentScroll = 0 ∧
    (runFrames 94 (scrollToWithEaseInBrowser 0)).rafQueue = [Callback.step 0] ∧
    (runFrames 95 (scrollToWithEaseInBrowser 0)).rafQueue = [] ∧
    (runFrames 95 (scrollToWithEaseInBrowser 0)).targetScroll = 1000 ∧
    (runFrames 95 (scrollToWithEaseInBrowser 0)).currentScroll = 1000 ∧
    (scrollToWithEaseInBrowser 2).rafQueue = [Callback.step 2, Callback.smoothScrollStep] ∧
    (scrollToWithEaseInBrowser 2).targetScroll = 1000 ∧
    (scrollToWithEaseInBrowser 2).currentScroll = 0 ∧
    (runFrames 95 (scrollToWithEaseInBrowser 2)).rafQueue = [] ∧
    (runFrames 95 (scrollToWithEaseInBrowser 2)).currentScroll = 1000 ∧
    ¬ ((0 : ℚ) < 0 ∧ (0 : ℚ) < 2) ∧ ¬ ((0 : ℚ) < 2 ∧ (2 : ℚ) < 2) := by
  refine ⟨by decide!, by decide!, by decide!, by decide!, by decide!, by decide!, by decide!,
    by decide!, by decide!, by decide!, by decide!, by decide!, by norm_num, by norm_num⟩

/-- C27 (amended): numbers being exact rationals, the target left fixed and
the initial distance above `0.3`.  When the `step` loop of
`customScroll.scrollTo` with ease `e` is the only callback pending, it comes to
a stop after finitely many steps if and only if `0 < e < 2` - for `e <= 0` or
`e >= 2` it is scheduled again after every step.  When the scroll listener's
`smoothScrollStep` loop runs next to it, as after the scroll event that the
call's own native scroll causes, both loops stop for every `0 <= e <= 2`, and
the `step` loop is scheduled again for ever when `e <= -4/21` or
`e >= 46/21`.  In both cases `currentScroll` never passes to the other side of
the target if and only if `e <= 1` - for `e > 1` the first step already does. -/
theorem scrollTo_loop_stops_by_ease (s : State) (e : ℚ)
    (hd : (3 / 10 : ℚ) < |s.targetScroll - s.currentScroll|) :
    (s.rafQueue = [Callback.step e] →
      ((∃ n, (runFrames n s).rafQueue = []) ↔ (0 < e ∧ e < 2)) ∧
      ((e ≤ 0 ∨ 2 ≤ e) → ∀ n, (runFrames n s).rafQueue = [Callback.step e]) ∧
      ((∀ n, 0 ≤ (s.targetScroll - (runFrames n s).currentScroll) *
          (s.targetScroll - s.currentScroll)) ↔ e ≤ 1) ∧
      (1 < e → (s.targetScroll - (runFrames 1 s).currentScroll) *
          (s.targetScroll - s.currentScroll) < 0)) ∧
    (s.rafQueue = [Callback.step e, Callback.smoothScrollStep] →
      ((0 ≤ e ∧ e ≤ 2) → ∃ n, ∀ m, n ≤ m → (runFrames m s).rafQueue = []) ∧
      ((e ≤ -4 / 21 ∨ 46 / 21 ≤ e) → ∀ n, Callback.step e ∈ (runFrames n s).rafQueue) ∧
      ((∀ n, 0 ≤ (s.targetScroll - (runFrames n s).currentScroll) *
          (s.targetScroll - s.currentScroll)) ↔ e ≤ 1) ∧
      (1 < e → (s.targetScroll - (runFrames 1 s).currentScroll) *
          (s.targetScroll - s.currentScroll) < 0)) := by
  have hd' : STOP_THRESHOLD < |s.targetScroll - s.currentScroll| := by
    simpa [STOP_THRESHOLD] using hd
  refine ⟨fun hq => lone_step_loop_stops_iff s e hq hd, fun hq => ?_⟩
  have hfirst : 1 < e → (s.targetScroll - (runFrames 1 s).currentScroll) *
      (s.targetScroll - s.currentScroll) < 0 :=
    fun h1 => head_overshoots hq (by simpa [Callback.ease] using h1) hd'
  refine ⟨?_, ?_, ⟨?_, ?_⟩, hfirst⟩
  · rintro ⟨h0, h2⟩
    have he : |1 - e| ≤ 1 := by
      rw [abs_le]; constructor <;> linarith
    obtain ⟨N, hN⟩ := exists_pow_within_threshold (s.targetScroll - s.currentScroll) (21 / 25)
      (by norm_num)
    obtain ⟨n, hn⟩ := step_with_scroll_loop_stops e he N s hq hN
    refine ⟨n, fun m hm => ?_⟩
    obtain ⟨k, rfl⟩ := Nat.exists_eq_add_of_le hm
    rw [runFrames_add, runFrames_of_atRest hn]
    exact hn
  · intro hout
    have he : 25 / 21 ≤ |1 - e| := by
      rcases hout with h | h
      · rw [abs_of_nonneg (by linarith)]; linarith
      · rw [abs_of_nonpos (by linarith)]; linarith
    exact step_with_scroll_loop_runs_forever e he s hq hd'
  · intro hall
    by_contra hgt
    have := hfirst (not_le.mp hgt)
    linarith [hall 1]
  · intro he n
    refine (loops_keep_side s ?_ n).2
    intro cb hcb
    rw [hq] at hcb
    simp only [List.mem_cons, List.mem_singleton, List.not_mem_nil, or_false] at hcb
    rcases hcb with rfl | rfl
    · exact he
    · norm_num [Callback.ease, EASE]

/-- Alone, the call `scrollTo(1000, { ease: 0.12 })` made by the page's own
links stops and stays on one side of the target, with `ease: 2` the loop never
stops, and with `ease: 3/2` the first step lands beyond the target.  Next to
the scroll listener's loop the calls with `ease: 0.12` and `ease: 2` stop, the
call with `ease: 3` never does, and `ease: 0.12` stays on one side. -/
theorem scrollTo_loop_stops_by_ease_witness :
    (∃ n, (runFrames n (scrollToWithEase (3 / 25))).rafQueue = []) ∧
    (∀ n, (runFrames n (scrollToWithEase 2)).rafQueue = [Callback.step 2]) ∧
    (∀ n, 0 ≤ ((scrollToWithEase (3 / 25)).targetScroll -
        (runFrames n (scrollToWithEase (3 / 25))).currentScroll) *
        ((scrollToWithEase (3 / 25)).targetScroll - (scrollToWithEase (3 / 25)).currentScroll)) ∧
    ((scrollToWithEase (3 / 2)).targetScroll -
        (runFrames 1 (scrollToWithEase (3 / 2))).currentScroll) *
        ((scrollToWithEase (3 / 2)).targetScroll - (scrollToWithEase (3 / 2)).currentScroll) < 0 ∧
    (∃ n, ∀ m, n ≤ m → (runFrames m (scrollToWithEaseInBrowser (3 / 25))).rafQueue = []) ∧
    (∃ n, ∀ m, n ≤ m → (runFrames m (scrollToWithEaseInBrowser 2)).rafQueue = []) ∧
    (∀ n, Callback.step 3 ∈ (runFrames n (scrollToWithEaseInBrowser 3)).rafQueue) ∧
    (∀ n, 0 ≤ ((scrollToWithEaseInBrowser (3 / 25)).targetScroll -
        (runFrames n (scrollToWithEaseInBrowser (3 / 25))).currentScroll) *
        ((scrollToWithEaseInBrowser (3 / 25)).targetScroll -
          (scrollToWithEaseInBrowser (3 / 25)).currentScroll)) :=
  ⟨((scrollTo_loop_stops_by_ease (scrollToWithEase (3 / 25)) (3 / 25) (by decide!)).1
      (by decide!)).1.mpr (by norm_num),
   ((scrollTo_loop_stops_by_ease (scrollToWithEase 2) 2 (by decide!)).1
      (by decide!)).2.1 (Or.inr (le_refl 2)),
   ((scrollTo_loop_stops_by_ease (scrollToWithEase (3 / 25)) (3 / 25) (by decide!)).1
      (by decide!)).2.2.1.mpr (by norm_num),
   ((scrollTo_loop_stops_by_ease (scrollToWithEase (3 / 2)) (3 / 2) (by decide!)).1
      (by decide!)).2.2.2 (by norm_num),
   ((scrollTo_loop_stops_by_ease (scrollToWithEaseInBrowser (3 / 25)) (3 / 25) (by decide!)).2
      (by decide!)).1 (by norm_num),
   ((scrollTo_loop_stops_by_ease (scrollToWithEaseInBrowser 2) 2 (by decide!)).2
      (by decide!)).1 (by norm_num),
   ((scrollTo_loop_stops_by_ease (scrollToWithEaseInBrowser 3) 3 (by decide!)).2
      (by decide!)).2.1 (Or.inr (by norm_num)),
   ((scrollTo_loop_stops_by_ease (scrollToWithEaseInBrowser (3 / 25)) (3 / 25) (by decide!)).2
      (by decide!)).2.2.1.mpr (by norm_num)⟩

/-- C28: in every reachable state - in particular every state reached through
`onScroll` and `smoothScrollStep` - `isScrolling` is true exactly when one
`smoothScrollStep` callback is pending and false exactly when none is; it is
never true with no such callback pending. -/
theorem isScrolling_iff_one_step_pending (s : State) (hr : Reachable s) :
    (s.isScrolling = true ↔ s.rafQueue.count Callback.smoothScrollStep = 1) ∧
    (s.isScrolling = false ↔ s.rafQueue.count Callback.smoothScrollStep = 0) ∧
    (s.isScrolling = false ↔ Callback.smoothScrollStep ∉ s.rafQueue) ∧
    ¬ (s.isScrolling = true ∧ Callback.smoothScrollStep ∉ s.rafQueue) := by
  have hinv := flagMatchesQueue_of_reachable hr
  unfold flagMatchesQueue at hinv
  have h0 : s.rafQueue.count Callback.smoothScrollStep = 0 ↔
      Callback.smoothScrollStep ∉ s.rafQueue := List.count_eq_zero
  cases hs : s.isScrolling
  · rw [hs] at hinv
    have hc : s.rafQueue.count Callback.smoothScrollStep = 0 := by simpa using hinv
    refine ⟨?_, ?_, ?_, ?_⟩
    · simp [hc]
    · simp [hc]
    · simp [h0.mp hc]
    · simp
  · rw [hs] at hinv
    have hc : s.rafQueue.count Callback.smoothScrollStep = 1 := by simpa using hinv
    have hmem : Callback.smoothScrollStep ∈ s.rafQueue :=
      List.count_pos_iff.mp (by rw [hc]; exact Nat.one_pos)
    refine ⟨?_, ?_, ?_, ?_⟩
    · simp [hc]
    · simp [hc]
    · simp [hmem]
    · simp [hmem]

/-- While the loop towards `1500` runs the flag is up with one step pending;
once it has stopped the flag is down with none pending. -/
theorem isScrolling_iff_one_step_pending_witness :
    ((nativeScroll 1500 pageAtTop).isScrolling = true ↔
      (nativeScroll 1500 pageAtTop).rafQueue.count Callback.smoothScrollStep = 1) ∧
    ((runFrames 49 (nativeScroll 1500 pageAtTop)).isScrolling = false ↔
      (runFrames 49 (nativeScroll 1500 pageAtTop)).rafQueue.count Callback.smoothScrollStep = 0) :=
  ⟨(isScrolling_iff_one_step_pending (nativeScroll 1500 pageAtTop)
      (reachable_nativeScroll reachable_pageAtTop 1500)).1,
   (isScrolling_iff_one_step_pending (runFrames 49 (nativeScroll 1500 pageAtTop))
      (reachable_runFrames (reachable_nativeScroll reachable_pageAtTop 1500) 49)).2.1⟩

/-- C29: if `currentScroll` and `targetScroll` both lie in `[0, maxScroll]`
before a `smoothScrollStep`, then afterwards `currentScroll` still lies in
`[0, maxScroll]` (with `maxScroll` unchanged), and it lies between the old
`currentScroll` and `targetScroll`. -/
theorem smoothScrollStep_stays_in_range (s : State)
    (hc0 : 0 ≤ s.currentScroll) (hc1 : s.currentScroll ≤ maxScroll s)
    (ht0 : 0 ≤ s.targetScroll) (ht1 : s.targetScroll ≤ maxScroll s) :
    maxScroll (smoothScrollStep s) = maxScroll s ∧
    0 ≤ (smoothScrollStep s).currentScroll ∧
    (smoothScrollStep s).currentScroll ≤ maxScroll (smoothScrollStep s) ∧
    min s.currentScroll s.targetScroll ≤ (smoothScrollStep s).currentScroll ∧
    (smoothScrollStep s).currentScroll ≤ max s.currentScroll s.targetScroll := by
  have hm : maxScroll (smoothScrollStep s) = maxScroll s := by
    unfold maxScroll
    rw [(smoothScrollStep_geometry s).1, (smoothScrollStep_geometry s).2]
  have hlo : min s.currentScroll s.targetScroll ≤ (smoothScrollStep s).currentScroll := by
    rw [smoothScrollStep_currentScroll]
    split_ifs
    · exact min_le_right _ _
    · rcases le_total s.currentScroll s.targetScroll with h | h
      · rw [min_eq_left h]; simp only [EASE]; linarith
      · rw [min_eq_right h]; simp only [EASE]; linarith
  have hhi : (smoothScrollStep s).currentScroll ≤ max s.currentScroll s.targetScroll := by
    rw [smoothScrollStep_currentScroll]
    split_ifs
    · exact le_max_right _ _
    · rcases le_total s.currentScroll s.targetScroll with h | h
      · rw [max_eq_right h]; simp only [EASE]; linarith
      · rw [max_eq_left h]; simp only [EASE]; linarith
  refine ⟨hm, (le_min hc0 ht0).trans hlo, ?_, hlo, hhi⟩
  rw [hm]
  exact hhi.trans (max_le hc1 ht1)

/-- The first step from `0` towards `1500` on the page with `maxScroll = 3000`
lands on `240`, inside the range and between `0` and `1500`. -/
theorem smoothScrollStep_stays_in_range_witness :
    maxScroll (smoothScrollStep (nativeScroll 1500 pageAtTop)) =
      maxScroll (nativeScroll 1500 pageAtTop) ∧
    0 ≤ (smoothScrollStep (nativeScroll 1500 pageAtTop)).currentScroll ∧
    (smoothScrollStep (nativeScroll 1500 pageAtTop)).currentScroll ≤
      maxScroll (smoothScrollStep (nativeScroll 1500 pageAtTop)) ∧
    min (nativeScroll 1500 pageAtTop).currentScroll (nativeScroll 1500 pageAtTop).targetScroll ≤
      (smoothScrollStep (nativeScroll 1500 pageAtTop)).currentScroll ∧
    (smoothScrollStep (nativeScroll 1500 pageAtTop)).currentScroll ≤
      max (nativeScroll 1500 pageAtTop).currentScroll (nativeScroll 1500 pageAtTop).targetScroll :=
  smoothScrollStep_stays_in_range (nativeScroll 1500 pageAtTop) (by decide!) (by decide!)
    (by decide!) (by decide!)

/-- C30: with a positive content height, every divisor used by
`updateScrollbar` (`maxScroll || 1` and the content height) and by the
`mousemove` handler (`(trackHeight - thumbHeight) || 1`) is non-zero, for every
`currentScroll`, viewport height, track height and thumb height; a zero
`maxScroll` and a zero draggable track height are each replaced by `1`, and a
non-zero one is used as it is.  The values the two functions write are the
quotients by exactly these divisors. -/
theorem divisors_never_zero (s : State) (clientY : ℚ) (hcontent : 0 < s.scrollHeight) :
    (∀ d ∈ updateScrollbarDivisors s, d ≠ 0) ∧
    (∀ d ∈ mouseMoveDivisors s, d ≠ 0) ∧
    (s.scrollHeight - s.innerHeight = 0 → orOne (s.scrollHeight - s.innerHeight) = 1) ∧
    (s.scrollHeight - s.innerHeight ≠ 0 →
      orOne (s.scrollHeight - s.innerHeight) = s.scrollHeight - s.innerHeight) ∧
    (s.trackOffsetHeight - s.thumbOffsetHeight = 0 →
      orOne (s.trackOffsetHeight - s.thumbOffsetHeight) = 1) ∧
    (s.trackOffsetHeight - s.thumbOffsetHeight ≠ 0 →
      orOne (s.trackOffsetHeight - s.thumbOffsetHeight) =
        s.trackOffsetHeight - s.thumbOffsetHeight) ∧
    (updateScrollbar s).thumbHeight =
      some (max 50 (s.trackOffsetHeight * (s.innerHeight / s.scrollHeight))) ∧
    (updateScrollbar s).thumbTop =
      some (max 0 (min 1 (s.currentScroll / orOne (s.scrollHeight - s.innerHeight))) *
        (s.trackOffsetHeight -
          max 50 (s.trackOffsetHeight * (s.innerHeight / s.scrollHeight)))) ∧
    (s.isDragging = true →
      (onMouseMove clientY s).effects = s.effects ++
        [Effect.nativeScrollTo (max 0 (min (s.scrollHeight - s.innerHeight)
          (s.dragStartScroll +
            (clientY - s.dragStartY) / orOne (s.trackOffsetHeight - s.thumbOffsetHeight) *
              (s.scrollHeight - s.innerHeight))))]) := by
  refine ⟨?_, ?_, ?_, ?_, ?_, ?_, rfl, rfl, ?_⟩
  · intro d hd
    simp only [updateScrollbarDivisors, List.mem_cons, List.mem_singleton, List.not_mem_nil,
      or_false] at hd
    rcases hd with rfl | rfl
    · exact orOne_ne_zero _
    · exact ne_of_gt hcontent
  · intro d hd
    simp only [mouseMoveDivisors, List.mem_singleton] at hd
    subst hd
    exact orOne_ne_zero _
  · intro h; simp [orOne, h]
  · intro h; simp [orOne, h]
  · intro h; simp [orOne, h]
  · intro h; simp [orOne, h]
  · intro hd; simp [onMouseMove, hd]

/-- On a page whose content exactly fills the viewport (`maxScroll = 0`) with a
thumb as tall as the track, both guarded divisors are `1` and the content
height `800` is the third. -/
theorem divisors_never_zero_witness :
    (∀ d ∈ updateScrollbarDivisors (frameStep (initState 0 800 800 800 800)), d ≠ 0) ∧
    (∀ d ∈ mouseMoveDivisors (frameStep (initState 0 800 800 800 800)), d ≠ 0) ∧
    orOne ((frameStep (initState 0 800 800 800 800)).scrollHeight -
      (frameStep (initState 0 800 800 800 800)).innerHeight) = 1 ∧
    orOne ((frameStep (initState 0 800 800 800 800)).trackOffsetHeight -
      (frameStep (initState 0 800 800 800 800)).thumbOffsetHeight) = 1 :=
  ⟨(divisors_never_zero (frameStep (initState 0 800 800 800 800)) 0 (by decide!)).1,
   (divisors_never_zero (frameStep (initState 0 800 800 800 800)) 0 (by decide!)).2.1,
   (divisors_never_zero (frameStep (initState 0 800 800 800 800)) 0 (by decide!)).2.2.1
     (by decide!),
   (divisors_never_zero (frameStep (initState 0 800 800 800 800)) 0 (by decide!)).2.2.2.2.1
     (by decide!)⟩

end CustomScroll

namespace Main

theorem dropLiteralCI_eq_some (p s r : List Char) :
    dropLiteralCI p s = some r ↔ ∃ pre, s = pre ++ r ∧ pre.map Char.toLower = p := by
  induction p generalizing s with
  | nil =>
    simp only [dropLiteralCI, Option.some.injEq]
    constructor
    · rintro rfl; exact ⟨[], rfl, rfl⟩
    · rintro ⟨pre, h1, h2⟩
      rw [List.map_eq_nil_iff] at h2
      subst h2; exact h1
  | cons p ps ih =>
    cases s with
    | nil =>
      simp only [dropLiteralCI]
      constructor
      · intro h; cases h
      · rintro ⟨pre, h1, h2⟩
        have : pre = [] := by
          have := congrArg List.length h1
          simp at this
          exact List.length_eq_zero.mp (by omega)
        subst this
        simp at h2
    | cons c cs =>
      simp only [dropLiteralCI]
      split_ifs with hc
      · rw [ih]
        constructor
        · rintro ⟨pre, h1, h2⟩
          exact ⟨c :: pre, by rw [h1]; rfl, by simp [hc, h2]⟩
        · rintro ⟨pre, h1, h2⟩
          cases pre with
          | nil => simp at h2
          | cons x xs =>
            simp only [List.map_cons, List.cons.injEq] at h2
            simp only [List.cons_append, List.cons.injEq] at h1
            exact ⟨xs, h1.2, h2.2⟩
      · constructor
        · intro h; cases h
        · rintro ⟨pre, h1, h2⟩
          cases pre with
          | nil => simp at h2
          | cons x xs =>
            simp only [List.map_cons, List.cons.injEq] at h2
            simp only [List.cons_append, List.cons.injEq] at h1
            exact absurd (h1.1 ▸ h2.1) hc

theorem dropLiteralCI_isSome (p s : List Char) :
    (dropLiteralCI p s).isSome = true ↔ StartsWithCI p s := by
  rw [Option.isSome_iff_exists]
  constructor
  · rintro ⟨r, hr⟩
    obtain ⟨pre, h1, h2⟩ := (dropLiteralCI_eq_some p s r).mp hr
    exact ⟨pre, r, h1, h2⟩
  · rintro ⟨pre, r, h1, h2⟩
    exact ⟨r, (dropLiteralCI_eq_some p s r).mpr ⟨pre, h1, h2⟩⟩

theorem schemeTest_iff (href : List Char) : schemeTest href = true ↔ HasSpecialPrefix href := by
  simp only [schemeTest, HasSpecialPrefix, Bool.or_eq_true, dropLiteralCI_isSome, or_assoc]

theorem htmlAtStart_iff (t : List Char) :
    htmlAtStart t = true ↔ ∃ ext frag, t = ext ++ frag ∧ ext.map Char.toLower = ".html".toList ∧
      (frag = [] ∨ ∃ f, frag = '#' :: f ∧ ∀ c ∈ f, isWhiteSpace c = false) := by
  unfold htmlAtStart
  constructor
  · intro h
    split at h
    · cases h
    · next heq =>
      obtain ⟨pre, h1, h2⟩ := (dropLiteralCI_eq_some _ _ _).mp heq
      exact ⟨pre, [], h1, h2, Or.inl rfl⟩
    · next c frag heq =>
      obtain ⟨pre, h1, h2⟩ := (dropLiteralCI_eq_some _ _ _).mp heq
      simp only [Bool.and_eq_true, decide_eq_true_eq, List.all_eq_true, Bool.not_eq_true'] at h
      exact ⟨pre, c :: frag, h1, h2, Or.inr ⟨frag, by rw [h.1], h.2⟩⟩
  · rintro ⟨ext, frag, h1, h2, h3⟩
    have hd := (dropLiteralCI_eq_some ".html".toList t frag).mpr ⟨ext, h1, h2⟩
    rw [hd]
    rcases h3 with rfl | ⟨f, rfl, hf⟩
    · rfl
    · simp only [Bool.and_eq_true, decide_eq_true_eq, List.all_eq_true, Bool.not_eq_true',
        true_and]
      exact hf

theorem htmlTest_iff (href : List Char) : htmlTest href = true ↔ EndsInHtml href := by
  unfold htmlTest EndsInHtml
  rw [List.any_eq_true]
  constructor
  · rintro ⟨t, ht, hm⟩
    rw [List.mem_tails] at ht
    obtain ⟨pre, rfl⟩ := ht
    obtain ⟨ext, frag, h1, h2, h3⟩ := (htmlAtStart_iff t).mp hm
    exact ⟨pre, ext, frag, by rw [h1, List.append_assoc], h2, h3⟩
  · rintro ⟨pre, ext, frag, h1, h2, h3⟩
    refine ⟨ext ++ frag, ?_, (htmlAtStart_iff _).mpr ⟨ext, frag, rfl, h2, h3⟩⟩
    rw [List.mem_tails]
    exact ⟨pre, by rw [h1, List.append_assoc]⟩

theorem extensionAtStart_iff (t : List Char) :
    extensionAtStart t = true ↔ ∃ b, t = '.' :: b ∧ b ≠ [] ∧ '/' ∉ b := by
  constructor
  · intro h
    unfold extensionAtStart at h
    split at h
    · next c rest =>
      refine ⟨c :: rest, rfl, by simp, ?_⟩
      intro hmem
      rw [List.all_eq_true] at h
      have := h _ hmem
      simp at this
    · cases h
  · rintro ⟨b, rfl, hb, hs⟩
    cases b with
    | nil => exact absurd rfl hb
    | cons c rest =>
      simp only [extensionAtStart, List.all_eq_true]
      intro x hx
      simp only [bne_iff_ne, ne_eq]
      rintro rfl
      exact hs hx

theorem exists_lastSegment (l : List Char) : ∃ seg, IsLastSegment l seg := by
  induction l with
  | nil => exact ⟨[], by simp, [], rfl, Or.inl rfl⟩
  | cons x xs ih =>
    obtain ⟨seg, hs, pre, hpre, hlast⟩ := ih
    rcases hlast with rfl | hlast
    · by_cases hx : x = '/'
      · exact ⟨seg, hs, ['/'], by rw [hpre, hx]; rfl, Or.inr rfl⟩
      · refine ⟨x :: seg, ?_, [], by rw [hpre]; rfl, Or.inl rfl⟩
        simp only [List.mem_cons, not_or]
        exact ⟨fun h => hx h.symm, hs⟩
    · refine ⟨seg, hs, x :: pre, by rw [hpre]; rfl, Or.inr ?_⟩
      cases pre with
      | nil => simp at hlast
      | cons y ys => rw [List.getLast?_cons_cons]; exact hlast

theorem extensionTest_iff (href : List Char) :
    extensionTest href = true ↔ LastSegmentHasExtension href := by
  unfold extensionTest LastSegmentHasExtension
  rw [List.any_eq_true]
  constructor
  · rintro ⟨t, ht, hm⟩
    rw [List.mem_tails] at ht
    obtain ⟨pre, hpre⟩ := ht
    obtain ⟨b, rfl, hb, hslash⟩ := (extensionAtStart_iff t).mp hm
    obtain ⟨seg, hs, p', hp', hlast⟩ := exists_lastSegment href
    refine ⟨seg, ⟨hs, p', hp', hlast⟩, ?_⟩
    have heq : pre ++ '.' :: b = p' ++ seg := by rw [hpre, ← hp']
    rcases List.append_eq_append_iff.mp heq with ⟨a', h1, h2⟩ | ⟨c', _, h2⟩
    · cases a' with
      | nil => exact ⟨[], b, by simpa using h2.symm, hb⟩
      | cons d ds =>
        exfalso
        simp only [List.cons_append, List.cons.injEq] at h2
        obtain ⟨hd, hb2⟩ := h2
        have hne : p' ≠ [] := by rw [h1]; simp
        rcases hlast with h0 | hl
        · exact hne h0
        · rw [h1, List.getLast?_append_of_ne_nil _ (List.cons_ne_nil d ds)] at hl
          cases ds with
          | nil =>
            simp only [List.getLast?_singleton, Option.some.injEq] at hl
            rw [← hd] at hl
            exact absurd hl (by decide)
          | cons e es =>
            rw [List.getLast?_cons_cons] at hl
            have hmem : '/' ∈ e :: es := List.mem_of_getLast?_eq_some hl
            apply hslash
            rw [hb2]
            exact List.mem_append_left _ hmem
    · exact ⟨c', b, h2, hb⟩
  · rintro ⟨seg, ⟨hs, pre, hpre, _⟩, a, b, hseg, hb⟩
    refine ⟨'.' :: b, ?_, (extensionAtStart_iff _).mpr ⟨b, rfl, hb, ?_⟩⟩
    · rw [List.mem_tails]
      exact ⟨pre ++ a, by rw [hpre, hseg, List.append_assoc]⟩
    · intro hmem
      apply hs
      rw [hseg]
      exact List.mem_append_right _ (List.mem_cons_of_mem _ hmem)

/-- C25: `resolveHrefForFile` returns `href` unchanged whenever the protocol is
not `file:`; under `file:` it returns `href` unchanged when `href` starts with
`http:`, `https:`, `mailto:`, `tel:` or `#` (ASCII case ignored) or ends in
`.html` with an optional `#fragment`; otherwise it returns `href + 'index.html'`
when `href` ends with `/`, `href + '/index.html'` when the last path segment has
no extension, and `href` unchanged when it has one. -/
theorem resolveHrefForFile_spec (protocol href : List Char) :
    (protocol ≠ "file:".toList → resolveHrefForFile protocol href = href) ∧
    (protocol = "file:".toList →
      ((HasSpecialPrefix href ∨ EndsInHtml href) → resolveHrefForFile protocol href = href) ∧
      (¬ HasSpecialPrefix href → ¬ EndsInHtml href →
        (href.getLast? = some '/' →
          resolveHrefForFile protocol href = href ++ "index.html".toList) ∧
        (href.getLast? ≠ some '/' → ¬ LastSegmentHasExtension href →
          resolveHrefForFile protocol href = href ++ "/index.html".toList) ∧
        (href.getLast? ≠ some '/' → LastSegmentHasExtension href →
          resolveHrefForFile protocol href = href))) := by
  constructor
  · intro hp
    unfold resolveHrefForFile
    rw [if_pos hp]
  · intro hp
    have hp' : ¬ protocol ≠ "file:".toList := not_not.mpr hp
    constructor
    · rintro (h | h)
      · have := (schemeTest_iff href).mpr h
        unfold resolveHrefForFile
        rw [if_neg hp', if_pos this]
      · have := (htmlTest_iff href).mpr h
        unfold resolveHrefForFile
        rw [if_neg hp', if_pos this]
        split_ifs <;> rfl
    · intro h1 h2
      have hs : ¬ schemeTest href = true := fun h => h1 ((schemeTest_iff href).mp h)
      have hh : ¬ htmlTest href = true := fun h => h2 ((htmlTest_iff href).mp h)
      refine ⟨?_, ?_, ?_⟩
      · intro hl
        unfold resolveHrefForFile
        rw [if_neg hp', if_neg hs, if_neg hh, if_pos hl]
      · intro hl he
        have hx : (!extensionTest href) = true := by
          rw [Bool.not_eq_true']
          rw [← Bool.not_eq_true]; exact fun h => he ((extensionTest_iff href).mp h)
        unfold resolveHrefForFile
        rw [if_neg hp', if_neg hs, if_neg hh, if_neg hl, if_pos hx]
      · intro hl he
        have hx : ¬ (!extensionTest href) = true := by
          rw [Bool.not_eq_true', (extensionTest_iff href).mpr he]
          simp
        unfold resolveHrefForFile
        rw [if_neg hp', if_neg hs, if_neg hh, if_neg hl, if_neg hx]

/-- Under `file:`, `about/` becomes `about/index.html`, `services` becomes
`services/index.html`, `HTTPS://x.org/a` and `team.html#ceo` and `img/logo.png`
stay as they are; under `https:` `about/` stays as it is. -/
theorem resolveHrefForFile_spec_witness :
    resolveHrefForFile "file:".toList "about/".toList = "about/".toList ++ "index.html".toList ∧
    resolveHrefForFile "file:".toList "services".toList =
      "services".toList ++ "/index.html".toList ∧
    resolveHrefForFile "file:".toList "HTTPS://x.org/a".toList = "HTTPS://x.org/a".toList ∧
    resolveHrefForFile "file:".toList "team.html#ceo".toList = "team.html#ceo".toList ∧
    resolveHrefForFile "file:".toList "img/logo.png".toList = "img/logo.png".toList ∧
    resolveHrefForFile "https:".toList "about/".toList = "about/".toList :=
  ⟨(((resolveHrefForFile_spec "file:".toList "about/".toList).2 rfl).2
      (by rw [← schemeTest_iff]; decide) (by rw [← htmlTest_iff]; decide)).1 (by decide),
   (((resolveHrefForFile_spec "file:".toList "services".toList).2 rfl).2
      (by rw [← schemeTest_iff]; decide) (by rw [← htmlTest_iff]; decide)).2.1 (by decide)
      (by rw [← extensionTest_iff]; decide),
   ((resolveHrefForFile_spec "file:".toList "HTTPS://x.org/a".toList).2 rfl).1
      (Or.inl (by rw [← schemeTest_iff]; decide)),
   ((resolveHrefForFile_spec "file:".toList "team.html#ceo".toList).2 rfl).1
      (Or.inr (by rw [← htmlTest_iff]; decide)),
   (((resolveHrefForFile_spec "file:".toList "img/logo.png".toList).2 rfl).2
      (by rw [← schemeTest_iff]; decide) (by rw [← htmlTest_iff]; decide)).2.2 (by decide)
      (by rw [← extensionTest_iff]; decide),
   (resolveHrefForFile_spec "https:".toList "about/".toList).1 (by decide)⟩

end Main
